import Mathlib

/-!
# UPDI programmer: the Intel-HEX image

A shallow embedding of `intel_hexfile.h` / `intel_hexfile.cpp`
(class `updi::IntelHexFile`) and the properties of the parser and of the
page splitter.

Conventions of the embedding
* a `std::string` is a `List Char`, a byte is a `Nat` below 256;
* the object state is passed explicitly (`IntelHexFile`);
* what the C++ code does outside a normal return and outside the documented
  error return is a `Fault`: an exception other than `ios_base::failure`, or
  an operation whose behaviour the language leaves undefined.
-/

set_option autoImplicit false
set_option linter.dupNamespace false
set_option linter.unusedTactic false
set_option linter.unreachableTactic false
set_option maxRecDepth 200000
set_option maxHeartbeats 4000000

namespace updi

/-! ## Data model -/

/-- One flash page as handed to the programmer (`struct ProgramPage`). -/
structure ProgramPage where
  address : Nat
  pageSize : Nat
  data : List Nat
  deriving DecidableEq, Repr

/-- The members of `class IntelHexFile`. -/
structure IntelHexFile where
  nvm_flash_size : Nat
  nvm_page_size : Nat
  firmware_size : Nat
  nvm_data : List Nat
  nvm_pages : List ProgramPage
  deriving DecidableEq, Repr

/-- Behaviour of the C++ code that is neither a return nor an
`ios_base::failure`. -/
inductive Fault where
  /-- A call `std::string::substr(pos, n)` with `pos > size()` throws
  `std::out_of_range`. -/
  | out_of_range
  /-- The extraction `o >> v` stored nothing in `v` (the stream held no token), and the
  uninitialised `v` is returned. -/
  | unset_value
  /-- The assignment `nvm_data[index] = v` with `index >= nvm_data.size()`. -/
  | buffer_overrun (index : Nat)
  /-- A page copied from `[begin + offset, begin + offset + page_size)` where
  that range ends behind `nvm_data.end()`. -/
  | page_overrun (offset : Nat)
  /-- The expression `firmware_size % nvm_page_size` with a page size of 0,
  or `size % get_flash_pagesize()` with one. -/
  | divide_by_zero
  /-- An element `v[index]` of a vector read with `index >= v.size()`. -/
  | vector_overrun (index : Nat)
  /-- A member read that no constructor assigned. -/
  | unset_member
  deriving DecidableEq, Repr

/-- Result of `parse_record`. -/
inductive Parsed where
  /-- The statement `return start_addr;`. -/
  | accepted (start_addr : Nat) (self : IntelHexFile)
  /-- The statement `return -1;` with `error` set. -/
  | rejected (error : String) (self : IntelHexFile)
  | fault (f : Fault)
  deriving DecidableEq, Repr

/-- Result of `load_file`. -/
inductive Loaded where
  /-- The statement `return start_address;`. -/
  | returned (start_address : Nat) (self : IntelHexFile)
  /-- The statement `throw ios_base::failure(what)`. -/
  | failure (what : String) (self : IntelHexFile)
  | fault (f : Fault)
  deriving DecidableEq, Repr

/-! ## Reading a hexadecimal field -/

/-- The characters `std::isspace` accepts in the "C" locale; the formatted
extraction `o >> v` skips them first. -/
def isspace (c : Char) : Bool :=
  c = ' ' ∨ c = '\t' ∨ c = '\n' ∨ c = Char.ofNat 11 ∨ c = Char.ofNat 12 ∨ c = '\r'

/-- Value of one hexadecimal digit, either case. -/
def hexDigit (c : Char) : Option Nat :=
  if '0'.toNat ≤ c.toNat ∧ c.toNat ≤ '9'.toNat then some (c.toNat - '0'.toNat)
  else if 'a'.toNat ≤ c.toNat ∧ c.toNat ≤ 'f'.toNat then some (c.toNat - 'a'.toNat + 10)
  else if 'A'.toNat ≤ c.toNat ∧ c.toNat ≤ 'F'.toNat then some (c.toNat - 'A'.toNat + 10)
  else none

/-- Accumulates the leading hexadecimal digits of the input, most
significant first, and stops at the first other character. -/
def scanHex : List Char → Nat → Nat
  | [], acc => acc
  | c :: cs, acc =>
    match hexDigit c with
    | some d => scanHex cs (16 * acc + d)
    | none => acc

/-- Drops an optional sign; the flag tells whether it was a minus. -/
def takeSign : List Char → Bool × List Char
  | '-' :: cs => (true, cs)
  | '+' :: cs => (false, cs)
  | cs => (false, cs)

/-- Drops an optional `0x` / `0X` prefix. -/
def takePrefix : List Char → List Char
  | '0' :: 'x' :: cs => cs
  | '0' :: 'X' :: cs => cs
  | cs => cs

/-- The conversion `num_get` performs for an `uint64_t` when the stream's
base field is `hex`, on an input that starts with a non-blank character:
optional sign, optional `0x`, then digits. Without any digit the conversion
fails and stores 0; a value that does not fit 64 bits is stored as the
largest one; a minus sign negates modulo 2^64. -/
def extractHex (cs : List Char) : Nat :=
  let signed := takeSign cs
  let r := scanHex (takePrefix signed.2) 0
  if 2 ^ 64 ≤ r then 2 ^ 64 - 1
  else if signed.1 then (2 ^ 64 - r) % 2 ^ 64
  else r

/-- The helper `asciiHexTo64`: `o << hex << s; o >> v; return v;`. When `s`
is empty or all blank the extraction stores nothing and `v` is returned
uninitialised: `none`. -/
def asciiHexTo64 (s : List Char) : Option Nat :=
  match s.dropWhile isspace with
  | [] => none
  | c :: cs => some (extractHex (c :: cs))

/-- The call `s.substr(pos, n)`: throws (`none`) when `pos > s.size()`,
otherwise at most `n` characters from `pos` on. -/
def substr (s : List Char) (pos n : Nat) : Option (List Char) :=
  if pos ≤ s.length then some ((s.drop pos).take n) else none

/-- The expression `asciiHexTo64(record.substr(pos, 2))`. -/
def hexField (record : List Char) (pos : Nat) : Except Fault Nat :=
  match substr record pos 2 with
  | none => .error .out_of_range
  | some s =>
    match asciiHexTo64 s with
    | none => .error .unset_value
    | some v => .ok v

/-! ## `IntelHexFile` -/

/-- The constructor: the buffer is resized to `flash_size` zero bytes.
(`firmware_size` is left unset by the C++ constructor; `load_file` assigns
it before any use, the embedding starts it at 0.) -/
def IntelHexFile.IntelHexFile (flash_size page_size : Nat) : IntelHexFile :=
  { nvm_flash_size := flash_size
    nvm_page_size := page_size
    firmware_size := 0
    nvm_data := List.replicate flash_size 0
    nvm_pages := [] }

/-- Accessor `get_page_data`. -/
def get_page_data (self : IntelHexFile) : List ProgramPage := self.nvm_pages

/-- Accessor `get_flash_data`. -/
def get_flash_data (self : IntelHexFile) : List Nat := self.nvm_data

/-- State of the data loop of `parse_record` after it ran. -/
inductive Filled where
  /-- The loop ran to its end: the object and the running checksum. -/
  | done (self : IntelHexFile) (cChecksum : Nat)
  /-- The loop left through `return -1`. -/
  | rejected (error : String) (self : IntelHexFile)
  | fault (f : Fault)
  deriving DecidableEq, Repr

/-- The loop `for (uint8_t i = 0; i < count; i += 2) { ... }` of
`parse_record`. `count` is even and at most 254, so the body runs
`count / 2` times with `i = 0, 2, ..., count - 2` and the 8-bit counter
never wraps: the first argument is the number of iterations left. A store
at an index outside the buffer has no defined behaviour and ends the run as
a fault; what a compiled program does behind such a store is not modelled. -/
def fill (record : List Char) (start_addr : Nat) :
    Nat → Nat → IntelHexFile → Nat → Filled
  | 0, _, self, cChecksum => .done self cChecksum
  | n + 1, i, self, cChecksum =>
    match hexField record (9 + i) with
    | .error f => .fault f
    | .ok x =>
      let v := x % 256
      let cChecksum := (cChecksum + v) % 256
      if start_addr + i / 2 > self.nvm_flash_size then
        .rejected "Exceed maximum flash size" self
      else if start_addr + i / 2 < self.nvm_data.length then
        fill record start_addr n (i + 2)
          { self with
            nvm_data := self.nvm_data.set (start_addr + i / 2) v
            firmware_size := (self.firmware_size + 1) % 2 ^ 32 }
          cChecksum
      else .fault (.buffer_overrun (start_addr + i / 2))

/-- The right-hand side of `count != record.length() - (9 + 2 + 1)`, a
`size_t` subtraction that wraps for lines shorter than 12. -/
def dataChars (record : List Char) : Nat :=
  if record.length < 12 then record.length + 2 ^ 64 - 12 else record.length - 12

/-- The method `parse_record`. -/
def parse_record (self : IntelHexFile) (record : List Char) : Parsed :=
  if record.head? ≠ some ':' then .rejected "Wrong start of record" self
  else
    match hexField record 1, hexField record 3, hexField record 5, hexField record 7 with
    | .error f, _, _, _ => .fault f
    | .ok _, .error f, _, _ => .fault f
    | .ok _, .ok _, .error f, _ => .fault f
    | .ok _, .ok _, .ok _, .error f => .fault f
    | .ok cc, .ok hi, .ok lo, .ok tt =>
      let count := (2 * cc) % 256
      let high_addr := hi % 256
      let low_addr := lo % 256
      let start_addr := high_addr * 256 + low_addr
      let recordType := tt % 256
      if recordType ≠ 0 ∧ recordType ≠ 1 then .rejected "Unsupported record type" self
      else
        let cChecksum := (count / 2 + high_addr + low_addr + recordType) % 256
        if count ≠ dataChars record then .rejected "Wrong data size" self
        else
          match fill record start_addr (count / 2) 0 self cChecksum with
          | .fault f => .fault f
          | .rejected error self1 => .rejected error self1
          | .done self1 cChecksum1 =>
            match hexField record (record.length - 3) with
            | .error f => .fault f
            | .ok kk =>
              if (cChecksum1 + kk % 256) % 256 ≠ 0 then
                .rejected "Failed to verify checksum" self1
              else .accepted start_addr self1

/-- The call `file.getline(rec_line, 524); string record = rec_line;` on one
line of the file (the text up to the next line feed): `none` when the line
has 524 characters or more, which sets the stream's fail bit; otherwise the
line up to its first NUL character. -/
def getline (line : List Char) : Option (List Char) :=
  if 524 ≤ line.length then none else some (line.takeWhile (fun c => c ≠ Char.ofNat 0))

/-- State of the record loop of `load_file` after it ran. -/
inductive Scanned where
  /-- The loop left through `break`. -/
  | done (start_address : Nat) (self : IntelHexFile)
  /-- The loop left through `throw ios_base::failure(parse_error)`. -/
  | failure (what : String) (self : IntelHexFile)
  | fault (f : Fault)
  deriving DecidableEq, Repr

/-- The `while (true)` loop of `load_file` over the lines of the file. -/
def load_records : List (List Char) → IntelHexFile → Nat → Scanned
  | [], self, start_address => .done start_address self
  | line :: rest, self, start_address =>
    match getline line with
    | none => .done start_address self
    | some record =>
      if record = [] then .done start_address self
      else
        match parse_record self record with
        | .fault f => .fault f
        | .rejected error self1 => .failure error self1
        | .accepted rec_start self1 =>
          load_records rest self1
            (if rec_start < start_address then rec_start else start_address)

/-- The call `nvm_data.resize(n)`. -/
def resize (data : List Nat) (n : Nat) : List Nat :=
  data.take n ++ List.replicate (n - data.length) 0

/-- The loop `for (size_t i = 0; i < nvm_data.size(); i += nvm_page_size)`
that splits the buffer, for a page size above 0: the first argument is the
number of iterations left. -/
def split_pages (page_size : Nat) (data : List Nat) :
    Nat → Nat → List ProgramPage → Except Fault (List ProgramPage)
  | 0, _, pages => .ok pages
  | n + 1, i, pages =>
    if i + page_size ≤ data.length then
      split_pages page_size data n (i + page_size)
        (pages ++ [{ address := i, pageSize := page_size,
                     data := (data.drop i).take page_size }])
    else .error (.page_overrun i)

/-- The value `rounded_size` of `load_file`, in 32-bit arithmetic. -/
def rounded_size (firmware_size page_size : Nat) : Nat :=
  ((firmware_size + page_size - 1) % 2 ^ 32 / page_size * page_size) % 2 ^ 32

/-- The method `load_file`; `file` is `none` when the file cannot be opened
and otherwise its lines. -/
def load_file (self : IntelHexFile) (filename : String)
    (file : Option (List (List Char))) : Loaded :=
  match file with
  | none => .failure ("failed to open file " ++ filename) self
  | some lines =>
    match load_records lines { self with firmware_size := 0 } 0x7fffffff with
    | .fault f => .fault f
    | .failure what self1 => .failure what self1
    | .done start_address self1 =>
      if self1.nvm_page_size = 0 then .fault .divide_by_zero
      else
        let data :=
          if self1.firmware_size % self1.nvm_page_size ≠ 0 then
            resize self1.nvm_data (rounded_size self1.firmware_size self1.nvm_page_size)
          else self1.nvm_data
        match split_pages self1.nvm_page_size data
            ((data.length + self1.nvm_page_size - 1) / self1.nvm_page_size) 0
            self1.nvm_pages with
        | .error f => .fault f
        | .ok pages =>
          .returned start_address { self1 with nvm_data := data, nvm_pages := pages }

/-! ## The record as the parser reads it

The fields of a line at the positions where `parse_record` reads them. They
are used to state the properties below. -/

/-- Value read at `pos`, 0 when nothing can be read there. -/
def fieldVal (record : List Char) (pos : Nat) : Nat :=
  match hexField record pos with
  | .ok x => x
  | .error _ => 0

/-- Whether a value can be read at `pos`. -/
def fieldOk (record : List Char) (pos : Nat) : Bool :=
  match hexField record pos with
  | .ok _ => true
  | .error _ => false

/-- The byte-count field `CC` as written (characters 1 and 2). -/
def rec_cc (record : List Char) : Nat := fieldVal record 1

/-- The number of data bytes the parser handles: `count / 2` for the 8-bit
`count = 2 * CC`. -/
def rec_count (record : List Char) : Nat := (2 * rec_cc record) % 256 / 2

/-- High byte of the offset field (characters 3 and 4). -/
def rec_high (record : List Char) : Nat := fieldVal record 3 % 256

/-- Low byte of the offset field (characters 5 and 6). -/
def rec_low (record : List Char) : Nat := fieldVal record 5 % 256

/-- The 16-bit offset field `AAAA`. -/
def rec_addr (record : List Char) : Nat := rec_high record * 256 + rec_low record

/-- The record type `TT` (characters 7 and 8). -/
def rec_type (record : List Char) : Nat := fieldVal record 7 % 256

/-- Data byte `j` (characters `9 + 2 j` and `10 + 2 j`). -/
def rec_byte (record : List Char) (j : Nat) : Nat := fieldVal record (9 + 2 * j) % 256

/-- The `n` data bytes from index `j` on. -/
def bytes_from (record : List Char) : Nat → Nat → List Nat
  | _, 0 => []
  | j, n + 1 => rec_byte record j :: bytes_from record (j + 1) n

/-- The data bytes the parser handles. -/
def rec_bytes (record : List Char) : List Nat := bytes_from record 0 (rec_count record)

/-- The checksum field `KK`: the two characters before the last one. -/
def rec_kk (record : List Char) : Nat := fieldVal record (record.length - 3) % 256

/-- Stores `vals` at consecutive offsets from `a` on. -/
def write_bytes : List Nat → Nat → List Nat → List Nat
  | data, _, [] => data
  | data, a, v :: vs => write_bytes (data.set a v) (a + 1) vs

/-- The 32-bit counter after `n` increments. -/
def bump : Nat → Nat → Nat
  | 0, fs => fs
  | n + 1, fs => bump n ((fs + 1) % 2 ^ 32)

/-- The object after an accepted record: its bytes stored from its offset
on and each of them counted. -/
def store (self : IntelHexFile) (record : List Char) : IntelHexFile :=
  { self with
    nvm_data := write_bytes self.nvm_data (rec_addr record) (rec_bytes record)
    firmware_size := bump (rec_count record) self.firmware_size }

/-- The conditions under which `parse_record` accepts a line, for a flash
size and a buffer length. -/
def Acceptable (flash_size buflen : Nat) (record : List Char) : Prop :=
  record.head? = some ':' ∧
  (fieldOk record 1 = true ∧ fieldOk record 3 = true ∧
    fieldOk record 5 = true ∧ fieldOk record 7 = true) ∧
  (rec_type record = 0 ∨ rec_type record = 1) ∧
  (2 * rec_cc record) % 256 = dataChars record ∧
  (∀ k, k < rec_count record → fieldOk record (9 + 2 * k) = true) ∧
  (∀ k, k < rec_count record →
    rec_addr record + k ≤ flash_size ∧ rec_addr record + k < buflen) ∧
  fieldOk record (record.length - 3) = true ∧
  (rec_count record + rec_high record + rec_low record + rec_type record +
    (rec_bytes record).sum + rec_kk record) % 256 = 0

/-- The conditions of `Acceptable` apart from the checksum. -/
def Shaped (flash_size buflen : Nat) (record : List Char) : Prop :=
  record.head? = some ':' ∧
  (fieldOk record 1 = true ∧ fieldOk record 3 = true ∧
    fieldOk record 5 = true ∧ fieldOk record 7 = true) ∧
  (rec_type record = 0 ∨ rec_type record = 1) ∧
  (2 * rec_cc record) % 256 = dataChars record ∧
  (∀ k, k < rec_count record → fieldOk record (9 + 2 * k) = true) ∧
  (∀ k, k < rec_count record →
    rec_addr record + k ≤ flash_size ∧ rec_addr record + k < buflen) ∧
  fieldOk record (record.length - 3) = true

/-- The 8-bit sum the parser checks: `count / 2`, the offset bytes, the type,
the data bytes and the checksum field. -/
def check_sum (record : List Char) : Nat :=
  (rec_count record + rec_high record + rec_low record + rec_type record +
    (rec_bytes record).sum + rec_kk record) % 256

/-- The line with the two characters of data byte `j` replaced. -/
def replace_byte (record : List Char) (j : Nat) (x y : Char) : List Char :=
  (record.set (9 + 2 * j) x).set (10 + 2 * j) y

/-- The records `load_file` reads from the lines of a file: the lines up to
the first that is empty or too long for the line buffer, each cut at its
first NUL character. -/
def records : List (List Char) → List (List Char)
  | [] => []
  | line :: rest =>
    match getline line with
    | none => []
    | some record => if record = [] then [] else record :: records rest

/-- Two records whose data bytes go to different offsets. -/
def disjoint (r1 r2 : List Char) : Prop :=
  rec_count r1 = 0 ∨ rec_count r2 = 0 ∨
  rec_addr r1 + rec_count r1 ≤ rec_addr r2 ∨
  rec_addr r2 + rec_count r2 ≤ rec_addr r1

/-- The object `load_file` returns, if it returns. -/
def Loaded.self? : Loaded → Option IntelHexFile
  | .returned _ self => some self
  | _ => none

/-- The start address `load_file` returns, if it returns. -/
def Loaded.start? : Loaded → Option Nat
  | .returned start_address _ => some start_address
  | _ => none

/-- The page `load_file` cuts from the buffer at `offset`. -/
def page_at (page_size : Nat) (data : List Nat) (offset : Nat) : ProgramPage :=
  { address := offset, pageSize := page_size, data := (data.drop offset).take page_size }

/-- The pages of a buffer whose length is a multiple of the page size. -/
def pages_of (page_size : Nat) (data : List Nat) : List ProgramPage :=
  (List.range (data.length / page_size)).map (fun k => page_at page_size data (k * page_size))

/-- The buffer `load_file` leaves, from the buffer and the byte count after
the last record. -/
def aligned (page_size firmware_size : Nat) (data : List Nat) : List Nat :=
  if firmware_size % page_size ≠ 0 then resize data (rounded_size firmware_size page_size)
  else data

/-- The running minimum `load_file` keeps of the offsets of the records. -/
def min_start (start_address : Nat) (record : List Char) : Nat :=
  if rec_addr record < start_address then rec_addr record else start_address

instance (flash_size buflen : Nat) (record : List Char) :
    Decidable (Acceptable flash_size buflen record) := by
  unfold Acceptable; infer_instance

instance (r1 r2 : List Char) : Decidable (disjoint r1 r2) := by
  unfold disjoint; infer_instance

/-- The object after `load_file` returned on a new image for the given
lines: the records stored in order, the buffer aligned, the pages cut. -/
def loaded_image (flash_size page_size : Nat) (lines : List (List Char)) : IntelHexFile :=
  let s1 := (records lines).foldl store (IntelHexFile.IntelHexFile flash_size page_size)
  { s1 with
    nvm_data := aligned page_size s1.firmware_size s1.nvm_data
    nvm_pages := pages_of page_size (aligned page_size s1.firmware_size s1.nvm_data) }

/-- The byte two hexadecimal digits spell, `none` for anything else. -/
def hex2 (cs : List Char) : Option Nat :=
  match cs with
  | [c1, c2] =>
    match hexDigit c1, hexDigit c2 with
    | some d1, some d2 => some (16 * d1 + d2)
    | _, _ => none
  | _ => none

/-- The text of a record: the colon, the fields `CC`, `AAAA` (two bytes),
`TT`, the data fields, `KK`, and what follows the checksum on the line. -/
def record_text (fcc fhi flo ftt : List Char) (fdata : List (List Char)) (fkk : List Char)
    (trailer : List Char) : List Char :=
  ':' :: (fcc ++ fhi ++ flo ++ ftt ++ fdata.flatten ++ fkk ++ trailer)

/-! ## Sample files -/

/-- A firmware of 64 bytes `FF` at offset 0 in one data record, then the
end-of-file record; every line ends in a carriage return. -/
def one_page_hex : List (List Char) :=
  [":40000000FFFFFFFFFFFFFFFFFFFFFFFFFFFFFFFFFFFFFFFFFFFFFFFFFFFFFFFFFFFFFFFFFFFFFFFFFFFFFFFFFFFFFFFFFFFFFFFFFFFFFFFFFFFFFFFFFFFFFFFFFFFFFFFF00\r".toList,
   ":00000001FF\r".toList]

/-- One byte `AA` at offset 0x0100 and nothing below it, then the
end-of-file record. -/
def sparse_hex : List (List Char) :=
  [":01010000AA54\r".toList,
   ":00000001FF\r".toList]

/-- Two bytes at offset 0, then the end-of-file record. -/
def two_byte_hex : List (List Char) :=
  [":02000000AABB99\r".toList,
   ":00000001FF\r".toList]

/-- Two records out of order, at offsets 4 and 2, and no end-of-file
record. -/
def unordered_hex : List (List Char) :=
  [":01000400AA51\r".toList,
   ":01000200BB42\r".toList]

/-- The same two records in ascending order. -/
def ordered_hex : List (List Char) :=
  [":01000200BB42\r".toList,
   ":01000400AA51\r".toList]

/-- One data byte at offset 0, then the end-of-file record. -/
def one_byte_hex : List (List Char) :=
  [":0100000055AA\r".toList,
   ":00000001FF\r".toList]

/-- The same record of two bytes twice: both write the offsets 0 and 1. -/
def twice_hex : List (List Char) :=
  [":02000000AABB99\r".toList,
   ":02000000AABB99\r".toList]

/-! ## Device profiles (`device.h`) -/

/-- The set `avr_d_series`. -/
def avr_d_series : List String :=
  ["avr128da28", "avr128da32", "avr128da48", "avr128da64", "avr64da28",
   "avr64da32", "avr64da48", "avr64da64", "avr32da28", "avr32da32",
   "avr32da48", "avr128db28", "avr128db32", "avr128db48", "avr128db64",
   "avr64db28", "avr64db32", "avr64db48", "avr64db64", "avr32db28",
   "avr32db32", "avr32db48", "avr64dd14", "avr64dd20", "avr64dd28",
   "avr64dd32", "avr32dd14", "avr32dd20", "avr32dd28", "avr32dd32",
   "avr16dd14", "avr16dd20", "avr16dd28", "avr16dd32"]

/-- The set `avr_mega_48k`. -/
def avr_mega_48k : List String := ["mega4808", "mega4809"]

/-- The set `avr_mega_32k`. -/
def avr_mega_32k : List String := ["mega3208", "mega3209"]

/-- The set `avr_mega_16k`. -/
def avr_mega_16k : List String := ["mega1608", "mega1609"]

/-- The set `avr_mega_8k`. -/
def avr_mega_8k : List String := ["mega808", "mega809"]

/-- The set `tiny_32k`. -/
def tiny_32k : List String := ["tiny3216", "tiny3217"]

/-- The set `tiny_16k`. -/
def tiny_16k : List String :=
  ["tiny1604", "tiny1606", "tiny1607", "tiny1614", "tiny1616", "tiny1617"]

/-- The set `tiny_8k`. -/
def tiny_8k : List String :=
  ["tiny804", "tiny806", "tiny807", "tiny814", "tiny816", "tiny817"]

/-- The set `tiny_4k`. -/
def tiny_4k : List String :=
  ["tiny402", "tiny404", "tiny406", "tiny412", "tiny414", "tiny416", "tiny417"]

/-- The set `tiny_2k`. -/
def tiny_2k : List String := ["tiny202", "tiny204", "tiny212", "tiny214"]

/-- The members of `class AvrDevice`. The three flash members have no
initialiser: `none` stands for a member the constructor never assigned. -/
structure AvrDevice where
  name : String
  syscfg_base_addr : Nat
  nvmctrl_base_addr : Nat
  sigrow_base_addr : Nat
  fuses_base_addr : Nat
  userrow_base_addr : Nat
  lock_address : Nat
  flash_start_addr : Option Nat
  flash_size : Option Nat
  flash_page_size : Option Nat
  deriving DecidableEq, Repr

/-- A decimal digit, the class `\d` of the regular expression. -/
def isDigit (c : Char) : Bool := '0'.toNat ≤ c.toNat ∧ c.toNat ≤ '9'.toNat

/-- The call `std::regex_search(device_name, sm, r)` for `r("\\d+")` and the
match `sm.str()`: the leftmost run of digits, as long as it goes; `none`
when the name has no digit. -/
def regex_search_digits (device_name : List Char) : Option (List Char) :=
  match device_name.dropWhile (fun c => !isDigit c) with
  | [] => none
  | c :: cs => some ((c :: cs).takeWhile isDigit)

/-- The call `std::stoi` on a string of decimal digits. (It throws for a
number above `INT_MAX`; the numbers of the names in `avr_d_series` have two
or three digits.) -/
def stoi (digits : List Char) : Nat :=
  digits.foldl (fun acc c => 10 * acc + (c.toNat - '0'.toNat)) 0

/-- The profile after the member initialisers and `lock_address = 0`. -/
def AvrDevice.defaults (device_name : String) : AvrDevice :=
  { name := device_name
    syscfg_base_addr := 0x0F00
    nvmctrl_base_addr := 0x1000
    sigrow_base_addr := 0x1100
    fuses_base_addr := 0x1280
    userrow_base_addr := 0x1300
    lock_address := 0
    flash_start_addr := none
    flash_size := none
    flash_page_size := none }

/-- The constructor `AvrDevice::AvrDevice`. In its last branch it writes
"Unknown device" to the error stream and changes nothing. -/
def AvrDevice.AvrDevice (device_name : String) : AvrDevice :=
  if device_name ∈ avr_d_series then
    { AvrDevice.defaults device_name with
      fuses_base_addr := 0x1050
      userrow_base_addr := 0x1080
      lock_address := 0x1040
      flash_start_addr := some 0x800000
      flash_page_size := some 256
      flash_size :=
        match regex_search_digits device_name.toList with
        | some sm => some ((stoi sm * 1024) % 2 ^ 32)
        | none => none }
  else if device_name ∈ avr_mega_48k then
    { AvrDevice.defaults device_name with
      flash_start_addr := some 0x4000, flash_size := some (48 * 1024),
      flash_page_size := some 128 }
  else if device_name ∈ avr_mega_32k then
    { AvrDevice.defaults device_name with
      flash_start_addr := some 0x4000, flash_size := some (32 * 1024),
      flash_page_size := some 128 }
  else if device_name ∈ avr_mega_16k then
    { AvrDevice.defaults device_name with
      flash_start_addr := some 0x4000, flash_size := some (16 * 1024),
      flash_page_size := some 64 }
  else if device_name ∈ avr_mega_8k then
    { AvrDevice.defaults device_name with
      flash_start_addr := some 0x4000, flash_size := some (8 * 1024),
      flash_page_size := some 64 }
  else if device_name ∈ tiny_32k then
    { AvrDevice.defaults device_name with
      flash_start_addr := some 0x8000, flash_size := some (32 * 1024),
      flash_page_size := some 128 }
  else if device_name ∈ tiny_16k then
    { AvrDevice.defaults device_name with
      flash_start_addr := some 0x8000, flash_size := some (16 * 1024),
      flash_page_size := some 64 }
  else if device_name ∈ tiny_8k then
    { AvrDevice.defaults device_name with
      flash_start_addr := some 0x8000, flash_size := some (8 * 1024),
      flash_page_size := some 64 }
  else if device_name ∈ tiny_4k then
    { AvrDevice.defaults device_name with
      flash_start_addr := some 0x8000, flash_size := some (4 * 1024),
      flash_page_size := some 64 }
  else if device_name ∈ tiny_2k then
    { AvrDevice.defaults device_name with
      flash_start_addr := some 0x8000, flash_size := some (2 * 1024),
      flash_page_size := some 64 }
  else AvrDevice.defaults device_name

/-- The ten family tables, in the order the constructor consults them. -/
def family_tables : List (List String) :=
  [avr_d_series, avr_mega_48k, avr_mega_32k, avr_mega_16k, avr_mega_8k,
   tiny_32k, tiny_16k, tiny_8k, tiny_4k, tiny_2k]

/-- The tiny tables, each with its flash size and its page size in bytes. -/
def tiny_tables : List (List String × Nat × Nat) :=
  [(tiny_32k, 32 * 1024, 128), (tiny_16k, 16 * 1024, 64), (tiny_8k, 8 * 1024, 64),
   (tiny_4k, 4 * 1024, 64), (tiny_2k, 2 * 1024, 64)]

/-- The first decimal number in a name: the digits from the first digit of
the name up to the next character that is none, read in base ten; 0 for a
name without digit. -/
def first_decimal_number (name : String) : Nat :=
  ((name.toList.dropWhile (fun c => !c.isDigit)).takeWhile Char.isDigit).foldl
    (fun acc c => 10 * acc + (c.toNat - 48)) 0

/-! ## Running an operation on an object

The operations of the serial line and of the three layers above it change
the object they are called on and either return, throw an `UpdiException`,
or never return. -/

/-- Result of an operation on an object of type `σ`. -/
inductive Outcome (σ α : Type) where
  /-- The operation returned `value`. -/
  | ok (value : α) (self : σ)
  /-- The operation threw `UpdiException(what)`. -/
  | thrown (what : String) (self : σ)
  /-- The operation never returns: it waits for bytes that do not come. -/
  | hang (self : σ)
  | fault (f : Fault)
  deriving DecidableEq, Repr

/-- An operation on an object of type `σ`. -/
abbrev Op (σ α : Type) : Type := σ → Outcome σ α

/-- Sequencing of two operations. -/
def Op.bind {σ α β : Type} (m : Op σ α) (f : α → Op σ β) : Op σ β := fun self =>
  match m self with
  | .ok a self1 => f a self1
  | .thrown what self1 => .thrown what self1
  | .hang self1 => .hang self1
  | .fault e => .fault e

instance (σ : Type) : Monad (Op σ) where
  pure a := fun self => .ok a self
  bind := Op.bind

/-- The statement `throw UpdiException(what)`. -/
def raise {σ α : Type} (what : String) : Op σ α := fun self => .thrown what self

/-- The object an operation leaves, where there is one. -/
def Outcome.self? {σ α : Type} : Outcome σ α → Option σ
  | .ok _ self => some self
  | .thrown _ self => some self
  | .hang self => some self
  | .fault _ => none

/-- The object an operation leaves when it returns. -/
def Outcome.returned? {σ α : Type} : Outcome σ α → Option σ
  | .ok _ self => some self
  | _ => none

/-! ## The serial line (`updi_serial.cpp`) -/

/-- The serial port as the host sees it. `written` holds the buffers handed
to `write`, oldest first. `pending` is what the calls of `read` to come
find: `none` for a call that fails (returns -1), `some bytes` for the bytes
on hand at a call (`some []` for a call that times out); after the last
entry every call times out. -/
structure UpdiSerial where
  written : List (List Nat)
  pending : List (Option (List Nat))
  deriving DecidableEq, Repr

/-- The call `read(_serial_fd, buf, n)`: `none` for -1, otherwise the bytes
stored, at most `n`; bytes on hand beyond `n` stay for the next call. -/
def UpdiSerial.read (n : Nat) (self : UpdiSerial) : Option (List Nat) × UpdiSerial :=
  if n = 0 then (some [], self)
  else
    match self.pending with
    | [] => (some [], self)
    | none :: rest => (none, { self with pending := rest })
    | some bytes :: rest =>
      if bytes.length ≤ n then (some bytes, { self with pending := rest })
      else (some (bytes.take n), { self with pending := some (bytes.drop n) :: rest })

/-- The method `UpdiSerial::send`: one `write` of the command and one `read`
for its echo, whose result is not looked at. -/
def UpdiSerial.send (command : List Nat) : Op UpdiSerial Unit := fun self =>
  .ok () (UpdiSerial.read command.length
    { self with written := self.written ++ [command] }).2

/-- The loop of `UpdiSerial::receive`, by recursion on what the calls of
`read` find: `data` holds the bytes stored so far. A call that returns no
byte does not end the loop. -/
def UpdiSerial.receive_loop (expected_size : Nat) (written : List (List Nat)) :
    List Nat → List (Option (List Nat)) → Outcome UpdiSerial (List Nat)
  | data, [] =>
    if data.length < expected_size then .hang { written := written, pending := [] }
    else .ok data { written := written, pending := [] }
  | data, event :: rest =>
    if data.length < expected_size then
      match event with
      | none => .ok [] { written := written, pending := rest }
      | some bytes =>
        if bytes.length ≤ expected_size - data.length then
          UpdiSerial.receive_loop expected_size written (data ++ bytes) rest
        else
          .ok (data ++ bytes.take (expected_size - data.length))
            { written := written
              pending := some (bytes.drop (expected_size - data.length)) :: rest }
    else .ok data { written := written, pending := event :: rest }

/-- The method `UpdiSerial::receive`: the bytes received, `expected_size` of
them, or none at all after a failed `read`. -/
def UpdiSerial.receive (expected_size : Nat) : Op UpdiSerial (List Nat) := fun self =>
  UpdiSerial.receive_loop expected_size self.written [] self.pending

/-- The method `send_double_break`: two BREAK bytes, sent at 300 baud. (The
port is taken to open at either rate.) -/
def UpdiSerial.send_double_break : Op UpdiSerial Unit := UpdiSerial.send [0x00, 0x00]

/-- An upper bound of the number of calls of `read` that find something. -/
def UpdiSerial.budget (self : UpdiSerial) : Nat :=
  (self.pending.map (fun event => 1 + (event.getD []).length)).sum

/-! ## The instruction set (`updi_instruction_set.cpp`) -/

/-- The members of `class UpdiInstruction`. -/
structure UpdiInstruction where
  _serial_comm : UpdiSerial
  _use_24bit_addr : Bool
  deriving DecidableEq, Repr

/-- A call on `_serial_comm`. -/
def UpdiInstruction.serial {α : Type} (m : Op UpdiSerial α) : Op UpdiInstruction α :=
  fun self =>
    match m self._serial_comm with
    | .ok a c => .ok a { self with _serial_comm := c }
    | .thrown what c => .thrown what { self with _serial_comm := c }
    | .hang c => .hang { self with _serial_comm := c }
    | .fault e => .fault e

/-- The test `response.size() != 1 || response[0] != UPDI_PHY_ACK`. -/
def no_ack (response : List Nat) : Bool := response ≠ [0x40]

/-- The bytes `address & 0xFF`, `(address >> 8) & 0xFF` and, with 24-bit
addresses, `(address >> 16) & 0xFF`. -/
def address_bytes (use_24bit_addr : Bool) (address : Nat) : List Nat :=
  if use_24bit_addr then
    [address &&& 0xFF, (address >>> 8) &&& 0xFF, (address >>> 16) &&& 0xFF]
  else [address &&& 0xFF, (address >>> 8) &&& 0xFF]

/-- The method `ldcs`. -/
def UpdiInstruction.ldcs (reg_addr : Nat) : Op UpdiInstruction Nat := do
  UpdiInstruction.serial (UpdiSerial.send [0x55, 0x80 ||| (reg_addr &&& 0x0F)])
  let response ← UpdiInstruction.serial (UpdiSerial.receive 1)
  match response with
  | [value] => pure value
  | _ => raise "Error with ldcs"

/-- The method `stcs`. -/
def UpdiInstruction.stcs (reg_address value : Nat) : Op UpdiInstruction Unit :=
  UpdiInstruction.serial (UpdiSerial.send [0x55, 0xC0 ||| (reg_address &&& 0x0F), value])

/-- The first frame of `ld`, `ld16`, `st` and `st16`: SYNC, the opcode with
the address width and `width`, the address. -/
def direct_frame (opcode width : Nat) (use_24bit_addr : Bool) (address : Nat) : List Nat :=
  if use_24bit_addr then [0x55, opcode ||| 0x08 ||| width] ++ address_bytes true address
  else [0x55, opcode ||| 0x04 ||| width] ++ address_bytes false address

/-- The method `ld`. -/
def UpdiInstruction.ld (address : Nat) : Op UpdiInstruction Nat := fun self =>
  (do
    UpdiInstruction.serial (UpdiSerial.send (direct_frame 0x00 0x00 self._use_24bit_addr address))
    let response ← UpdiInstruction.serial (UpdiSerial.receive 1)
    match response with
    | [value] => pure value
    | _ => raise "Error with ld") self

/-- The method `ld16`. -/
def UpdiInstruction.ld16 (address : Nat) : Op UpdiInstruction (List Nat) := fun self =>
  (do
    UpdiInstruction.serial (UpdiSerial.send (direct_frame 0x00 0x01 self._use_24bit_addr address))
    let response ← UpdiInstruction.serial (UpdiSerial.receive 2)
    if response.length ≠ 2 then raise "Error with ld16" else pure response) self

/-- The method `st`. -/
def UpdiInstruction.st (address value : Nat) : Op UpdiInstruction Unit := fun self =>
  (do
    UpdiInstruction.serial (UpdiSerial.send (direct_frame 0x40 0x00 self._use_24bit_addr address))
    let response ← UpdiInstruction.serial (UpdiSerial.receive 1)
    if no_ack response then raise "Error with st"
    else do
      UpdiInstruction.serial (UpdiSerial.send [value])
      let response ← UpdiInstruction.serial (UpdiSerial.receive 1)
      if no_ack response then raise "Error with st" else pure ()) self

/-- The method `st16`. -/
def UpdiInstruction.st16 (address value : Nat) : Op UpdiInstruction Unit := fun self =>
  (do
    UpdiInstruction.serial (UpdiSerial.send (direct_frame 0x40 0x01 self._use_24bit_addr address))
    let response ← UpdiInstruction.serial (UpdiSerial.receive 1)
    if no_ack response then raise "Error with st16"
    else do
      UpdiInstruction.serial (UpdiSerial.send [value &&& 0xFF, (value >>> 8) &&& 0xFF])
      let response ← UpdiInstruction.serial (UpdiSerial.receive 1)
      if no_ack response then raise "Error with st16" else pure ()) self

/-- The method `ld_ptr_inc`. -/
def UpdiInstruction.ld_ptr_inc (size : Nat) : Op UpdiInstruction (List Nat) := do
  UpdiInstruction.serial (UpdiSerial.send [0x55, 0x20 ||| 0x04 ||| 0x00])
  let response ← UpdiInstruction.serial (UpdiSerial.receive size)
  if response.length ≠ size then raise "Error with ld_ptr_inc" else pure response

/-- The method `ld_ptr_inc16`. -/
def UpdiInstruction.ld_ptr_inc16 (size : Nat) : Op UpdiInstruction (List Nat) := do
  UpdiInstruction.serial (UpdiSerial.send [0x55, 0x20 ||| 0x04 ||| 0x01])
  let response ← UpdiInstruction.serial (UpdiSerial.receive (size * 2))
  if response.length ≠ size * 2 then raise "Error with ld_ptr_inc16" else pure response

/-- The method `st_ptr`. -/
def UpdiInstruction.st_ptr (address : Nat) : Op UpdiInstruction Unit := fun self =>
  (do
    UpdiInstruction.serial (UpdiSerial.send
      (if self._use_24bit_addr then [0x55, 0x60 ||| 0x08 ||| 0x02] ++ address_bytes true address
       else [0x55, 0x60 ||| 0x08 ||| 0x01] ++ address_bytes false address))
    let response ← UpdiInstruction.serial (UpdiSerial.receive 1)
    if no_ack response then raise "Error with st_prt" else pure ()) self

/-- The loop `while (n < data.size())` of `st_ptr_inc` over the bytes from
index `n` on: each is sent alone and followed by the wait for its ACK. -/
def UpdiInstruction.st_ptr_inc_rest : List Nat → Op UpdiInstruction Unit
  | [] => pure ()
  | byte :: rest => do
    UpdiInstruction.serial (UpdiSerial.send [byte])
    let tmp_ack ← UpdiInstruction.serial (UpdiSerial.receive 1)
    if no_ack tmp_ack then raise "Error with st_ptr_inc"
    else UpdiInstruction.st_ptr_inc_rest rest

/-- The method `st_ptr_inc`. It fills `cmd` with SYNC, the opcode and
`data[0]` and then sends `data`: the call is `_serial_comm->send(data)`.
Reading `data[0]` of an empty vector is a fault. -/
def UpdiInstruction.st_ptr_inc (data : List Nat) : Op UpdiInstruction Unit :=
  match data with
  | [] => fun _ => .fault (.vector_overrun 0)
  | first :: rest =>
    let _cmd := [0x55, 0x60 ||| 0x04 ||| 0x00, first]
    do
      UpdiInstruction.serial (UpdiSerial.send data)
      let response ← UpdiInstruction.serial (UpdiSerial.receive 1)
      if no_ack response then raise "Ack error with st_ptr_inc"
      else UpdiInstruction.st_ptr_inc_rest rest

/-- The method `st_ptr_inc16`. -/
def UpdiInstruction.st_ptr_inc16 (data : List Nat) : Op UpdiInstruction Unit := do
  UpdiInstruction.stcs 0x02 ((1 <<< 7) ||| (1 <<< 3))
  UpdiInstruction.serial (UpdiSerial.send [0x55, 0x60 ||| 0x04 ||| 0x01])
  UpdiInstruction.serial (UpdiSerial.send data)
  UpdiInstruction.stcs 0x02 (1 <<< 7)

/-- The method `repeat`; the count is an `uint32_t`. -/
def UpdiInstruction.repeat (repeats : Nat) : Op UpdiInstruction Unit :=
  UpdiInstruction.serial (UpdiSerial.send
    [0x55, 0xA0 ||| 0x00, ((repeats + 2 ^ 32 - 1) % 2 ^ 32) &&& 0xFF])

/-- The method `read_sib`: the bytes received and a closing NUL. -/
def UpdiInstruction.read_sib : Op UpdiInstruction (List Nat) := do
  UpdiInstruction.serial (UpdiSerial.send [0x55, 0xE0 ||| 0x04 ||| 0x01])
  let response ← UpdiInstruction.serial (UpdiSerial.receive 16)
  pure (response ++ [0])

/-- The method `key`; a key is the list of its character codes. -/
def UpdiInstruction.key (key : List Nat) : Op UpdiInstruction Unit := do
  UpdiInstruction.serial (UpdiSerial.send [0x55, 0xE0 ||| 0x00 ||| 0x00])
  UpdiInstruction.serial (UpdiSerial.send key.reverse)

/-- The method `init`. -/
def UpdiInstruction.init : Op UpdiInstruction Unit := do
  UpdiInstruction.stcs 0x03 (1 <<< 3)
  UpdiInstruction.stcs 0x02 (1 <<< 7)

/-- The method `updi_is_ready`. -/
def UpdiInstruction.updi_is_ready : Op UpdiInstruction Bool := do
  let statusa ← UpdiInstruction.ldcs 0x00
  pure (statusa ≠ 0)

/-- The method `enable_24bit_address`. -/
def UpdiInstruction.enable_24bit_address (mode : Bool) : Op UpdiInstruction Unit :=
  fun self => .ok () { self with _use_24bit_addr := mode }

/-- The constructor `UpdiInstruction::UpdiInstruction` on the serial port
its first statement opened. -/
def UpdiInstruction.UpdiInstruction (serial : UpdiSerial) : Outcome UpdiInstruction Unit :=
  (do
    UpdiInstruction.serial UpdiSerial.send_double_break
    UpdiInstruction.init
    let ready ← UpdiInstruction.updi_is_ready
    if !ready then do
      UpdiInstruction.serial UpdiSerial.send_double_break
      UpdiInstruction.init
    else pure ()) { _serial_comm := serial, _use_24bit_addr := false }

/-! ## The application layer (`updi_application.cpp`)

The time `system_clock::now()` returns is given from outside: `clock k` is
the value, in milliseconds, of call number `k` of the run. -/

/-- The members of `class UpdiApplication`, and the number of readings of
the clock taken so far. -/
structure UpdiApplication where
  _updi_instruction : UpdiInstruction
  _avr_device : AvrDevice
  _pdi_v2 : Bool
  clock_readings : Nat
  deriving DecidableEq, Repr

/-- A call on `_updi_instruction`. -/
def UpdiApplication.instruction {α : Type} (m : Op UpdiInstruction α) : Op UpdiApplication α :=
  fun self =>
    match m self._updi_instruction with
    | .ok a i => .ok a { self with _updi_instruction := i }
    | .thrown what i => .thrown what { self with _updi_instruction := i }
    | .hang i => .hang { self with _updi_instruction := i }
    | .fault e => .fault e

/-- The call `system_clock::now()`. -/
def UpdiApplication.now (clock : Nat → Nat) : Op UpdiApplication Nat := fun self =>
  .ok (clock self.clock_readings) { self with clock_readings := self.clock_readings + 1 }

/-- The number of rounds a polling loop can make: every round reads a
status that the line has to deliver. -/
def UpdiApplication.rounds (self : UpdiApplication) : Nat :=
  self._updi_instruction._serial_comm.budget + 1

/-- The key `UPDI_KEY_NVM`. -/
def UPDI_KEY_NVM : List Nat := "NVMProg ".toList.map Char.toNat

/-- The key `UPDI_KEY_CHIPERASE`. -/
def UPDI_KEY_CHIPERASE : List Nat := "NVMErase".toList.map Char.toNat

/-- The method `init_nvm_operation`; it returns the SIB, or the empty string
when fewer than 16 characters were read. -/
def UpdiApplication.init_nvm_operation : Op UpdiApplication (List Nat) := do
  let ready ← UpdiApplication.instruction UpdiInstruction.updi_is_ready
  if !ready then raise "Updi interface is not ready yet"
  else do
    let sib ← UpdiApplication.instruction UpdiInstruction.read_sib
    if sib.length < 16 then pure []
    else do
      if (sib.drop 8).take 3 = "P:2".toList.map Char.toNat then
        (fun self => Outcome.ok () { self with _pdi_v2 := true } : Op UpdiApplication Unit)
        UpdiApplication.instruction (UpdiInstruction.enable_24bit_address true)
      pure sib

/-- The method `in_prog_mode`. -/
def UpdiApplication.in_prog_mode : Op UpdiApplication Bool := do
  let asi_status ← UpdiApplication.instruction (UpdiInstruction.ldcs 0x0B)
  pure (asi_status &&& (1 <<< 3) ≠ 0)

/-- The method `write_progmode_key`. -/
def UpdiApplication.write_progmode_key : Op UpdiApplication Unit := do
  let already ← UpdiApplication.in_prog_mode
  if already then pure ()
  else do
    UpdiApplication.instruction (UpdiInstruction.key UPDI_KEY_NVM)
    let key_status ← UpdiApplication.instruction (UpdiInstruction.ldcs 0x07)
    if key_status &&& (1 <<< 4) = 0 then raise "NVMPROG key is not accepted"
    else pure ()

/-- The loop of `reset(false)` that waits for the reset to end. -/
def UpdiApplication.reset_wait (clock : Nat → Nat) (start : Nat) :
    Nat → Op UpdiApplication Unit
  | 0 => fun self => .hang self
  | rounds + 1 => do
    let sys_status ← UpdiApplication.instruction (UpdiInstruction.ldcs 0x0B)
    if sys_status &&& (1 <<< 5) = 0 then pure ()
    else do
      let now ← UpdiApplication.now clock
      if start + 500 < now then raise "Still active reset status"
      else UpdiApplication.reset_wait clock start rounds

/-- The method `reset`. -/
def UpdiApplication.reset (clock : Nat → Nat) (apply_reset : Bool) : Op UpdiApplication Unit :=
  if apply_reset then do
    UpdiApplication.instruction (UpdiInstruction.stcs 0x08 0x59)
    let sys_status ← UpdiApplication.instruction (UpdiInstruction.ldcs 0x0B)
    if sys_status &&& (1 <<< 5) = 0 then raise "Error applying reset" else pure ()
  else do
    UpdiApplication.instruction (UpdiInstruction.stcs 0x08 0)
    let start ← UpdiApplication.now clock
    fun self => UpdiApplication.reset_wait clock start self.rounds self

/-- The method `wait_unlocked`. -/
def UpdiApplication.wait_unlocked_loop (clock : Nat → Nat) (start timeout_ms : Nat) :
    Nat → Op UpdiApplication Bool
  | 0 => fun self => .hang self
  | rounds + 1 => do
    let asi_status ← UpdiApplication.instruction (UpdiInstruction.ldcs 0x0B)
    if asi_status &&& (1 <<< 0) = 0 then pure true
    else do
      let now ← UpdiApplication.now clock
      if start + timeout_ms < now then pure false
      else UpdiApplication.wait_unlocked_loop clock start timeout_ms rounds

/-- The method `wait_unlocked`. -/
def UpdiApplication.wait_unlocked (clock : Nat → Nat) (timeout_ms : Nat) :
    Op UpdiApplication Bool := do
  let start ← UpdiApplication.now clock
  fun self => UpdiApplication.wait_unlocked_loop clock start timeout_ms self.rounds self

/-- The method `unlock`. -/
def UpdiApplication.unlock (clock : Nat → Nat) : Op UpdiApplication Unit := do
  UpdiApplication.instruction (UpdiInstruction.key UPDI_KEY_CHIPERASE)
  let key_status ← UpdiApplication.instruction (UpdiInstruction.ldcs 0x07)
  if key_status &&& (1 <<< 3) = 0 then raise "CHIPERASE key is not accepted"
  else do
    UpdiApplication.write_progmode_key
    UpdiApplication.reset clock true
    UpdiApplication.reset clock false
    let unlocked ← UpdiApplication.wait_unlocked clock 100
    if !unlocked then raise "Faield to erase chip using key" else pure ()

/-- The loop of `enter_progmode` that waits for the key status, left through
`break` in either case. -/
def UpdiApplication.progmode_wait (clock : Nat → Nat) (start : Nat) :
    Nat → Op UpdiApplication Unit
  | 0 => fun self => .hang self
  | rounds + 1 => do
    let key_status ← UpdiApplication.instruction (UpdiInstruction.ldcs 0x07)
    if key_status &&& (1 <<< 4) ≠ 0 then pure ()
    else do
      let now ← UpdiApplication.now clock
      if start + 1000 < now then pure ()
      else UpdiApplication.progmode_wait clock start rounds

/-- The method `enter_progmode`. -/
def UpdiApplication.enter_progmode (clock : Nat → Nat) : Op UpdiApplication Unit := do
  UpdiApplication.write_progmode_key
  UpdiApplication.reset clock true
  UpdiApplication.reset clock false
  let start ← UpdiApplication.now clock
  (fun self => UpdiApplication.progmode_wait clock start self.rounds self
    : Op UpdiApplication Unit)
  let programming ← UpdiApplication.in_prog_mode
  if !programming then raise "Failed to enter NVM programming mode" else pure ()

/-- The method `leave_progmode`. -/
def UpdiApplication.leave_progmode (clock : Nat → Nat) : Op UpdiApplication Unit := do
  UpdiApplication.reset clock true
  UpdiApplication.reset clock false
  UpdiApplication.instruction (UpdiInstruction.stcs 0x03 ((1 <<< 2) ||| (1 <<< 3)))

/-- The loop of `wait_flash_ready`; the `break` on the deadline leads to
`return false`. -/
def UpdiApplication.wait_flash_ready_loop (clock : Nat → Nat) (start : Nat) :
    Nat → Op UpdiApplication Bool
  | 0 => fun self => .hang self
  | rounds + 1 => fun self =>
    (do
      let nvm_status ← UpdiApplication.instruction
        (UpdiInstruction.ld ((self._avr_device.nvmctrl_base_addr + 0x02) % 2 ^ 32))
      if nvm_status &&& (1 <<< 2) ≠ 0 then pure false
      else if nvm_status &&& ((1 <<< 0) ||| (1 <<< 1)) = 0 then pure true
      else do
        let now ← UpdiApplication.now clock
        if start + 10 * 1000 < now then pure false
        else UpdiApplication.wait_flash_ready_loop clock start rounds) self

/-- The method `wait_flash_ready`. -/
def UpdiApplication.wait_flash_ready (clock : Nat → Nat) : Op UpdiApplication Bool := do
  let start ← UpdiApplication.now clock
  fun self => UpdiApplication.wait_flash_ready_loop clock start self.rounds self

/-- The method `execute_nvm_command`. -/
def UpdiApplication.execute_nvm_command (command : Nat) : Op UpdiApplication Unit :=
  fun self =>
    UpdiApplication.instruction
      (UpdiInstruction.st ((self._avr_device.nvmctrl_base_addr + 0x00) % 2 ^ 32) command) self

/-- The method `chip_erase`. -/
def UpdiApplication.chip_erase (clock : Nat → Nat) : Op UpdiApplication Unit := fun self =>
  if self._pdi_v2 then .thrown "PDI V2 is not supported now" self
  else
    (do
      let ready ← UpdiApplication.wait_flash_ready clock
      if !ready then raise "Waiting for flash ready timed out"
      else do
        UpdiApplication.execute_nvm_command 0x05
        let ready ← UpdiApplication.wait_flash_ready clock
        if !ready then raise "Waiting for flash ready after erase timed out"
        else pure ()) self

/-- The method `write_data`. -/
def UpdiApplication.write_data (address : Nat) (data : List Nat) : Op UpdiApplication Unit :=
  match data with
  | [b0] => UpdiApplication.instruction (UpdiInstruction.st address b0)
  | [b0, b1] => do
    UpdiApplication.instruction (UpdiInstruction.st address b0)
    UpdiApplication.instruction (UpdiInstruction.st ((address + 1) % 2 ^ 32) b1)
  | _ =>
    if data.length > 0xFF + 1 then raise "Data size exceeds the limits"
    else do
      UpdiApplication.instruction (UpdiInstruction.st_ptr address)
      UpdiApplication.instruction (UpdiInstruction.repeat data.length)
      UpdiApplication.instruction (UpdiInstruction.st_ptr_inc data)

/-- The method `write_data_words`. -/
def UpdiApplication.write_data_words (address : Nat) (data : List Nat) :
    Op UpdiApplication Unit :=
  match data with
  | [b0, b1] =>
    UpdiApplication.instruction (UpdiInstruction.st16 address (((b1 <<< 8) + b0) % 2 ^ 16))
  | _ =>
    if data.length % 2 ≠ 0 then raise "Data size should align on word width"
    else if data.length > (0xFF + 1) * 2 then raise "Data size exceeds the limits"
    else do
      UpdiApplication.instruction (UpdiInstruction.st_ptr address)
      UpdiApplication.instruction (UpdiInstruction.repeat (data.length / 2))
      UpdiApplication.instruction (UpdiInstruction.st_ptr_inc16 data)

/-- The method `write_nvm_page`. -/
def UpdiApplication.write_nvm_page (clock : Nat → Nat) (start_addr : Nat)
    (page_data : List Nat) : Op UpdiApplication Unit := fun self =>
  if self._pdi_v2 then .thrown "PDI V2 is not supported now" self
  else
    (do
      let ready ← UpdiApplication.wait_flash_ready clock
      if !ready then raise "Waiting for flash ready timed out"
      else do
        UpdiApplication.execute_nvm_command 0x04
        let ready ← UpdiApplication.wait_flash_ready clock
        if !ready then raise "Waiting for flash ready after page buffer clear timed out"
        else do
          UpdiApplication.write_data_words start_addr page_data
          UpdiApplication.execute_nvm_command 0x01
          let ready ← UpdiApplication.wait_flash_ready clock
          if !ready then raise "Waiting for flash ready after page write timed out"
          else pure ()) self

/-- The method `read_data`. -/
def UpdiApplication.read_data (address byte_size : Nat) : Op UpdiApplication (List Nat) :=
  if byte_size > 0xFF + 1 then raise "Read size exceeds the limit in one go"
  else if byte_size = 1 then do
    let value ← UpdiApplication.instruction (UpdiInstruction.ld address)
    pure [value]
  else do
    UpdiApplication.instruction (UpdiInstruction.st_ptr address)
    UpdiApplication.instruction (UpdiInstruction.repeat byte_size)
    UpdiApplication.instruction (UpdiInstruction.ld_ptr_inc byte_size)

/-- The method `read_data_words`. -/
def UpdiApplication.read_data_words (address word_size : Nat) :
    Op UpdiApplication (List Nat) :=
  if word_size > 0xFF + 1 then raise "Read size exceeds the limit in one go"
  else if word_size = 1 then UpdiApplication.instruction (UpdiInstruction.ld16 address)
  else do
    UpdiApplication.instruction (UpdiInstruction.st_ptr address)
    UpdiApplication.instruction (UpdiInstruction.repeat word_size)
    UpdiApplication.instruction (UpdiInstruction.ld_ptr_inc16 word_size)

/-- The method `write_fuse_data`. -/
def UpdiApplication.write_fuse_data (fuse_number value : Nat) : Op UpdiApplication Unit :=
  fun self =>
    if self._pdi_v2 then .thrown "PDI V2 is not supported now" self
    else
      (do
        let programming ← UpdiApplication.in_prog_mode
        if !programming then raise "Enter progmode first"
        else do
          let fuse_addr := (fuse_number + self._avr_device.fuses_base_addr) % 2 ^ 32
          UpdiApplication.write_data ((self._avr_device.nvmctrl_base_addr + 0x08) % 2 ^ 32)
            [fuse_addr &&& 0xff]
          UpdiApplication.write_data ((self._avr_device.nvmctrl_base_addr + 0x09) % 2 ^ 32)
            [(fuse_addr >>> 8) &&& 0xff]
          UpdiApplication.write_data ((self._avr_device.nvmctrl_base_addr + 0x06) % 2 ^ 32)
            [value]
          UpdiApplication.execute_nvm_command 0x07) self

/-- The method `read_fuse_data`. -/
def UpdiApplication.read_fuse_data (fuse_number : Nat) : Op UpdiApplication Nat := fun self =>
  (do
    let data ← UpdiApplication.read_data
      ((fuse_number + self._avr_device.fuses_base_addr) % 2 ^ 32) 1
    match data with
    | value :: _ => pure value
    | [] => (fun _ => Outcome.fault (.vector_overrun 0) : Op UpdiApplication Nat)) self

/-- The constructor `UpdiApplication::UpdiApplication`, given the
instruction object its body makes. -/
def UpdiApplication.UpdiApplication (instruction : UpdiInstruction) (device : AvrDevice) :
    UpdiApplication :=
  { _updi_instruction := instruction, _avr_device := device, _pdi_v2 := false,
    clock_readings := 0 }

/-! ## The programmer (`nvm_programmer.cpp`) -/

/-- The members of `class NvmProgrammer`. The device is the one the
application layer holds (a shared pointer in the source). -/
structure NvmProgrammer where
  _updi_application : UpdiApplication
  _programming : Bool
  deriving DecidableEq, Repr

/-- The member `_avr_device`. -/
def NvmProgrammer._avr_device (self : NvmProgrammer) : AvrDevice :=
  self._updi_application._avr_device

/-- A call on `_updi_application`. -/
def NvmProgrammer.application {α : Type} (m : Op UpdiApplication α) : Op NvmProgrammer α :=
  fun self =>
    match m self._updi_application with
    | .ok a app => .ok a { self with _updi_application := app }
    | .thrown what app => .thrown what { self with _updi_application := app }
    | .hang app => .hang { self with _updi_application := app }
    | .fault e => .fault e

/-- The assignment `_programming = value`. -/
def NvmProgrammer.set_programming (value : Bool) : Op NvmProgrammer Unit := fun self =>
  .ok () { self with _programming := value }

/-- The method `get_device_info`. -/
def NvmProgrammer.get_device_info : Op NvmProgrammer (List Nat) :=
  NvmProgrammer.application UpdiApplication.init_nvm_operation

/-- The method `enter_progmode`. -/
def NvmProgrammer.enter_progmode (clock : Nat → Nat) : Op NvmProgrammer Unit := do
  NvmProgrammer.application (UpdiApplication.enter_progmode clock)
  NvmProgrammer.set_programming true

/-- The method `leave_progmode`. -/
def NvmProgrammer.leave_progmode (clock : Nat → Nat) : Op NvmProgrammer Unit := do
  NvmProgrammer.application (UpdiApplication.leave_progmode clock)
  NvmProgrammer.set_programming false

/-- The method `unlock_device`. -/
def NvmProgrammer.unlock_device (clock : Nat → Nat) : Op NvmProgrammer Unit := fun self =>
  if self._programming then .ok () self
  else
    (do
      NvmProgrammer.application (UpdiApplication.unlock clock)
      NvmProgrammer.set_programming true) self

/-- The method `chip_erase`. -/
def NvmProgrammer.chip_erase (clock : Nat → Nat) : Op NvmProgrammer Unit := fun self =>
  if !self._programming then .thrown "Enter progmode first" self
  else NvmProgrammer.application (UpdiApplication.chip_erase clock) self

/-- The loop `for (auto page : pages)` of `write_flash`. -/
def NvmProgrammer.write_pages (clock : Nat → Nat) :
    Nat → List ProgramPage → Op NvmProgrammer Unit
  | _, [] => pure ()
  | page_start_addr, page :: pages => do
    NvmProgrammer.application (UpdiApplication.write_nvm_page clock page_start_addr page.data)
    NvmProgrammer.write_pages clock ((page_start_addr + page.pageSize) % 2 ^ 32) pages

/-- The method `write_flash`. -/
def NvmProgrammer.write_flash (clock : Nat → Nat) (address : Nat) (pages : List ProgramPage) :
    Op NvmProgrammer Unit := fun self =>
  if !self._programming then .thrown "Enter progmode first" self
  else
    match self._avr_device.flash_start_addr with
    | none => .fault .unset_member
    | some flash_start_addr =>
      NvmProgrammer.write_pages clock
        (if address < flash_start_addr then (address + flash_start_addr) % 2 ^ 32 else address)
        pages self

/-- The loop `for (uint32_t i = 0; i < page_count; i++)` of `read_flash`;
the first argument is the number of pages left. -/
def NvmProgrammer.read_pages (pagesize : Nat) :
    Nat → Nat → List Nat → Op NvmProgrammer (List Nat)
  | 0, _, flash_data => pure flash_data
  | count + 1, page_start_addr, flash_data => do
    let page_data ← NvmProgrammer.application
      (UpdiApplication.read_data_words page_start_addr (pagesize / 2))
    NvmProgrammer.read_pages pagesize count ((page_start_addr + pagesize) % 2 ^ 32)
      (flash_data ++ page_data)

/-- The method `read_flash`. -/
def NvmProgrammer.read_flash (address size : Nat) : Op NvmProgrammer (List Nat) := fun self =>
  if !self._programming then .thrown "Enter progmode first" self
  else
    match self._avr_device.flash_page_size with
    | none => .fault .unset_member
    | some pagesize =>
      if pagesize = 0 then .fault .divide_by_zero
      else if size % pagesize ≠ 0 then .thrown "Only full page aligned flash supported" self
      else NvmProgrammer.read_pages pagesize (size / pagesize) address [] self

/-- The method `read_fuse`. -/
def NvmProgrammer.read_fuse (fuse_num : Nat) : Op NvmProgrammer Nat := fun self =>
  if !self._programming then .thrown "Enter progmode first" self
  else NvmProgrammer.application (UpdiApplication.read_fuse_data fuse_num) self

/-- The method `write_fuse`. -/
def NvmProgrammer.write_fuse (fuse_num value : Nat) : Op NvmProgrammer Unit := fun self =>
  if !self._programming then .thrown "Enter progmode first" self
  else NvmProgrammer.application (UpdiApplication.write_fuse_data fuse_num value) self

/-- The constructor `NvmProgrammer::NvmProgrammer`, given the instruction
object the lower constructors make. -/
def NvmProgrammer.NvmProgrammer (instruction : UpdiInstruction) (device_name : String) :
    NvmProgrammer :=
  { _updi_application :=
      UpdiApplication.UpdiApplication instruction (AvrDevice.AvrDevice device_name)
    _programming := false }

/-! ## Sample lines -/

/-- A clock that stands still. -/
def still_clock : Nat → Nat := fun _ => 0

/-- A tiny416 behind a line that has `pending` on hand, nothing written
yet. -/
def tiny416_application (pending : List (Option (List Nat))) : UpdiApplication :=
  UpdiApplication.UpdiApplication
    { _serial_comm := { written := [], pending := pending }, _use_24bit_addr := false }
    (AvrDevice.AvrDevice "tiny416")

/-- What a target that is in programming mode sends during
`enter_progmode`, each answer behind the echo of its request: the status
0x08 (NVMPROG), after the reset request 0x28 (RSTSYS and NVMPROG), after
its release 0x08, the key status 0x10, the status 0x08. -/
def programmed_target : List (Option (List Nat)) :=
  [some [0x55, 0x8B], some [0x08],
   some [0x55, 0xC8, 0x59],
   some [0x55, 0x8B], some [0x28],
   some [0x55, 0xC8, 0x00],
   some [0x55, 0x8B], some [0x08],
   some [0x55, 0x87], some [0x10],
   some [0x55, 0x8B], some [0x08]]

/-- A line that echoes the two frames `st_ptr_inc [0x11, 0x22]` writes and
acknowledges each. -/
def acknowledging_line : UpdiInstruction :=
  { _serial_comm :=
      { written := []
        pending := [some [0x11, 0x22], some [0x40], some [0x22], some [0x40]] }
    _use_24bit_addr := false }

/-- The buffers an instruction object has handed to `write`, oldest first. -/
def frames_written (self : UpdiInstruction) : List (List Nat) :=
  self._serial_comm.written

/-- A programmer for a tiny416 right after construction, behind a line with
nothing on hand. -/
def fresh_programmer : NvmProgrammer :=
  NvmProgrammer.NvmProgrammer
    { _serial_comm := { written := [], pending := [] }, _use_24bit_addr := false } "tiny416"


/-- One frame and the wait for its answer of one byte: the pair
`_serial_comm->send(command); _serial_comm->receive(response, 1);`. -/
def round_trip (command : List Nat) : Op UpdiInstruction (List Nat) := do
  UpdiInstruction.serial (UpdiSerial.send command)
  UpdiInstruction.serial (UpdiSerial.receive 1)

/-- What is left of a read script after a call of `read` for `n` bytes. -/
def after_read (n : Nat) (pending : List (Option (List Nat))) : List (Option (List Nat)) :=
  (UpdiSerial.read n { written := [], pending := pending }).2.pending

/-- A session on a target whose SIB announced the NVM version "P:2": the
flag `_pdi_v2` and the 24-bit addresses are on. -/
def pdi_v2_application : UpdiApplication :=
  { _updi_instruction :=
      { _serial_comm := { written := [], pending := [] }, _use_24bit_addr := true }
    _avr_device := AvrDevice.AvrDevice "avr128db32"
    _pdi_v2 := true
    clock_readings := 0 }

/-- What a target that is not in programming mode and does not take the key
sends during `enter_progmode`, each answer behind the echo of its request:
the status 0x00, then the key status 0x00 after the two frames of the key. -/
def refusing_target : List (Option (List Nat)) :=
  [some [0x55, 0x8B], some [0x00],
   some [0x55, 0xE0], some [0x20, 0x67, 0x6F, 0x72, 0x50, 0x4D, 0x56, 0x4E],
   some [0x55, 0x87], some [0x00]]

/-- A line that echoes the first frame of `st 0x1000 0x04` and answers it
with 0x00, which is no ACK. -/
def unacknowledging_line : UpdiInstruction :=
  { _serial_comm :=
      { written := []
        pending := [some [0x55, 0x44, 0x00, 0x10], some [0x00]] }
    _use_24bit_addr := false }

/-- A line that echoes the two frames of `st 0x1000 0x04` and acknowledges
each. -/
def store_line : UpdiInstruction :=
  { _serial_comm :=
      { written := []
        pending := [some [0x55, 0x44, 0x00, 0x10], some [0x40], some [0x04], some [0x40]] }
    _use_24bit_addr := false }

/-- Written from the claim: SYNC, the opcode byte for the address width in
use, and the address with its low byte first, in three bytes with 24-bit
addresses and in two without. -/
def claimed_first_frame (opcode_16bit opcode_24bit : Nat) (use_24bit_addr : Bool)
    (a : Nat) : List Nat :=
  if use_24bit_addr then [0x55, opcode_24bit, a % 256, (a / 2 ^ 8) % 256, (a / 2 ^ 16) % 256]
  else [0x55, opcode_16bit, a % 256, (a / 2 ^ 8) % 256]

/-- Written from the claim: the address the first page goes to, the given
one moved up by the flash base when it is below it. -/
def claimed_start (flash_base address : Nat) : Nat :=
  if address < flash_base then address + flash_base else address

/-- Written from the claim: the address of page `i`, the start plus the page
sizes of the pages before it. -/
def claimed_page_address (flash_base address : Nat) (pages : List ProgramPage) (i : Nat) :
    Nat :=
  claimed_start flash_base address + ((pages.take i).map fun page => page.pageSize).sum

/-- The calls `write_nvm_page(a, page.data)` for the pairs `(a, page)` of a
list, in the order of the list, each made when the one before has
returned. -/
def program_at (clock : Nat → Nat) : List (Nat × ProgramPage) → Op NvmProgrammer Unit
  | [] => pure ()
  | (a, page) :: rest => do
    NvmProgrammer.application (UpdiApplication.write_nvm_page clock a page.data)
    program_at clock rest

/-- The calls `read_data_words(a, word_size)` for the addresses of a list,
in the order of the list, each made when the one before has returned; the
result is what they returned, concatenated in that order. -/
def read_words_at (word_size : Nat) : List Nat → Op NvmProgrammer (List Nat)
  | [] => pure []
  | a :: rest => do
    let page_data ← NvmProgrammer.application (UpdiApplication.read_data_words a word_size)
    let more ← read_words_at word_size rest
    pure (page_data ++ more)

/-- A programmer for a tiny416 in programming mode, behind a line that has
`pending` on hand. -/
def programming_tiny416 (pending : List (Option (List Nat))) : NvmProgrammer :=
  { _updi_application := tiny416_application pending, _programming := true }

/-- What a tiny416 (NVMCTRL at 0x1000, 16-bit addresses) that is ready at
every read of its status sends during one `write_nvm_page`, each answer
behind the echo of its request: the status 0x00, the two ACKs of the
command 0x04, the status 0x00, the ACK of the pointer, the echoes of the
repeat count, of the two CTRLA writes, of the header and of the data, the
two ACKs of the command 0x01, the status 0x00. -/
def ready_tiny416 (address_low address_high : Nat) (page_data : List Nat) :
    List (Option (List Nat)) :=
  [some [0x55, 0x04, 0x02, 0x10], some [0x00],
   some [0x55, 0x44, 0x00, 0x10], some [0x40], some [0x04], some [0x40],
   some [0x55, 0x04, 0x02, 0x10], some [0x00],
   some [0x55, 0x69, address_low, address_high], some [0x40],
   some [0x55, 0xA0, page_data.length / 2 - 1],
   some [0x55, 0xC2, 0x88], some [0x55, 0x65], some page_data, some [0x55, 0xC2, 0x80],
   some [0x55, 0x44, 0x00, 0x10], some [0x40], some [0x01], some [0x40],
   some [0x55, 0x04, 0x02, 0x10], some [0x00]]

/-- Two pages of 64 bytes, all 0xFF and all 0x00. -/
def two_pages : List ProgramPage :=
  [{ address := 0, pageSize := 64, data := List.replicate 64 0xFF },
   { address := 64, pageSize := 64, data := List.replicate 64 0x00 }]

/-- The frames among `frames` that set the pointer: SYNC and the opcode 0x69
in front. -/
def pointer_frames (frames : List (List Nat)) : List (List Nat) :=
  frames.filter fun frame => frame.take 2 = [0x55, 0x69]

/-- Written from the claim: a read of NVMCTRL.STATUS (offset 0x02) that
finds no busy bit (bits 0 and 1) and no error bit (bit 2) set. A status
with one of them set is outside the claim and ends the sequence. -/
def claimed_status_read (nvmctrl_base : Nat) : Op UpdiInstruction Unit := do
  let status ← UpdiInstruction.ld (nvmctrl_base + 0x02)
  if status &&& 0x03 = 0 ∧ status &&& 0x04 = 0 then pure ()
  else raise "status outside the claim"

/-- Written from the claim: the instructions of one page write on a target
that is ready at every read of the status, in order. -/
def claimed_page_write (nvmctrl_base addr page_size : Nat) (data : List Nat) :
    Op UpdiInstruction Unit := do
  claimed_status_read nvmctrl_base
  UpdiInstruction.st (nvmctrl_base + 0x00) 0x04
  claimed_status_read nvmctrl_base
  UpdiInstruction.st_ptr addr
  UpdiInstruction.repeat (page_size / 2)
  UpdiInstruction.st_ptr_inc16 data
  UpdiInstruction.st (nvmctrl_base + 0x00) 0x01
  claimed_status_read nvmctrl_base

/-- The outcome of an operation of the session as seen on its instruction
object: the count of clock readings, the device and the flag left out. -/
def on_instruction {α : Type} : Outcome UpdiApplication α → Outcome UpdiInstruction α
  | .ok a s => .ok a s._updi_instruction
  | .thrown what s => .thrown what s._updi_instruction
  | .hang s => .hang s._updi_instruction
  | .fault f => .fault f

/-- The claimed sequence has met a status outside the claim. -/
def outside_claim {α : Type} : Outcome UpdiInstruction α → Prop
  | .thrown what _ => what = "status outside the claim"
  | _ => False

/-- The object an operation of the session leaves, if any, has the device
`d` and the flag `v2`. -/
def kept {α : Type} (d : AvrDevice) (v2 : Bool) : Outcome UpdiApplication α → Prop
  | .ok _ s => s._avr_device = d ∧ s._pdi_v2 = v2
  | .thrown _ s => s._avr_device = d ∧ s._pdi_v2 = v2
  | .hang s => s._avr_device = d ∧ s._pdi_v2 = v2
  | .fault _ => True

/-- On a session with the device `d` and the flag `v2`, the operation `m`
does on the instruction object what `m'` does, unless `m'` meets a status
outside the claim. -/
def tracks {α : Type} (d : AvrDevice) (v2 : Bool) (m : Op UpdiApplication α)
    (m' : Op UpdiInstruction α) : Prop :=
  ∀ self : UpdiApplication, self._avr_device = d → self._pdi_v2 = v2 →
    outside_claim (m' self._updi_instruction) ∨
    (on_instruction (m self) = m' self._updi_instruction ∧ kept d v2 (m self))

/-- The frames of one page write on a tiny416 as the claim has them: the
status read, the command 0x04 in two frames, the status read, the pointer,
the repeat count, CTRLA with RSD, the header, the data, CTRLA without RSD,
the command 0x01 in two frames, the status read. -/
def tiny416_page_frames (address_low address_high : Nat) (page_data : List Nat) :
    List (List Nat) :=
  [[0x55, 0x04, 0x02, 0x10],
   [0x55, 0x44, 0x00, 0x10], [0x04],
   [0x55, 0x04, 0x02, 0x10],
   [0x55, 0x69, address_low, address_high],
   [0x55, 0xA0, page_data.length / 2 - 1],
   [0x55, 0xC2, 0x88], [0x55, 0x65], page_data, [0x55, 0xC2, 0x80],
   [0x55, 0x44, 0x00, 0x10], [0x01],
   [0x55, 0x04, 0x02, 0x10]]

/-- What a tiny416 sends during one `read_data_words` of 32 words, each
answer behind the echo of its request: the ACK of the pointer, the echoes of
the repeat count and of the load, and the 64 bytes `page`. -/
def read_tiny416 (address_low address_high : Nat) (page : List Nat) :
    List (Option (List Nat)) :=
  [some [0x55, 0x69, address_low, address_high], some [0x40],
   some [0x55, 0xA0, 0x1F], some [0x55, 0x25], some page]


/-- Written from the claim: the instructions of one fuse write on a PDI v1
target. The status ASI_SYS_STATUS is read first; with its NVMPROG bit
(bit 3) clear the write fails before any store, otherwise the four stores
follow in order. -/
def claimed_fuse_write (nvmctrl_base fuses_base i v : Nat) : Op UpdiInstruction Unit := do
  let status ← UpdiInstruction.ldcs 0x0B
  if status &&& (1 <<< 3) = 0 then raise "Enter progmode first"
  else do
    UpdiInstruction.st (nvmctrl_base + 0x08) ((fuses_base + i) % 256)
    UpdiInstruction.st (nvmctrl_base + 0x09) (((fuses_base + i) / 256) % 256)
    UpdiInstruction.st (nvmctrl_base + 0x06) v
    UpdiInstruction.st (nvmctrl_base + 0x00) 0x07

/-- What a tiny416 in programming mode sends during `write_fuse_data 1 0x5A`
(fuse address 0x1281), each answer behind the echo of its request: the
status 0x08 and the two ACKs of each of the four stores. -/
def fuse_target : List (Option (List Nat)) :=
  [some [0x55, 0x8B], some [0x08],
   some [0x55, 0x44, 0x08, 0x10], some [0x40], some [0x81], some [0x40],
   some [0x55, 0x44, 0x09, 0x10], some [0x40], some [0x12], some [0x40],
   some [0x55, 0x44, 0x06, 0x10], some [0x40], some [0x5A], some [0x40],
   some [0x55, 0x44, 0x00, 0x10], some [0x40], some [0x07], some [0x40]]

/-- On a session with the device `d` and the flag `v2`, the operation `m`
does on the instruction object what `m'` does. -/
def follows {α : Type} (d : AvrDevice) (v2 : Bool) (m : Op UpdiApplication α)
    (m' : Op UpdiInstruction α) : Prop :=
  ∀ self : UpdiApplication, self._avr_device = d → self._pdi_v2 = v2 →
    on_instruction (m self) = m' self._updi_instruction ∧ kept d v2 (m self)

/-- A session on a tiny416 behind a line that echoes the two frames of
`st16 0x3F00 0x3412` and acknowledges each. -/
def word_line : UpdiApplication :=
  tiny416_application
    [some [0x55, 0x45, 0x00, 0x3F], some [0x40], some [0x12, 0x34], some [0x40]]

/-- A port on which one byte arrives and nothing after it: the two reads
that follow time out, and so does every later one. -/
def silent_after_one_byte : UpdiSerial :=
  { written := [], pending := [some [0x11], some [], some []] }


/-- The property `P` holds of the object an operation leaves, where it
leaves one: after a return, after an exception, and where it waits without
end. -/
def Outcome.all {σ α : Type} (P : σ → Prop) : Outcome σ α → Prop
  | .ok _ self => P self
  | .thrown _ self => P self
  | .hang self => P self
  | .fault _ => True

/-- The invariant `pdi_v2 ⇒ use_24bit_addr` of the session. -/
def addressing_invariant (self : UpdiApplication) : Prop :=
  self._pdi_v2 = true → self._updi_instruction._use_24bit_addr = true

/-- The member `_use_24bit_addr` has the value `wide`. -/
def addressing (wide : Bool) (self : UpdiInstruction) : Prop :=
  self._use_24bit_addr = wide

/-- The members `_pdi_v2` and `_use_24bit_addr` have the values `v2` and
`wide`. -/
def flags (v2 wide : Bool) (self : UpdiApplication) : Prop :=
  self._pdi_v2 = v2 ∧ self._updi_instruction._use_24bit_addr = wide

/-! ## The command line tool (`main.cpp`) -/

/-- The call `std::equal(hex_data.begin(), hex_data.end(), flash_data.begin())`
from element `index` on: it stops at the first pair that differs; reading
`flash_data` behind its end is a fault. -/
def std_equal (index : Nat) : List Nat → List Nat → Except Fault Bool
  | [], _ => .ok true
  | _ :: _, [] => .error (.vector_overrun index)
  | x :: hex_data, y :: flash_data =>
    if x = y then std_equal (index + 1) hex_data flash_data else .ok false

/-- The function `flash_file` of `main.cpp` on the programmer `nvm`; `file`
is what `load_file` finds under the name `hexfile`. An `ios_base::failure`
of `load_file` is caught and gives -1; an `UpdiException` of the programmer
is not caught here. -/
def flash_file (clock : Nat → Nat) (hexfile : String) (file : Option (List (List Char))) :
    Op NvmProgrammer Int := fun nvm =>
  match nvm._avr_device.flash_size, nvm._avr_device.flash_page_size with
  | some flash_size, some flash_pagesize =>
    match load_file (IntelHexFile.IntelHexFile flash_size flash_pagesize) hexfile file with
    | .fault f => .fault f
    | .failure _ _ => .ok (-1) nvm
    | .returned start_address ihex =>
      (do
        NvmProgrammer.chip_erase clock
        NvmProgrammer.write_flash clock start_address (get_page_data ihex)
        match nvm._avr_device.flash_start_addr with
        | none => (fun _ => Outcome.fault .unset_member : Op NvmProgrammer Int)
        | some flash_start_addr => do
          let flash_data ← NvmProgrammer.read_flash flash_start_addr
            (((get_page_data ihex).length * flash_pagesize) % 2 ^ 32)
          match std_equal 0 (get_flash_data ihex) flash_data with
          | .error f => (fun _ => Outcome.fault f : Op NvmProgrammer Int)
          | .ok true => pure 0
          | .ok false => pure (-1)) nvm
  | _, _ => .fault .unset_member

/-- One record with the bytes AA and BB at offsets 2 and 3, and no
end-of-file record. -/
def offset_two_hex : List (List Char) := [":02000200AABB97\r".toList]

/-! ## The data loop -/

theorem write_bytes_length (vals : List Nat) : ∀ (data : List Nat) (a : Nat),
    (write_bytes data a vals).length = data.length := by
  induction vals with
  | nil => intro data a; rfl
  | cons v vs ih => intro data a; simp [write_bytes, ih]

theorem bytes_from_length (record : List Char) (n : Nat) : ∀ j,
    (bytes_from record j n).length = n := by
  induction n with
  | zero => intro j; rfl
  | succ n ih => intro j; simp [bytes_from, ih]

theorem fieldOk_iff (record : List Char) (pos : Nat) :
    fieldOk record pos = true ↔ hexField record pos = .ok (fieldVal record pos) := by
  unfold fieldOk fieldVal
  cases h : hexField record pos <;> simp

theorem forall_lt_succ_shift (n : Nat) (P : Nat → Prop) :
    (∀ k, k < n + 1 → P k) ↔ P 0 ∧ ∀ k, k < n → P (k + 1) := by
  constructor
  · intro h
    exact ⟨h 0 (by omega), fun k hk => h (k + 1) (by omega)⟩
  · rintro ⟨h0, hs⟩ k hk
    cases k with
    | zero => exact h0
    | succ k => exact hs k (by omega)

/-- What the data loop does when it runs to its end. -/
theorem fill_done_iff (record : List Char) (a n : Nat) :
    ∀ (j : Nat) (self : IntelHexFile) (ck : Nat), ck < 256 →
    ∀ (self1 : IntelHexFile) (ck1 : Nat),
    fill record a n (2 * j) self ck = .done self1 ck1 ↔
      (∀ k, k < n → fieldOk record (9 + 2 * (j + k)) = true) ∧
      (∀ k, k < n → a + (j + k) ≤ self.nvm_flash_size ∧ a + (j + k) < self.nvm_data.length) ∧
      self1 = { self with
        nvm_data := write_bytes self.nvm_data (a + j) (bytes_from record j n)
        firmware_size := bump n self.firmware_size } ∧
      ck1 = (ck + (bytes_from record j n).sum) % 256 := by
  induction n with
  | zero =>
    intro j self ck hck self1 ck1
    simp [fill, write_bytes, bytes_from, bump]
    constructor
    · rintro ⟨rfl, rfl⟩; exact ⟨rfl, by omega⟩
    · rintro ⟨rfl, h⟩; exact ⟨rfl, by omega⟩
  | succ n ih =>
    intro j self ck hck self1 ck1
    have h2 : 2 * j + 2 = 2 * (j + 1) := by ring
    have hdiv : 2 * j / 2 = j := by omega
    rw [forall_lt_succ_shift, forall_lt_succ_shift]
    simp only [Nat.add_zero]
    rw [fill]
    cases hf : hexField record (9 + 2 * j) with
    | error f =>
      have hno : fieldOk record (9 + 2 * j) ≠ true := by
        simp [fieldOk, hf]
      simp [hno]
    | ok x =>
      have hyes : fieldOk record (9 + 2 * j) = true := by
        simp [fieldOk, hf]
      have hval : rec_byte record j = x % 256 := by
        simp [rec_byte, fieldVal, hf]
      simp only [hdiv, h2, hyes, true_and]
      by_cases hgt : a + j > self.nvm_flash_size
      · rw [if_pos hgt]
        constructor
        · intro h; cases h
        · rintro ⟨-, ⟨⟨h0, -⟩, -⟩, -⟩
          omega
      · rw [if_neg hgt]
        by_cases hlt : a + j < self.nvm_data.length
        · rw [if_pos hlt]
          rw [ih (j + 1) _ _ (Nat.mod_lt _ (by norm_num))]
          simp only [bytes_from, write_bytes, bump, List.length_set, List.sum_cons, hval]
          have e1 : ∀ k, j + 1 + k = j + (k + 1) := by intro k; omega
          have e2 : a + j + 1 = a + (j + 1) := by omega
          simp only [e1, e2]
          have e3 : ((ck + x % 256) % 256 + (bytes_from record (j + 1) n).sum) % 256
              = (ck + (x % 256 + (bytes_from record (j + 1) n).sum)) % 256 := by omega
          rw [e3]
          constructor
          · rintro ⟨h1, h2, h3, h4⟩
            exact ⟨h1, ⟨⟨by omega, hlt⟩, h2⟩, h3, h4⟩
          · rintro ⟨h1, ⟨-, h2⟩, h3, h4⟩
            exact ⟨h1, h2, h3, h4⟩
        · rw [if_neg hlt]
          constructor
          · intro h; cases h
          · rintro ⟨-, ⟨⟨-, h0⟩, -⟩, -⟩
            exact absurd h0 hlt

/-- The data loop as `parse_record` starts it, at `i = 0`. -/
theorem fill_zero_done_iff (record : List Char) (a n : Nat) (self : IntelHexFile)
    (ck : Nat) (hck : ck < 256) (self1 : IntelHexFile) (ck1 : Nat) :
    fill record a n 0 self ck = .done self1 ck1 ↔
      (∀ k, k < n → fieldOk record (9 + 2 * k) = true) ∧
      (∀ k, k < n → a + k ≤ self.nvm_flash_size ∧ a + k < self.nvm_data.length) ∧
      self1 = { self with
        nvm_data := write_bytes self.nvm_data a (bytes_from record 0 n)
        firmware_size := bump n self.firmware_size } ∧
      ck1 = (ck + (bytes_from record 0 n).sum) % 256 := by
  have h := fill_done_iff record a n 0 self ck hck self1 ck1
  rw [Nat.mul_zero] at h
  rw [h]
  simp only [Nat.zero_add, Nat.add_zero]

/-! ## `parse_record` -/

theorem fieldOk_false_of_error {record : List Char} {pos : Nat} {f : Fault}
    (h : hexField record pos = .error f) : fieldOk record pos = false := by
  simp [fieldOk, h]

theorem fieldOk_of_ok {record : List Char} {pos x : Nat}
    (h : hexField record pos = .ok x) : fieldOk record pos = true ∧ fieldVal record pos = x := by
  simp [fieldOk, fieldVal, h]

/-- When `parse_record` accepts a line, and what it returns then. -/
theorem parse_record_accepted_iff (self : IntelHexFile) (record : List Char)
    (a : Nat) (self1 : IntelHexFile) :
    parse_record self record = .accepted a self1 ↔
      Acceptable self.nvm_flash_size self.nvm_data.length record ∧
      a = rec_addr record ∧ self1 = store self record := by
  unfold parse_record Acceptable
  by_cases hhead : record.head? = some ':'
  swap
  · simp [hhead]
  rw [if_neg (not_not.mpr hhead)]
  cases h1 : hexField record 1 with
  | error f => simp [fieldOk_false_of_error h1]
  | ok cc =>
  cases h3 : hexField record 3 with
  | error f => simp [fieldOk_false_of_error h3]
  | ok hi =>
  cases h5 : hexField record 5 with
  | error f => simp [fieldOk_false_of_error h5]
  | ok lo =>
  cases h7 : hexField record 7 with
  | error f => simp [fieldOk_false_of_error h7]
  | ok tt =>
  obtain ⟨o1, v1⟩ := fieldOk_of_ok h1
  obtain ⟨o3, v3⟩ := fieldOk_of_ok h3
  obtain ⟨o5, v5⟩ := fieldOk_of_ok h5
  obtain ⟨o7, v7⟩ := fieldOk_of_ok h7
  have ecc : rec_cc record = cc := v1
  have ehi : rec_high record = hi % 256 := by simp [rec_high, v3]
  have elo : rec_low record = lo % 256 := by simp [rec_low, v5]
  have ett : rec_type record = tt % 256 := by simp [rec_type, v7]
  have eaddr : rec_addr record = hi % 256 * 256 + lo % 256 := by simp [rec_addr, ehi, elo]
  have ecount : rec_count record = 2 * cc % 256 / 2 := by simp [rec_count, ecc]
  simp only [hhead, o1, o3, o5, o7, true_and, and_self]
  by_cases htype : tt % 256 ≠ 0 ∧ tt % 256 ≠ 1
  · rw [if_pos htype]
    have : ¬ (rec_type record = 0 ∨ rec_type record = 1) := by rw [ett]; omega
    simp [this]
  rw [if_neg htype]
  have htype2 : rec_type record = 0 ∨ rec_type record = 1 := by rw [ett]; omega
  by_cases hsize : 2 * cc % 256 ≠ dataChars record
  · rw [if_pos hsize]
    have : ¬ (2 * rec_cc record % 256 = dataChars record) := by rw [ecc]; exact hsize
    simp [this]
  rw [if_neg hsize]
  have hsize2 : 2 * rec_cc record % 256 = dataChars record := by
    rw [ecc]; exact not_not.mp hsize
  simp only [htype2, hsize2, true_and]
  have hck0 : (2 * cc % 256 / 2 + hi % 256 + lo % 256 + tt % 256) % 256 < 256 :=
    Nat.mod_lt _ (by norm_num)
  have key := fill_zero_done_iff record (hi % 256 * 256 + lo % 256) (2 * cc % 256 / 2) self
    _ hck0
  simp only [rec_bytes, store, ecount, eaddr, ehi, elo, ett]
  cases hf : fill record (hi % 256 * 256 + lo % 256) (2 * cc % 256 / 2) 0 self
      ((2 * cc % 256 / 2 + hi % 256 + lo % 256 + tt % 256) % 256) with
  | fault f =>
    simp only []
    constructor
    · intro h; cases h
    · rintro ⟨⟨hA, hB, -⟩, -⟩
      have := (key _ _).mpr ⟨hA, hB, rfl, rfl⟩
      rw [hf] at this
      cases this
  | rejected e s =>
    simp only []
    constructor
    · intro h; cases h
    · rintro ⟨⟨hA, hB, -⟩, -⟩
      have := (key _ _).mpr ⟨hA, hB, rfl, rfl⟩
      rw [hf] at this
      cases this
  | done s ck =>
    obtain ⟨hA, hB, hs, hck⟩ := (key s ck).mp hf
    simp only []
    cases hk : hexField record (record.length - 3) with
    | error f => simp [fieldOk_false_of_error hk]
    | ok kk =>
      obtain ⟨ok, vk⟩ := fieldOk_of_ok hk
      have ekk : rec_kk record = kk % 256 := by simp [rec_kk, vk]
      simp only [ok, ekk, true_and]
      have esum : (ck + kk % 256) % 256 = (2 * cc % 256 / 2 + hi % 256 + lo % 256 + tt % 256 +
          (bytes_from record 0 (2 * cc % 256 / 2)).sum + kk % 256) % 256 := by
        rw [hck]; omega
      by_cases hz : (ck + kk % 256) % 256 ≠ 0
      · rw [if_pos hz]
        rw [esum] at hz
        constructor
        · intro h; cases h
        · rintro ⟨⟨-, -, h⟩, -⟩
          exact absurd h hz
      · rw [if_neg hz]
        rw [esum] at hz
        simp only [Parsed.accepted.injEq]
        constructor
        · rintro ⟨rfl, rfl⟩
          exact ⟨⟨hA, hB, not_not.mp hz⟩, rfl, hs⟩
        · rintro ⟨-, rfl, rfl⟩
          exact ⟨rfl, hs⟩

/-- A line that passes the colon and the type check and whose 8-bit `count`
differs from the number of characters between the header and the last three
is rejected with "Wrong data size", the object untouched. -/
theorem parse_record_wrong_size (self : IntelHexFile) (record : List Char)
    (hhead : record.head? = some ':')
    (hok : fieldOk record 1 = true ∧ fieldOk record 3 = true ∧
      fieldOk record 5 = true ∧ fieldOk record 7 = true)
    (htype : rec_type record = 0 ∨ rec_type record = 1)
    (hsize : (2 * rec_cc record) % 256 ≠ dataChars record) :
    parse_record self record = .rejected "Wrong data size" self := by
  obtain ⟨o1, o3, o5, o7⟩ := hok
  rw [fieldOk_iff] at o1 o3 o5 o7
  unfold parse_record
  rw [if_neg (not_not.mpr hhead), o1, o3, o5, o7]
  simp only []
  have ht : ¬ (fieldVal record 7 % 256 ≠ 0 ∧ fieldVal record 7 % 256 ≠ 1) := by
    unfold rec_type at htype; omega
  unfold rec_cc at hsize
  rw [if_neg ht, if_pos hsize]

theorem store_of_count_zero (self : IntelHexFile) (record : List Char)
    (h : rec_count record = 0) : store self record = self := by
  simp only [store, rec_bytes, h, bytes_from, write_bytes, bump]

/-- An accepted line has 12 characters around its data characters. -/
theorem accepted_length {self : IntelHexFile} {record : List Char} {a : Nat}
    {self1 : IntelHexFile} (h : parse_record self record = .accepted a self1) :
    record.length = 12 + 2 * rec_count record := by
  rw [parse_record_accepted_iff] at h
  have hsize := h.1.2.2.2.1
  unfold dataChars at hsize
  unfold rec_count
  split at hsize
  · have : (2 : Nat) ^ 64 = 18446744073709551616 := by norm_num
    omega
  · omega

/-- An accepted line whose byte count `CC` is below 128 has the 8-bit sum
zero and `CC = (line length - 11) / 2`. -/
theorem accepted_of_small_count {self : IntelHexFile} {record : List Char} {a : Nat}
    {self1 : IntelHexFile} (h : parse_record self record = .accepted a self1)
    (hcc : rec_cc record < 128) :
    (rec_cc record + rec_high record + rec_low record + rec_type record +
      (rec_bytes record).sum + rec_kk record) % 256 = 0 ∧
    rec_cc record = (record.length - 11) / 2 := by
  have hlen := accepted_length h
  rw [parse_record_accepted_iff] at h
  have hsum := h.1.2.2.2.2.2.2.2
  have hcount : rec_count record = rec_cc record := by unfold rec_count; omega
  rw [hcount] at hsum hlen
  exact ⟨hsum, by omega⟩

theorem acceptable_iff_shaped (flash_size buflen : Nat) (record : List Char) :
    Acceptable flash_size buflen record ↔
      Shaped flash_size buflen record ∧ check_sum record = 0 := by
  unfold Acceptable Shaped check_sum
  simp only [and_assoc]

/-- A line that passes every check before the checksum is accepted or
rejected on its checksum alone, its data bytes stored in either case. -/
theorem parse_record_of_shaped (self : IntelHexFile) (record : List Char)
    (h : Shaped self.nvm_flash_size self.nvm_data.length record) :
    parse_record self record =
      if check_sum record ≠ 0 then .rejected "Failed to verify checksum" (store self record)
      else .accepted (rec_addr record) (store self record) := by
  by_cases hs : check_sum record ≠ 0
  swap
  · rw [if_neg hs, parse_record_accepted_iff, acceptable_iff_shaped]
    exact ⟨⟨h, not_not.mp hs⟩, rfl, rfl⟩
  rw [if_pos hs]
  obtain ⟨hhead, ⟨o1, o3, o5, o7⟩, htype, hsize, hA, hB, ok⟩ := h
  rw [fieldOk_iff] at o1 o3 o5 o7 ok
  unfold parse_record
  rw [if_neg (not_not.mpr hhead), o1, o3, o5, o7]
  simp only []
  have ht : ¬ (fieldVal record 7 % 256 ≠ 0 ∧ fieldVal record 7 % 256 ≠ 1) := by
    unfold rec_type at htype; omega
  have hsz : ¬ (2 * fieldVal record 1 % 256 ≠ dataChars record) := by
    unfold rec_cc at hsize; exact not_not.mpr hsize
  rw [if_neg ht, if_neg hsz]
  have hfill := (fill_zero_done_iff record (fieldVal record 3 % 256 * 256 + fieldVal record 5 % 256)
    (2 * fieldVal record 1 % 256 / 2) self
    ((2 * fieldVal record 1 % 256 / 2 + fieldVal record 3 % 256 + fieldVal record 5 % 256 +
      fieldVal record 7 % 256) % 256) (Nat.mod_lt _ (by norm_num)) _ _).mpr
    ⟨hA, hB, rfl, rfl⟩
  rw [hfill]
  simp only []
  rw [ok]
  simp only []
  have hne : (((2 * fieldVal record 1 % 256 / 2 + fieldVal record 3 % 256 +
      fieldVal record 5 % 256 + fieldVal record 7 % 256) % 256 +
      (bytes_from record 0 (2 * fieldVal record 1 % 256 / 2)).sum) % 256 +
      fieldVal record (record.length - 3) % 256) % 256 ≠ 0 := by
    have e : check_sum record = (2 * fieldVal record 1 % 256 / 2 + fieldVal record 3 % 256 +
        fieldVal record 5 % 256 + fieldVal record 7 % 256 +
        (bytes_from record 0 (2 * fieldVal record 1 % 256 / 2)).sum +
        fieldVal record (record.length - 3) % 256) % 256 := rfl
    rw [e] at hs
    omega
  rw [if_pos hne]
  rfl

/-! ## The page splitter -/

theorem split_pages_ok_iff (page_size : Nat) (data : List Nat) (n : Nat) :
    ∀ (i : Nat) (pages out : List ProgramPage),
    split_pages page_size data n i pages = .ok out ↔
      (n = 0 ∨ i + n * page_size ≤ data.length) ∧
      out = pages ++ (List.range n).map (fun k => page_at page_size data (i + k * page_size)) := by
  induction n with
  | zero =>
    intro i pages out
    simp [split_pages, eq_comm]
  | succ n ih =>
    intro i pages out
    rw [split_pages]
    by_cases h : i + page_size ≤ data.length
    · rw [if_pos h, ih]
      have e : ∀ k, i + page_size + k * page_size = i + (k + 1) * page_size := by
        intro k; ring
      have hr : (List.range (n + 1)).map (fun k => page_at page_size data (i + k * page_size))
          = page_at page_size data i ::
            (List.range n).map (fun k => page_at page_size data (i + (k + 1) * page_size)) := by
        rw [List.range_succ_eq_map]
        simp [List.map_map, Function.comp_def]
      rw [hr]
      simp only [e, List.append_assoc, List.singleton_append, page_at]
      constructor
      · rintro ⟨h1, h2⟩
        refine ⟨Or.inr ?_, h2⟩
        rcases h1 with h1 | h1
        · subst h1; simpa using h
        · have := e n; nlinarith
      · rintro ⟨h1, h2⟩
        refine ⟨?_, h2⟩
        rcases h1 with h1 | h1
        · omega
        · by_cases hn : n = 0
          · exact Or.inl hn
          · right
            have := e n
            nlinarith
    · rw [if_neg h]
      constructor
      · intro h1; cases h1
      · rintro ⟨h1, -⟩
        exfalso
        rcases h1 with h1 | h1
        · omega
        · apply h
          have : page_size ≤ (n + 1) * page_size := Nat.le_mul_of_pos_left _ (by omega)
          omega

theorem ceil_div_mul_ge (len page_size : Nat) (h : 0 < page_size) :
    len ≤ (len + page_size - 1) / page_size * page_size := by
  have h1 := Nat.div_add_mod (len + page_size - 1) page_size
  have h2 := Nat.mod_lt (len + page_size - 1) h
  rw [Nat.mul_comm] at h1
  omega

theorem ceil_div_of_dvd (len page_size : Nat) (h : 0 < page_size) (hd : len % page_size = 0) :
    (len + page_size - 1) / page_size = len / page_size := by
  have h1 := Nat.div_add_mod len page_size
  rw [hd, Nat.add_zero] at h1
  have h2 : len + page_size - 1 = page_size - 1 + page_size * (len / page_size) := by omega
  rw [h2, Nat.add_mul_div_left _ _ h, Nat.div_eq_of_lt (by omega), Nat.zero_add]

/-- The page loop of `load_file` ends without a fault exactly when the
buffer length is a multiple of the page size, and then yields the pages of
the buffer. -/
theorem split_pages_all_iff (page_size : Nat) (h : 0 < page_size) (data : List Nat)
    (pages out : List ProgramPage) :
    split_pages page_size data ((data.length + page_size - 1) / page_size) 0 pages = .ok out ↔
      data.length % page_size = 0 ∧ out = pages ++ pages_of page_size data := by
  rw [split_pages_ok_iff]
  simp only [Nat.zero_add, pages_of]
  have hge := ceil_div_mul_ge data.length page_size h
  constructor
  · rintro ⟨h1, h2⟩
    have hd : data.length % page_size = 0 := by
      rcases h1 with h1 | h1
      · rw [h1] at hge
        have : data.length = 0 := by omega
        rw [this]; exact Nat.zero_mod _
      · have : data.length = (data.length + page_size - 1) / page_size * page_size := by omega
        rw [this]; exact Nat.mul_mod_left _ _
    refine ⟨hd, ?_⟩
    rw [h2, ceil_div_of_dvd _ _ h hd]
  · rintro ⟨hd, h2⟩
    rw [ceil_div_of_dvd _ _ h hd]
    refine ⟨Or.inr ?_, h2⟩
    have := Nat.div_add_mod data.length page_size
    rw [hd, Nat.add_zero, Nat.mul_comm] at this
    omega

/-! ## The record loop -/

@[simp] theorem store_flash_size (self : IntelHexFile) (r : List Char) :
    (store self r).nvm_flash_size = self.nvm_flash_size := rfl

@[simp] theorem store_page_size (self : IntelHexFile) (r : List Char) :
    (store self r).nvm_page_size = self.nvm_page_size := rfl

@[simp] theorem store_pages (self : IntelHexFile) (r : List Char) :
    (store self r).nvm_pages = self.nvm_pages := rfl

@[simp] theorem store_data_length (self : IntelHexFile) (r : List Char) :
    (store self r).nvm_data.length = self.nvm_data.length := by
  simp [store, write_bytes_length]

@[simp] theorem foldl_store_flash_size (rs : List (List Char)) : ∀ self : IntelHexFile,
    (rs.foldl store self).nvm_flash_size = self.nvm_flash_size := by
  induction rs with
  | nil => intro self; rfl
  | cons r rs ih => intro self; simp [ih]

@[simp] theorem foldl_store_page_size (rs : List (List Char)) : ∀ self : IntelHexFile,
    (rs.foldl store self).nvm_page_size = self.nvm_page_size := by
  induction rs with
  | nil => intro self; rfl
  | cons r rs ih => intro self; simp [ih]

@[simp] theorem foldl_store_pages (rs : List (List Char)) : ∀ self : IntelHexFile,
    (rs.foldl store self).nvm_pages = self.nvm_pages := by
  induction rs with
  | nil => intro self; rfl
  | cons r rs ih => intro self; simp [ih]

@[simp] theorem foldl_store_data_length (rs : List (List Char)) : ∀ self : IntelHexFile,
    (rs.foldl store self).nvm_data.length = self.nvm_data.length := by
  induction rs with
  | nil => intro self; rfl
  | cons r rs ih => intro self; simp [ih]

/-- The record loop ends through `break` exactly when every record read is
acceptable; it then has stored the records in order and kept the least
offset. -/
theorem load_records_done_iff (lines : List (List Char)) :
    ∀ (self : IntelHexFile) (st a : Nat) (s1 : IntelHexFile),
    load_records lines self st = .done a s1 ↔
      (∀ r, r ∈ records lines → Acceptable self.nvm_flash_size self.nvm_data.length r) ∧
      s1 = (records lines).foldl store self ∧
      a = (records lines).foldl min_start st := by
  induction lines with
  | nil =>
    intro self st a s1
    simp [load_records, records, eq_comm, and_comm]
  | cons line rest ih =>
    intro self st a s1
    rw [load_records, records]
    cases hg : getline line with
    | none => simp [eq_comm, and_comm]
    | some record =>
      simp only []
      by_cases he : record = []
      · simp [he, eq_comm, and_comm]
      · rw [if_neg he, if_neg he]
        cases hp : parse_record self record with
        | fault f =>
          simp only []
          constructor
          · intro h; cases h
          · rintro ⟨h1, -⟩
            have := (parse_record_accepted_iff self record _ _).mpr
              ⟨h1 record (List.mem_cons_self _ _), rfl, rfl⟩
            rw [hp] at this; cases this
        | rejected e s2 =>
          simp only []
          constructor
          · intro h; cases h
          · rintro ⟨h1, -⟩
            have := (parse_record_accepted_iff self record _ _).mpr
              ⟨h1 record (List.mem_cons_self _ _), rfl, rfl⟩
            rw [hp] at this; cases this
        | accepted b s2 =>
          obtain ⟨hacc, hb, hs2⟩ := (parse_record_accepted_iff self record _ _).mp hp
          simp only []
          rw [ih]
          subst hb hs2
          simp only [store_flash_size, store_data_length, List.mem_cons, List.foldl_cons,
            min_start]
          constructor
          · rintro ⟨h1, h2, h3⟩
            refine ⟨?_, h2, h3⟩
            rintro r (rfl | hr)
            · exact hacc
            · exact h1 r hr
          · rintro ⟨h1, h2, h3⟩
            exact ⟨fun r hr => h1 r (Or.inr hr), h2, h3⟩

theorem records_cons_eq {line : List Char} {rest : List (List Char)}
    (h : records (line :: rest) = line :: rest) :
    getline line = some line ∧ line ≠ [] ∧ records rest = rest := by
  rw [records] at h
  cases hg : getline line with
  | none => rw [hg] at h; cases h
  | some r =>
    rw [hg] at h
    simp only [] at h
    by_cases hr : r = []
    · rw [if_pos hr] at h; cases h
    · rw [if_neg hr] at h
      injection h with h1 h2
      subst h1
      exact ⟨rfl, hr, h2⟩

/-- The record loop over lines that are all read and accepted goes on with
the lines behind them. -/
theorem load_records_append (rest : List (List Char)) (pre : List (List Char)) :
    ∀ (self : IntelHexFile) (st : Nat), records pre = pre →
    (∀ r, r ∈ pre → Acceptable self.nvm_flash_size self.nvm_data.length r) →
    load_records (pre ++ rest) self st =
      load_records rest (pre.foldl store self) (pre.foldl min_start st) := by
  induction pre with
  | nil => intro self st _ _; rfl
  | cons line pre ih =>
    intro self st hrec hacc
    obtain ⟨hg, hne, hrest⟩ := records_cons_eq hrec
    rw [List.cons_append, load_records, hg]
    simp only []
    rw [if_neg hne,
      (parse_record_accepted_iff self line _ _).mpr ⟨hacc line (List.mem_cons_self _ _), rfl, rfl⟩]
    simp only []
    rw [ih (store self line) _ hrest
      (fun r hr => by
        rw [store_flash_size, store_data_length]
        exact hacc r (List.mem_cons_of_mem _ hr))]
    rfl

/-! ## `load_file` -/

/-- When `load_file` returns, and what. -/
theorem load_file_returned_iff (self : IntelHexFile) (filename : String)
    (lines : List (List Char)) (a : Nat) (s : IntelHexFile) :
    load_file self filename (some lines) = .returned a s ↔
      ∃ s1, load_records lines { self with firmware_size := 0 } 0x7fffffff = .done a s1 ∧
        s1.nvm_page_size ≠ 0 ∧
        (aligned s1.nvm_page_size s1.firmware_size s1.nvm_data).length % s1.nvm_page_size = 0 ∧
        s = { s1 with
          nvm_data := aligned s1.nvm_page_size s1.firmware_size s1.nvm_data
          nvm_pages := s1.nvm_pages ++
            pages_of s1.nvm_page_size (aligned s1.nvm_page_size s1.firmware_size s1.nvm_data) } := by
  unfold load_file
  simp only []
  cases hl : load_records lines { self with firmware_size := 0 } 0x7fffffff with
  | fault f => simp
  | failure w s1 => simp
  | done a1 s1 =>
    simp only []
    by_cases hps : s1.nvm_page_size = 0
    · rw [if_pos hps]
      simp [hps]
    · rw [if_neg hps]
      have hpos : 0 < s1.nvm_page_size := Nat.pos_of_ne_zero hps
      have key := split_pages_all_iff s1.nvm_page_size hpos
        (aligned s1.nvm_page_size s1.firmware_size s1.nvm_data) s1.nvm_pages
      change (match split_pages s1.nvm_page_size
          (aligned s1.nvm_page_size s1.firmware_size s1.nvm_data)
          (((aligned s1.nvm_page_size s1.firmware_size s1.nvm_data).length +
            s1.nvm_page_size - 1) / s1.nvm_page_size) 0 s1.nvm_pages with
        | .error f => Loaded.fault f
        | .ok pages => Loaded.returned a1 { s1 with
            nvm_data := aligned s1.nvm_page_size s1.firmware_size s1.nvm_data
            nvm_pages := pages }) = _ ↔ _
      cases hsp : split_pages s1.nvm_page_size
          (aligned s1.nvm_page_size s1.firmware_size s1.nvm_data)
          (((aligned s1.nvm_page_size s1.firmware_size s1.nvm_data).length +
            s1.nvm_page_size - 1) / s1.nvm_page_size) 0 s1.nvm_pages with
      | error f =>
        simp only []
        constructor
        · intro h; cases h
        · rintro ⟨s2, h2, -, hd, -⟩
          cases h2
          have := (key _).mpr ⟨hd, rfl⟩
          rw [hsp] at this
          cases this
      | ok pages =>
        obtain ⟨hd, hpages⟩ := (key pages).mp hsp
        simp only [Loaded.returned.injEq, Scanned.done.injEq]
        constructor
        · rintro ⟨rfl, rfl⟩
          exact ⟨s1, ⟨rfl, rfl⟩, hps, hd, by rw [hpages]⟩
        · rintro ⟨s2, ⟨rfl, rfl⟩, -, -, rfl⟩
          exact ⟨rfl, by rw [hpages]⟩

/-- The method `load_file` on a new image. -/
theorem load_file_new_iff (flash_size page_size : Nat) (filename : String)
    (lines : List (List Char)) (a : Nat) (s : IntelHexFile) :
    load_file (IntelHexFile.IntelHexFile flash_size page_size) filename (some lines)
        = .returned a s ↔
      page_size ≠ 0 ∧
      (∀ r, r ∈ records lines → Acceptable flash_size flash_size r) ∧
      (loaded_image flash_size page_size lines).nvm_data.length % page_size = 0 ∧
      a = (records lines).foldl min_start 0x7fffffff ∧
      s = loaded_image flash_size page_size lines := by
  rw [load_file_returned_iff]
  have hfresh : ({ IntelHexFile.IntelHexFile flash_size page_size with firmware_size := 0 }
      : IntelHexFile) = IntelHexFile.IntelHexFile flash_size page_size := rfl
  rw [hfresh]
  constructor
  · rintro ⟨s1, h1, h2, h3, h4⟩
    rw [load_records_done_iff] at h1
    obtain ⟨hacc, rfl, rfl⟩ := h1
    simp only [foldl_store_page_size, foldl_store_pages] at h2 h3 h4
    simp only [IntelHexFile.IntelHexFile, List.length_replicate, List.nil_append] at h2 h3 h4 hacc
    refine ⟨h2, hacc, ?_, rfl, ?_⟩
    · simpa [loaded_image, IntelHexFile.IntelHexFile] using h3
    · rw [h4]; simp [loaded_image, IntelHexFile.IntelHexFile]
  · rintro ⟨h2, hacc, h3, rfl, rfl⟩
    refine ⟨(records lines).foldl store (IntelHexFile.IntelHexFile flash_size page_size),
      ?_, ?_, ?_, ?_⟩
    · rw [load_records_done_iff]
      refine ⟨?_, rfl, rfl⟩
      simpa [IntelHexFile.IntelHexFile] using hacc
    · simpa [IntelHexFile.IntelHexFile] using h2
    · simpa [loaded_image, IntelHexFile.IntelHexFile] using h3
    · simp [loaded_image, IntelHexFile.IntelHexFile]

theorem loaded_image_firmware_size (flash_size page_size : Nat) (lines : List (List Char)) :
    (loaded_image flash_size page_size lines).firmware_size =
      ((records lines).foldl store (IntelHexFile.IntelHexFile flash_size page_size)).firmware_size :=
  rfl

theorem pages_of_length (page_size : Nat) (data : List Nat) :
    (pages_of page_size data).length = data.length / page_size := by
  simp [pages_of]

/-- A firmware whose byte count is a multiple of the page size leaves the
buffer at the flash size, and the pages cover the whole flash. -/
theorem loaded_image_page_multiple (flash_size page_size : Nat) (lines : List (List Char))
    (h : (loaded_image flash_size page_size lines).firmware_size % page_size = 0) :
    (loaded_image flash_size page_size lines).nvm_data.length = flash_size ∧
    (loaded_image flash_size page_size lines).nvm_pages.length = flash_size / page_size := by
  rw [loaded_image_firmware_size] at h
  simp only [loaded_image, aligned, pages_of_length]
  rw [if_neg (not_not.mpr h)]
  simp [IntelHexFile.IntelHexFile]

/-! ## What the buffer holds -/

theorem write_bytes_getElem? (vals : List Nat) : ∀ (data : List Nat) (a k : Nat),
    (write_bytes data a vals)[k]? =
      if a ≤ k ∧ k < a + vals.length ∧ k < data.length then vals[k - a]? else data[k]? := by
  induction vals with
  | nil =>
    intro data a k
    have : ¬ (a ≤ k ∧ k < a + ([] : List Nat).length ∧ k < data.length) := by
      simp only [List.length_nil]; omega
    rw [if_neg this]; rfl
  | cons v vs ih =>
    intro data a k
    rw [write_bytes, ih, List.length_set, List.getElem?_set, List.length_cons]
    by_cases hk : a = k
    · subst hk
      have h1 : ¬ (a + 1 ≤ a ∧ a < a + 1 + vs.length ∧ a < data.length) := by omega
      rw [if_neg h1, if_pos rfl]
      by_cases hlen : a < data.length
      · rw [if_pos hlen, if_pos ⟨le_refl _, by omega, hlen⟩]
        simp
      · rw [if_neg hlen, if_neg (by omega)]
        rw [List.getElem?_eq_none (by omega)]
    · rw [if_neg hk]
      by_cases hin : a + 1 ≤ k ∧ k < a + 1 + vs.length ∧ k < data.length
      · rw [if_pos hin, if_pos (by omega)]
        have : k - a = (k - (a + 1)) + 1 := by omega
        rw [this, List.getElem?_cons_succ]
      · rw [if_neg hin, if_neg (by omega)]

theorem bytes_from_getElem? (record : List Char) (n : Nat) : ∀ (j k : Nat), k < n →
    (bytes_from record j n)[k]? = some (rec_byte record (j + k)) := by
  induction n with
  | zero => intro j k hk; omega
  | succ n ih =>
    intro j k hk
    cases k with
    | zero => simp [bytes_from]
    | succ k =>
      rw [bytes_from, List.getElem?_cons_succ, ih (j + 1) k (by omega)]
      congr 2; omega

/-- An accepted record leaves its byte `j` at its offset plus `j`. -/
theorem store_getElem?_own (self : IntelHexFile) (r : List Char) (j : Nat)
    (hj : j < rec_count r) (hlen : rec_addr r + j < self.nvm_data.length) :
    (store self r).nvm_data[rec_addr r + j]? = some (rec_byte r j) := by
  simp only [store, rec_bytes]
  rw [write_bytes_getElem?, bytes_from_length,
    if_pos ⟨by omega, by omega, hlen⟩]
  have : rec_addr r + j - rec_addr r = j := by omega
  rw [this, bytes_from_getElem? r _ 0 j hj, Nat.zero_add]

/-- An accepted record leaves the offsets outside its range as they were. -/
theorem store_getElem?_other (self : IntelHexFile) (r : List Char) (k : Nat)
    (hk : ¬ (rec_addr r ≤ k ∧ k < rec_addr r + rec_count r)) :
    (store self r).nvm_data[k]? = self.nvm_data[k]? := by
  simp only [store, rec_bytes]
  rw [write_bytes_getElem?, bytes_from_length, if_neg (by omega)]

theorem foldl_store_getElem?_other (rs : List (List Char)) : ∀ (self : IntelHexFile) (k : Nat),
    (∀ r, r ∈ rs → ¬ (rec_addr r ≤ k ∧ k < rec_addr r + rec_count r)) →
    (rs.foldl store self).nvm_data[k]? = self.nvm_data[k]? := by
  induction rs with
  | nil => intro self k _; rfl
  | cons r rs ih =>
    intro self k h
    rw [List.foldl_cons, ih _ _ (fun r1 h1 => h r1 (List.mem_cons_of_mem _ h1)),
      store_getElem?_other _ _ _ (h r (List.mem_cons_self _ _))]

/-- After records with pairwise different target offsets were stored in
order, every data byte of every record is at its offset. -/
theorem foldl_store_getElem? (rs : List (List Char)) : ∀ (self : IntelHexFile),
    rs.Pairwise disjoint →
    (∀ r, r ∈ rs → ∀ j, j < rec_count r → rec_addr r + j < self.nvm_data.length) →
    ∀ r, r ∈ rs → ∀ j, j < rec_count r →
      (rs.foldl store self).nvm_data[rec_addr r + j]? = some (rec_byte r j) := by
  induction rs with
  | nil => intro self _ _ r hr; cases hr
  | cons r0 rs ih =>
    intro self hpw hlen r hr j hj
    rw [List.pairwise_cons] at hpw
    rw [List.foldl_cons]
    rcases List.mem_cons.mp hr with rfl | hmem
    · rw [foldl_store_getElem?_other, store_getElem?_own _ _ _ hj (hlen _ hr _ hj)]
      intro r1 h1
      have hd := hpw.1 r1 h1
      unfold disjoint at hd
      omega
    · exact ih (store self r0) hpw.2
        (fun r1 h1 j1 hj1 => by
          rw [store_data_length]; exact hlen r1 (List.mem_cons_of_mem _ h1) j1 hj1)
        r hmem j hj

theorem resize_length (data : List Nat) (n : Nat) : (resize data n).length = n := by
  simp only [resize, List.length_append, List.length_take, List.length_replicate]
  omega

theorem resize_getElem? (data : List Nat) (n k : Nat) (hk : k < n) (hlen : k < data.length) :
    (resize data n)[k]? = data[k]? := by
  unfold resize
  rw [List.getElem?_append_left (by rw [List.length_take]; omega), List.getElem?_take_of_lt hk]

/-- Below the new length and the old one, aligning the buffer keeps its
bytes. -/
theorem aligned_getElem? (page_size firmware_size : Nat) (data : List Nat) (k : Nat)
    (hk : k < (aligned page_size firmware_size data).length) (hlen : k < data.length) :
    (aligned page_size firmware_size data)[k]? = data[k]? := by
  unfold aligned at hk ⊢
  split
  · rename_i h
    rw [if_pos h, resize_length] at hk
    exact resize_getElem? _ _ _ hk hlen
  · rfl

theorem page_at_data_getElem? (page_size : Nat) (data : List Nat) (offset i : Nat)
    (hi : i < page_size) :
    (page_at page_size data offset).data[i]? = data[offset + i]? := by
  simp only [page_at]
  rw [List.getElem?_take_of_lt hi, List.getElem?_drop]

theorem pages_of_getElem? (page_size : Nat) (data : List Nat) (k : Nat)
    (hk : k < data.length / page_size) :
    (pages_of page_size data)[k]? = some (page_at page_size data (k * page_size)) := by
  simp only [pages_of, List.getElem?_map, List.getElem?_range hk, Option.map_some']

/-- The byte at offset `k` of the buffer is byte `k mod page_size` of page
`k / page_size`. -/
theorem pages_of_byte (page_size : Nat) (hps : 0 < page_size) (data : List Nat)
    (hd : data.length % page_size = 0) (k : Nat) (hk : k < data.length) :
    ((pages_of page_size data)[k / page_size]?.bind
      (fun p => p.data[k % page_size]?)) = data[k]? := by
  have hlen : data.length = data.length / page_size * page_size := by
    have := Nat.div_add_mod data.length page_size
    rw [hd, Nat.add_zero, Nat.mul_comm] at this
    exact this.symm
  have hq : k / page_size < data.length / page_size := by
    rw [Nat.div_lt_iff_lt_mul hps, ← hlen]; exact hk
  rw [pages_of_getElem? _ _ _ hq, Option.some_bind,
    page_at_data_getElem? _ _ _ _ (Nat.mod_lt _ hps), Nat.div_add_mod']

theorem Acceptable.in_buffer {flash_size buflen : Nat} {record : List Char}
    (h : Acceptable flash_size buflen record) (k : Nat) (hk : k < rec_count record) :
    rec_addr record + k ≤ flash_size ∧ rec_addr record + k < buflen :=
  h.2.2.2.2.2.1 k hk

theorem loaded_image_data (flash_size page_size : Nat) (lines : List (List Char)) :
    (loaded_image flash_size page_size lines).nvm_data =
      aligned page_size
        ((records lines).foldl store (IntelHexFile.IntelHexFile flash_size page_size)).firmware_size
        ((records lines).foldl store (IntelHexFile.IntelHexFile flash_size page_size)).nvm_data :=
  rfl

theorem loaded_image_pages (flash_size page_size : Nat) (lines : List (List Char)) :
    (loaded_image flash_size page_size lines).nvm_pages =
      pages_of page_size (loaded_image flash_size page_size lines).nvm_data :=
  rfl

/-! ## Fields of two hexadecimal digits -/

theorem hexDigit_range {c : Char} {d : Nat} (h : hexDigit c = some d) :
    d < 16 ∧ (48 ≤ c.toNat ∧ c.toNat ≤ 57 ∨ 97 ≤ c.toNat ∧ c.toNat ≤ 102 ∨
      65 ≤ c.toNat ∧ c.toNat ≤ 70) := by
  unfold hexDigit at h
  have e0 : '0'.toNat = 48 := by decide
  have e9 : '9'.toNat = 57 := by decide
  have ea : 'a'.toNat = 97 := by decide
  have ef : 'f'.toNat = 102 := by decide
  have eA : 'A'.toNat = 65 := by decide
  have eF : 'F'.toNat = 70 := by decide
  rw [e0, e9, ea, ef, eA, eF] at h
  split_ifs at h with h1 h2 h3
  · cases h; omega
  · cases h; omega
  · cases h; omega

theorem ne_of_toNat_ne {c d : Char} (h : c.toNat ≠ d.toNat) : c ≠ d := by
  intro e; exact h (by rw [e])

theorem takeSign_of_ne (c : Char) (cs : List Char) (h1 : c ≠ '-') (h2 : c ≠ '+') :
    takeSign (c :: cs) = (false, c :: cs) := by
  unfold takeSign
  split
  · rename_i heq; cases heq; exact absurd rfl h1
  · rename_i heq; cases heq; exact absurd rfl h2
  · rfl

theorem takePrefix_of_ne (c1 c2 : Char) (cs : List Char) (h1 : c2 ≠ 'x') (h2 : c2 ≠ 'X') :
    takePrefix (c1 :: c2 :: cs) = c1 :: c2 :: cs := by
  unfold takePrefix
  split
  · rename_i heq; cases heq; exact absurd rfl h1
  · rename_i heq; cases heq; exact absurd rfl h2
  · rfl

theorem asciiHexTo64_pair {c1 c2 : Char} {d1 d2 : Nat} (h1 : hexDigit c1 = some d1)
    (h2 : hexDigit c2 = some d2) : asciiHexTo64 [c1, c2] = some (16 * d1 + d2) := by
  obtain ⟨hd1, hr1⟩ := hexDigit_range h1
  obtain ⟨hd2, hr2⟩ := hexDigit_range h2
  have s1 : ' '.toNat = 32 := by decide
  have s2 : '\t'.toNat = 9 := by decide
  have s3 : '\n'.toNat = 10 := by decide
  have s4 : (Char.ofNat 11).toNat = 11 := by decide
  have s5 : (Char.ofNat 12).toNat = 12 := by decide
  have s6 : '\r'.toNat = 13 := by decide
  have s7 : '-'.toNat = 45 := by decide
  have s8 : '+'.toNat = 43 := by decide
  have s9 : 'x'.toNat = 120 := by decide
  have s10 : 'X'.toNat = 88 := by decide
  have hsp : isspace c1 = false := by
    simp only [isspace, Bool.decide_or, Bool.or_eq_false_iff, decide_eq_false_iff_not]
    refine ⟨?_, ?_, ?_, ?_, ?_, ?_⟩ <;> apply ne_of_toNat_ne
    · rw [s1]; omega
    · rw [s2]; omega
    · rw [s3]; omega
    · rw [s4]; omega
    · rw [s5]; omega
    · rw [s6]; omega
  have hminus : c1 ≠ '-' := ne_of_toNat_ne (by rw [s7]; omega)
  have hplus : c1 ≠ '+' := ne_of_toNat_ne (by rw [s8]; omega)
  have hx : c2 ≠ 'x' := ne_of_toNat_ne (by rw [s9]; omega)
  have hX : c2 ≠ 'X' := ne_of_toNat_ne (by rw [s10]; omega)
  have hdrop : List.dropWhile isspace [c1, c2] = [c1, c2] := by
    simp [List.dropWhile, hsp]
  unfold asciiHexTo64
  rw [hdrop]
  simp only [extractHex, takeSign_of_ne c1 [c2] hminus hplus, takePrefix_of_ne c1 c2 [] hx hX,
    scanHex, h1, h2]
  have hsmall : ¬ (2 ^ 64 ≤ 16 * (16 * 0 + d1) + d2) := by
    have : (2 : Nat) ^ 64 = 18446744073709551616 := by norm_num
    omega
  rw [if_neg hsmall]
  simp

/-- A field of two hexadecimal digits is read as the byte it spells. -/
theorem asciiHexTo64_hex2 {cs : List Char} {b : Nat} (h : hex2 cs = some b) :
    asciiHexTo64 cs = some b ∧ b < 256 ∧ cs.length = 2 := by
  unfold hex2 at h
  split at h
  · rename_i c1 c2
    split at h
    · rename_i d1 d2 h1 h2
      cases h
      refine ⟨asciiHexTo64_pair h1 h2, ?_, rfl⟩
      have := (hexDigit_range h1).1
      have := (hexDigit_range h2).1
      omega
    · cases h
  · cases h

theorem hexField_at (pre f post : List Char) (b : Nat) (h : hex2 f = some b) :
    hexField (pre ++ f ++ post) pre.length = .ok b := by
  obtain ⟨hv, -, hl⟩ := asciiHexTo64_hex2 h
  have hsub : substr (pre ++ f ++ post) pre.length 2 = some f := by
    unfold substr
    rw [if_pos (by simp)]
    rw [List.append_assoc, List.drop_left, ← hl, List.take_left]
  unfold hexField
  rw [hsub]
  simp only [hv]

theorem hexField_at_pos (r pre f post : List Char) (b pos : Nat) (h : hex2 f = some b)
    (hr : r = pre ++ f ++ post) (hpos : pre.length = pos) : hexField r pos = .ok b := by
  rw [hr, ← hpos]; exact hexField_at pre f post b h

theorem hex2_length {f : List Char} {b : Nat} (h : hex2 f = some b) : f.length = 2 :=
  (asciiHexTo64_hex2 h).2.2

theorem hex2_lt {f : List Char} {b : Nat} (h : hex2 f = some b) : b < 256 :=
  (asciiHexTo64_hex2 h).2.1

theorem hex2_data_getElem {fdata : List (List Char)} {data : List Nat}
    (h : fdata.map hex2 = data.map some) :
    fdata.length = data.length ∧
    ∀ k (h1 : k < fdata.length) (h2 : k < data.length), hex2 fdata[k] = some data[k] := by
  have hlen : fdata.length = data.length := by
    have := congrArg List.length h
    simpa using this
  refine ⟨hlen, ?_⟩
  intro k h1 h2
  have := congrArg (fun l => l[k]?) h
  simp only [List.getElem?_map, List.getElem?_eq_getElem h1, List.getElem?_eq_getElem h2,
    Option.map_some'] at this
  exact Option.some.inj this

theorem flatten_length_pairs (l : List (List Char)) (h : ∀ f, f ∈ l → f.length = 2) :
    l.flatten.length = 2 * l.length := by
  induction l with
  | nil => rfl
  | cons f l ih =>
    rw [List.flatten_cons, List.length_append, h f (List.mem_cons_self _ _),
      ih (fun g hg => h g (List.mem_cons_of_mem _ hg)), List.length_cons]
    omega

theorem hex2_data_lengths {fdata : List (List Char)} {data : List Nat}
    (h : fdata.map hex2 = data.map some) : ∀ f, f ∈ fdata → f.length = 2 := by
  intro f hf
  obtain ⟨k, hk, rfl⟩ := List.getElem_of_mem hf
  have hlen := (hex2_data_getElem h).1
  exact hex2_length ((hex2_data_getElem h).2 k hk (by omega))

/-- The fields of a record text, as `parse_record` reads them. -/
theorem record_text_fields (fcc fhi flo ftt : List Char) (fdata : List (List Char))
    (fkk trailer : List Char) (cc hi lo tt kk : Nat) (data : List Nat)
    (hcc : hex2 fcc = some cc) (hhi : hex2 fhi = some hi) (hlo : hex2 flo = some lo)
    (htt : hex2 ftt = some tt) (hdata : fdata.map hex2 = data.map some)
    (hkk : hex2 fkk = some kk) :
    (record_text fcc fhi flo ftt fdata fkk trailer).head? = some ':' ∧
    (record_text fcc fhi flo ftt fdata fkk trailer).length
      = 11 + 2 * data.length + trailer.length ∧
    hexField (record_text fcc fhi flo ftt fdata fkk trailer) 1 = .ok cc ∧
    hexField (record_text fcc fhi flo ftt fdata fkk trailer) 3 = .ok hi ∧
    hexField (record_text fcc fhi flo ftt fdata fkk trailer) 5 = .ok lo ∧
    hexField (record_text fcc fhi flo ftt fdata fkk trailer) 7 = .ok tt ∧
    (∀ k (hk : k < data.length),
      hexField (record_text fcc fhi flo ftt fdata fkk trailer) (9 + 2 * k) = .ok data[k]) ∧
    hexField (record_text fcc fhi flo ftt fdata fkk trailer) (9 + 2 * data.length) = .ok kk := by
  have l1 := hex2_length hcc
  have l2 := hex2_length hhi
  have l3 := hex2_length hlo
  have l4 := hex2_length htt
  have l5 := hex2_length hkk
  have hall := hex2_data_lengths hdata
  have hfl := flatten_length_pairs fdata hall
  obtain ⟨hlen, hget⟩ := hex2_data_getElem hdata
  refine ⟨rfl, ?_, ?_, ?_, ?_, ?_, ?_, ?_⟩
  · simp only [record_text, List.length_cons, List.length_append, l1, l2, l3, l4, l5, hfl, hlen]
    omega
  · exact hexField_at_pos _ [':'] fcc (fhi ++ flo ++ ftt ++ fdata.flatten ++ fkk ++ trailer)
      cc 1 hcc (by simp [record_text]) rfl
  · exact hexField_at_pos _ (':' :: fcc) fhi (flo ++ ftt ++ fdata.flatten ++ fkk ++ trailer)
      hi 3 hhi (by simp [record_text]) (by simp [l1])
  · exact hexField_at_pos _ (':' :: (fcc ++ fhi)) flo (ftt ++ fdata.flatten ++ fkk ++ trailer)
      lo 5 hlo (by simp [record_text]) (by simp [l1, l2])
  · exact hexField_at_pos _ (':' :: (fcc ++ fhi ++ flo)) ftt (fdata.flatten ++ fkk ++ trailer)
      tt 7 htt (by simp [record_text]) (by simp [l1, l2, l3])
  · intro k hk
    have hk1 : k < fdata.length := by omega
    have hsplit : fdata = fdata.take k ++ fdata[k] :: fdata.drop (k + 1) := by
      rw [← List.drop_eq_getElem_cons hk1, List.take_append_drop]
    have htake : (fdata.take k).flatten.length = 2 * k := by
      rw [flatten_length_pairs _ (fun f hf => hall f (List.mem_of_mem_take hf)),
        List.length_take]
      omega
    refine hexField_at_pos _ (':' :: (fcc ++ fhi ++ flo ++ ftt ++ (fdata.take k).flatten))
      fdata[k] ((fdata.drop (k + 1)).flatten ++ fkk ++ trailer) data[k] (9 + 2 * k)
      (hget k hk1 hk) ?_ ?_
    · have hfs : fdata.flatten = (fdata.take k).flatten ++
          (fdata[k] ++ (fdata.drop (k + 1)).flatten) := by
        conv_lhs => rw [hsplit]
        rw [List.flatten_append, List.flatten_cons]
      simp only [record_text, hfs, List.append_assoc, List.cons_append]
    · simp only [List.length_cons, List.length_append, l1, l2, l3, l4, htake]
      omega
  · refine hexField_at_pos _ (':' :: (fcc ++ fhi ++ flo ++ ftt ++ fdata.flatten))
      fkk trailer kk (9 + 2 * data.length) hkk (by simp [record_text]) ?_
    simp only [List.length_cons, List.length_append, l1, l2, l3, l4, hfl, hlen]
    omega

theorem bytes_from_eq_of_getElem (record : List Char) (data : List Nat)
    (h : ∀ k (hk : k < data.length), rec_byte record k = data[k]) :
    bytes_from record 0 data.length = data := by
  apply List.ext_getElem?
  intro k
  by_cases hk : k < data.length
  · rw [bytes_from_getElem? _ _ _ _ hk, Nat.zero_add, h k hk, List.getElem?_eq_getElem hk]
  · rw [List.getElem?_eq_none (by rw [bytes_from_length]; omega),
      List.getElem?_eq_none (by omega)]

/-- How `parse_record` reads a record text that is followed by one more
character on its line. -/
theorem record_text_view (fcc fhi flo ftt : List Char) (fdata : List (List Char))
    (fkk : List Char) (c : Char) (cc hi lo tt kk : Nat) (data : List Nat)
    (hcc : hex2 fcc = some cc) (hhi : hex2 fhi = some hi) (hlo : hex2 flo = some lo)
    (htt : hex2 ftt = some tt) (hdata : fdata.map hex2 = data.map some)
    (hkk : hex2 fkk = some kk) (hcount : cc = data.length) (h128 : cc < 128) :
    rec_cc (record_text fcc fhi flo ftt fdata fkk [c]) = cc ∧
    rec_count (record_text fcc fhi flo ftt fdata fkk [c]) = data.length ∧
    rec_high (record_text fcc fhi flo ftt fdata fkk [c]) = hi ∧
    rec_low (record_text fcc fhi flo ftt fdata fkk [c]) = lo ∧
    rec_type (record_text fcc fhi flo ftt fdata fkk [c]) = tt ∧
    rec_bytes (record_text fcc fhi flo ftt fdata fkk [c]) = data ∧
    rec_kk (record_text fcc fhi flo ftt fdata fkk [c]) = kk ∧
    dataChars (record_text fcc fhi flo ftt fdata fkk [c]) = 2 * data.length ∧
    (∀ k, k < data.length →
      fieldOk (record_text fcc fhi flo ftt fdata fkk [c]) (9 + 2 * k) = true) ∧
    (∀ k (hk : k < data.length),
      rec_byte (record_text fcc fhi flo ftt fdata fkk [c]) k = data[k]) := by
  obtain ⟨-, hlen, h1, h3, h5, h7, hd, hk⟩ :=
    record_text_fields fcc fhi flo ftt fdata fkk [c] cc hi lo tt kk data hcc hhi hlo htt hdata hkk
  have hlen1 : (record_text fcc fhi flo ftt fdata fkk [c]).length = 12 + 2 * data.length := by
    rw [hlen, List.length_singleton]; omega
  have hbyte : ∀ k (hk : k < data.length),
      rec_byte (record_text fcc fhi flo ftt fdata fkk [c]) k = data[k] := by
    intro k hk1
    have hb : data[k] < 256 := by
      obtain ⟨hl, hg⟩ := hex2_data_getElem hdata
      exact hex2_lt (hg k (by omega) hk1)
    simp only [rec_byte, fieldVal, hd k hk1]
    exact Nat.mod_eq_of_lt hb
  have ecc : rec_cc (record_text fcc fhi flo ftt fdata fkk [c]) = cc := by
    simp only [rec_cc, fieldVal, h1]
  have ecount : rec_count (record_text fcc fhi flo ftt fdata fkk [c]) = data.length := by
    simp only [rec_count, ecc]; omega
  refine ⟨ecc, ecount, ?_, ?_, ?_, ?_, ?_, ?_, ?_, hbyte⟩
  · simp only [rec_high, fieldVal, h3]; exact Nat.mod_eq_of_lt (hex2_lt hhi)
  · simp only [rec_low, fieldVal, h5]; exact Nat.mod_eq_of_lt (hex2_lt hlo)
  · simp only [rec_type, fieldVal, h7]; exact Nat.mod_eq_of_lt (hex2_lt htt)
  · rw [rec_bytes, ecount]; exact bytes_from_eq_of_getElem _ _ hbyte
  · have e : (record_text fcc fhi flo ftt fdata fkk [c]).length - 3 = 9 + 2 * data.length := by
      omega
    simp only [rec_kk, e, fieldVal, hk]; exact Nat.mod_eq_of_lt (hex2_lt hkk)
  · simp only [dataChars, hlen1]
    rw [if_neg (by omega)]; omega
  · intro k hk1
    simp only [fieldOk, hd k hk1]

/-! ## Changing one data byte of a line -/

theorem substr_set_other (l : List Char) (q pos : Nat) (c : Char)
    (h : q < pos ∨ pos + 2 ≤ q) : substr (l.set q c) pos 2 = substr l pos 2 := by
  unfold substr
  rw [List.length_set]
  congr 2
  apply List.ext_getElem?
  intro n
  simp only [List.getElem?_take, List.getElem?_drop, List.getElem?_set]
  by_cases hn : n < 2
  · rw [if_pos hn, if_pos hn, if_neg (by omega)]
  · rw [if_neg hn, if_neg hn]

theorem hexField_set_other (l : List Char) (q pos : Nat) (c : Char)
    (h : q < pos ∨ pos + 2 ≤ q) : hexField (l.set q c) pos = hexField l pos := by
  unfold hexField; rw [substr_set_other l q pos c h]

theorem hexField_replace_other (record : List Char) (j pos : Nat) (x y : Char)
    (h : 10 + 2 * j < pos ∨ pos + 2 ≤ 9 + 2 * j) :
    hexField (replace_byte record j x y) pos = hexField record pos := by
  unfold replace_byte
  rw [hexField_set_other _ _ _ _ (by omega), hexField_set_other _ _ _ _ (by omega)]

theorem substr_replace_own (record : List Char) (j : Nat) (x y : Char)
    (h : 10 + 2 * j < record.length) :
    substr (replace_byte record j x y) (9 + 2 * j) 2 = some [x, y] := by
  unfold substr replace_byte
  rw [List.length_set, List.length_set, if_pos (by omega)]
  congr 1
  apply List.ext_getElem?
  intro n
  simp only [List.getElem?_take, List.getElem?_drop, List.getElem?_set, List.length_set]
  match n with
  | 0 =>
    rw [if_pos (by omega), if_neg (by omega), if_pos (by omega), if_pos (by omega)]
    rfl
  | 1 =>
    rw [if_pos (by omega), if_pos (by omega), if_pos (by omega)]
    rfl
  | n + 2 =>
    rw [if_neg (by omega)]
    rfl

theorem replace_byte_length (record : List Char) (j : Nat) (x y : Char) :
    (replace_byte record j x y).length = record.length := by
  simp [replace_byte]

theorem replace_byte_head (record : List Char) (j : Nat) (x y : Char) :
    (replace_byte record j x y).head? = record.head? := by
  unfold replace_byte
  cases record with
  | nil => rfl
  | cons c cs =>
    have e1 : 9 + 2 * j = (8 + 2 * j) + 1 := by omega
    have e2 : 10 + 2 * j = (9 + 2 * j) + 1 := by omega
    rw [e1, List.set_cons_succ, e2, List.set_cons_succ]
    rfl

theorem fieldVal_replace_other (record : List Char) (j pos : Nat) (x y : Char)
    (h : 10 + 2 * j < pos ∨ pos + 2 ≤ 9 + 2 * j) :
    fieldVal (replace_byte record j x y) pos = fieldVal record pos ∧
    fieldOk (replace_byte record j x y) pos = fieldOk record pos := by
  unfold fieldVal fieldOk
  rw [hexField_replace_other record j pos x y h]
  exact ⟨rfl, rfl⟩

theorem bytes_from_sum_replace (r r1 : List Char) (j v : Nat)
    (hsame : ∀ k, k ≠ j → rec_byte r1 k = rec_byte r k) (hj : rec_byte r1 j = v) :
    ∀ (n i : Nat), (bytes_from r1 i n).sum + (if i ≤ j ∧ j < i + n then rec_byte r j else 0)
      = (bytes_from r i n).sum + (if i ≤ j ∧ j < i + n then v else 0) := by
  intro n
  induction n with
  | zero =>
    intro i
    rw [if_neg (by omega), if_neg (by omega)]
    rfl
  | succ n ih =>
    intro i
    have h := ih (i + 1)
    simp only [bytes_from, List.sum_cons]
    by_cases hi : i = j
    · subst hi
      rw [if_neg (by omega), if_neg (by omega)] at h
      rw [if_pos (by omega), if_pos (by omega), hj]
      omega
    · rw [hsame i hi]
      by_cases hin : i + 1 ≤ j ∧ j < i + 1 + n
      · rw [if_pos hin, if_pos hin] at h
        rw [if_pos (by omega), if_pos (by omega)]
        omega
      · rw [if_neg hin, if_neg hin] at h
        rw [if_neg (by omega), if_neg (by omega)]
        omega

/-- A line that passes every check before the checksum still does after one
of its data bytes was replaced by two hexadecimal digits, and its 8-bit sum
moves by the difference of the two byte values. -/
theorem replace_byte_shaped (flash_size buflen : Nat) (record : List Char) (j : Nat)
    (x y : Char) (v : Nat) (h : Shaped flash_size buflen record) (hj : j < rec_count record)
    (hv : hex2 [x, y] = some v) :
    Shaped flash_size buflen (replace_byte record j x y) ∧
    (check_sum (replace_byte record j x y) + rec_byte record j) % 256 =
      (check_sum record + v) % 256 := by
  obtain ⟨hhead, ⟨o1, o3, o5, o7⟩, htype, hsize, hA, hB, ok⟩ := h
  have hlen : record.length = 12 + 2 * rec_count record := by
    unfold dataChars at hsize
    unfold rec_count
    split at hsize
    · have : (2 : Nat) ^ 64 = 18446744073709551616 := by norm_num
      omega
    · omega
  have f1 := fieldVal_replace_other record j 1 x y (by omega)
  have f3 := fieldVal_replace_other record j 3 x y (by omega)
  have f5 := fieldVal_replace_other record j 5 x y (by omega)
  have f7 := fieldVal_replace_other record j 7 x y (by omega)
  have fk := fieldVal_replace_other record j (record.length - 3) x y (by omega)
  have fd : ∀ k, k ≠ j →
      fieldVal (replace_byte record j x y) (9 + 2 * k) = fieldVal record (9 + 2 * k) ∧
      fieldOk (replace_byte record j x y) (9 + 2 * k) = fieldOk record (9 + 2 * k) :=
    fun k hk => fieldVal_replace_other record j (9 + 2 * k) x y (by omega)
  have hown : hexField (replace_byte record j x y) (9 + 2 * j) = .ok v := by
    unfold hexField
    rw [substr_replace_own record j x y (by omega)]
    simp only [(asciiHexTo64_hex2 hv).1]
  have hvlt : v < 256 := hex2_lt hv
  have elen := replace_byte_length record j x y
  have ecc : rec_cc (replace_byte record j x y) = rec_cc record := f1.1
  have ecount : rec_count (replace_byte record j x y) = rec_count record := by
    unfold rec_count; rw [ecc]
  have ehi : rec_high (replace_byte record j x y) = rec_high record := by
    unfold rec_high; rw [f3.1]
  have elo : rec_low (replace_byte record j x y) = rec_low record := by
    unfold rec_low; rw [f5.1]
  have eaddr : rec_addr (replace_byte record j x y) = rec_addr record := by
    unfold rec_addr; rw [ehi, elo]
  have ett : rec_type (replace_byte record j x y) = rec_type record := by
    unfold rec_type; rw [f7.1]
  have ekk : rec_kk (replace_byte record j x y) = rec_kk record := by
    unfold rec_kk; rw [elen, fk.1]
  have echars : dataChars (replace_byte record j x y) = dataChars record := by
    unfold dataChars; rw [elen]
  have esame : ∀ k, k ≠ j → rec_byte (replace_byte record j x y) k = rec_byte record k := by
    intro k hk; unfold rec_byte; rw [(fd k hk).1]
  have eown : rec_byte (replace_byte record j x y) j = v := by
    simp only [rec_byte, fieldVal, hown]; exact Nat.mod_eq_of_lt hvlt
  constructor
  · refine ⟨?_, ⟨?_, ?_, ?_, ?_⟩, ?_, ?_, ?_, ?_, ?_⟩
    · rw [replace_byte_head]; exact hhead
    · rw [f1.2]; exact o1
    · rw [f3.2]; exact o3
    · rw [f5.2]; exact o5
    · rw [f7.2]; exact o7
    · rw [ett]; exact htype
    · rw [ecc, echars]; exact hsize
    · rw [ecount]
      intro k hk
      by_cases hkj : k = j
      · subst hkj; simp only [fieldOk, hown]
      · rw [(fd k hkj).2]; exact hA k hk
    · rw [ecount, eaddr]; exact hB
    · rw [elen, fk.2]; exact ok
  · have hsum := bytes_from_sum_replace record (replace_byte record j x y) j v esame eown
      (rec_count record) 0
    rw [if_pos (by omega), if_pos (by omega)] at hsum
    unfold check_sum rec_bytes
    rw [ecount, ehi, elo, ett, ekk]
    omega

/-! ## Claims -/

/-- C1 (the code departs from the claim): on a new image with flash size 4096
and page size 64, a firmware of exactly 64 bytes is accepted and `load_file`
leaves 64 pages, not `ceil(64 / 64) = 1`: the buffer is only cut down to the
firmware when the byte count is not a multiple of the page size. -/
theorem C1_page_multiple_firmware_fills_flash :
    (load_file (IntelHexFile.IntelHexFile 4096 64) "firmware.hex" (some one_page_hex)).self?.map
        (fun s => (s.firmware_size, (get_page_data s).length,
          decide (((get_page_data s).length - 1) * 64 < s.firmware_size)))
      = some (64, 64, false) := by
  have hfs : (loaded_image 4096 64 one_page_hex).firmware_size = 64 := by decide
  have hmul := loaded_image_page_multiple 4096 64 one_page_hex (by rw [hfs])
  have hload : load_file (IntelHexFile.IntelHexFile 4096 64) "firmware.hex" (some one_page_hex)
      = .returned 0 (loaded_image 4096 64 one_page_hex) := by
    rw [load_file_new_iff]
    refine ⟨by decide, by decide, ?_, by decide, rfl⟩
    rw [hmul.1]
  rw [hload]
  simp [Loaded.self?, get_page_data, hfs, hmul.2]

/-- C2 (amended): after `load_file` returned on a new image for a file whose
records have pairwise different target offsets, every data byte `j` of every
record whose target offset `AAAA + j` is below the length of the returned
buffer is in the buffer at that offset, and in page `offset / page_size` at
index `offset mod page_size`. -/
theorem C2_data_byte_at_offset_below_buffer_end (flash_size page_size : Nat)
    (filename : String) (lines : List (List Char)) (start : Nat) (s : IntelHexFile)
    (hload : load_file (IntelHexFile.IntelHexFile flash_size page_size) filename (some lines)
      = .returned start s)
    (hdisj : (records lines).Pairwise disjoint)
    (r : List Char) (hr : r ∈ records lines) (j : Nat) (hj : j < rec_count r)
    (ha : rec_addr r + j < (get_flash_data s).length) :
    (get_flash_data s)[rec_addr r + j]? = some (rec_byte r j) ∧
    ((get_page_data s)[(rec_addr r + j) / page_size]?.bind
      (fun p => p.data[(rec_addr r + j) % page_size]?)) = some (rec_byte r j) := by
  rw [load_file_new_iff] at hload
  obtain ⟨hps, hacc, hal, -, rfl⟩ := hload
  simp only [get_flash_data, get_page_data] at ha ⊢
  have hbyte : (loaded_image flash_size page_size lines).nvm_data[rec_addr r + j]?
      = some (rec_byte r j) := by
    rw [loaded_image_data] at ha ⊢
    have hflash : rec_addr r + j < ((records lines).foldl store
        (IntelHexFile.IntelHexFile flash_size page_size)).nvm_data.length := by
      rw [foldl_store_data_length]
      simpa [IntelHexFile.IntelHexFile] using ((hacc r hr).in_buffer j hj).2
    rw [aligned_getElem? _ _ _ _ ha hflash]
    apply foldl_store_getElem? _ _ hdisj _ r hr j hj
    intro r1 h1 j1 hj1
    simpa [IntelHexFile.IntelHexFile] using ((hacc r1 h1).in_buffer j1 hj1).2
  refine ⟨hbyte, ?_⟩
  rw [loaded_image_pages, pages_of_byte _ (Nat.pos_of_ne_zero hps) _ hal _ ha, hbyte]

/-- Witness for C2: the second byte of the two-byte firmware, on an image of
8 bytes in pages of 2. -/
theorem C2_data_byte_at_offset_below_buffer_end_witness :
    load_file (IntelHexFile.IntelHexFile 8 2) "firmware.hex" (some two_byte_hex)
      = .returned 0 (loaded_image 8 2 two_byte_hex) ∧
    (get_flash_data (loaded_image 8 2 two_byte_hex))[1]? = some 0xBB ∧
    ((get_page_data (loaded_image 8 2 two_byte_hex))[1 / 2]?.bind
      (fun p => p.data[1 % 2]?)) = some 0xBB :=
  ⟨by decide,
   C2_data_byte_at_offset_below_buffer_end 8 2 "firmware.hex" two_byte_hex 0
    (loaded_image 8 2 two_byte_hex) (by decide) (by decide)
    ":02000000AABB99\r".toList (by decide) 1 (by decide) (by decide)⟩

/-- C2 (counterexample): on a new image with flash size 4096 and page size 64,
the file with the single data byte `AA` at offset 0x0100 is accepted, but the
returned buffer is cut to one page of 64 bytes and holds nothing at offset
0x0100. -/
theorem C2_sparse_firmware_byte_cut_off :
    ¬ (∀ (start : Nat) (s : IntelHexFile),
      load_file (IntelHexFile.IntelHexFile 4096 64) "firmware.hex" (some sparse_hex)
        = .returned start s →
      (records sparse_hex).Pairwise disjoint →
      ∀ r, r ∈ records sparse_hex → ∀ j, j < rec_count r →
        (get_flash_data s)[rec_addr r + j]? = some (rec_byte r j) ∧
        ((get_page_data s)[(rec_addr r + j) / 64]?.bind
          (fun p => p.data[(rec_addr r + j) % 64]?)) = some (rec_byte r j)) := by
  intro h
  have hfs : (loaded_image 4096 64 sparse_hex).firmware_size = 1 := by decide
  have hlen : (loaded_image 4096 64 sparse_hex).nvm_data.length = 64 := by
    rw [loaded_image_data, ← loaded_image_firmware_size, hfs]
    simp only [aligned]
    rw [if_pos (by decide), resize_length]
    decide
  have hload : load_file (IntelHexFile.IntelHexFile 4096 64) "firmware.hex" (some sparse_hex)
      = .returned 0 (loaded_image 4096 64 sparse_hex) := by
    rw [load_file_new_iff]
    refine ⟨by decide, by decide, ?_, by decide, rfl⟩
    rw [hlen]
  have hbad := (h 0 _ hload (by decide) ":01010000AA54\r".toList (by decide) 0 (by decide)).1
  have haddr : rec_addr ":01010000AA54\r".toList + 0 = 256 := by decide
  rw [haddr, get_flash_data, List.getElem?_eq_none (by rw [hlen]; decide)] at hbad
  cases hbad

/-- C3 (amended): a record text `:` `CC` `AAAA` `TT` `DD`.. `KK` followed by
exactly one more character (line length `12 + 2 * CC`), with type 00 or 01,
`CC < 128` data bytes, every data offset below the flash size and a checksum
that makes the 8-bit sum zero, is accepted by `parse_record`, which returns
the offset `AAAA` and stores data byte `j` at buffer offset `AAAA + j`. -/
theorem C3_record_with_trailing_character_accepted (self : IntelHexFile)
    (fcc fhi flo ftt : List Char) (fdata : List (List Char)) (fkk : List Char) (c : Char)
    (cc hi lo tt kk : Nat) (data : List Nat)
    (hcc : hex2 fcc = some cc) (hhi : hex2 fhi = some hi) (hlo : hex2 flo = some lo)
    (htt : hex2 ftt = some tt) (hdata : fdata.map hex2 = data.map some)
    (hkk : hex2 fkk = some kk)
    (hcount : cc = data.length) (h128 : cc < 128) (htype : tt = 0 ∨ tt = 1)
    (hbuf : self.nvm_flash_size ≤ self.nvm_data.length)
    (hrange : ∀ j, j < data.length → hi * 256 + lo + j < self.nvm_flash_size)
    (hsum : (cc + hi + lo + tt + data.sum + kk) % 256 = 0) :
    ∃ s1, parse_record self (record_text fcc fhi flo ftt fdata fkk [c])
        = .accepted (hi * 256 + lo) s1 ∧
      ∀ j (hj : j < data.length), s1.nvm_data[hi * 256 + lo + j]? = some data[j] := by
  obtain ⟨hhead, hlen, h1, h3, h5, h7, hd, hk⟩ :=
    record_text_fields fcc fhi flo ftt fdata fkk [c] cc hi lo tt kk data hcc hhi hlo htt hdata hkk
  obtain ⟨ecc, ecount, ehi, elo, ett, ebytes, ekk, echars, eok, ebyte⟩ :=
    record_text_view fcc fhi flo ftt fdata fkk c cc hi lo tt kk data hcc hhi hlo htt hdata hkk
      hcount h128
  have eaddr : rec_addr (record_text fcc fhi flo ftt fdata fkk [c]) = hi * 256 + lo := by
    rw [rec_addr, ehi, elo]
  have e3 : (record_text fcc fhi flo ftt fdata fkk [c]).length - 3 = 9 + 2 * data.length := by
    rw [hlen, List.length_singleton]; omega
  refine ⟨store self (record_text fcc fhi flo ftt fdata fkk [c]), ?_, ?_⟩
  · rw [parse_record_accepted_iff]
    refine ⟨⟨hhead, ⟨?_, ?_, ?_, ?_⟩, ?_, ?_, ?_, ?_, ?_, ?_⟩, eaddr.symm, rfl⟩
    · simp only [fieldOk, h1]
    · simp only [fieldOk, h3]
    · simp only [fieldOk, h5]
    · simp only [fieldOk, h7]
    · rw [ett]; exact htype
    · rw [ecc, echars]; omega
    · rw [ecount]; exact eok
    · rw [ecount, eaddr]
      intro k hk1
      have := hrange k hk1
      omega
    · rw [e3]; simp only [fieldOk, hk]
    · rw [ecount, ehi, elo, ett, ebytes, ekk, ← hcount]; exact hsum
  · intro j hj
    have := store_getElem?_own self (record_text fcc fhi flo ftt fdata fkk [c]) j
      (by rw [ecount]; exact hj) (by rw [eaddr]; have := hrange j hj; omega)
    rw [eaddr, ebyte j hj] at this
    exact this

/-- Witness for C3: the record `:0100000055AA` followed by a carriage return,
on a new image with flash size 4096. -/
theorem C3_record_with_trailing_character_accepted_witness :
    ∃ s1, parse_record (IntelHexFile.IntelHexFile 4096 64)
        (record_text "01".toList "00".toList "00".toList "00".toList ["55".toList]
          "AA".toList ['\r'])
        = .accepted (0 * 256 + 0) s1 ∧
      ∀ j (hj : j < [0x55].length), s1.nvm_data[0 * 256 + 0 + j]? = some [0x55][j] :=
  C3_record_with_trailing_character_accepted (IntelHexFile.IntelHexFile 4096 64)
    "01".toList "00".toList "00".toList "00".toList ["55".toList] "AA".toList '\r'
    1 0 0 0 0xAA [0x55] (by decide) (by decide) (by decide) (by decide) (by decide)
    (by decide) (by decide) (by decide) (by decide)
    (by show 4096 ≤ (List.replicate 4096 0).length; rw [List.length_replicate])
    (by intro j hj; show 0 * 256 + 0 + j < 4096; simp only [List.length_singleton] at hj; omega)
    (by decide)

/-- C3 (counterexample): the same record `:0100000055AA` in the exact form,
with nothing behind the checksum (13 = 11 + 2 * 1 characters), has a correct
checksum and is rejected with "Wrong data size". -/
theorem C3_exact_form_record_rejected :
    (0x01 + 0x00 + 0x00 + 0x00 + 0x55 + 0xAA) % 256 = 0 ∧
    record_text "01".toList "00".toList "00".toList "00".toList ["55".toList] "AA".toList []
      = ":0100000055AA".toList ∧
    parse_record (IntelHexFile.IntelHexFile 4096 64) ":0100000055AA".toList
      = .rejected "Wrong data size" (IntelHexFile.IntelHexFile 4096 64) := by
  refine ⟨by decide, by decide, ?_⟩
  exact parse_record_wrong_size _ _ (by decide) (by decide) (by decide) (by decide)

/-- C4 (the code departs from the claim): on a new image with flash size 1024,
the record with one data byte at offset 0x0400 = 1024 is not rejected with
"Exceed maximum flash size": the range test is `>`, the record passes it and
the byte is written at index 1024 of the 1024-byte buffer; `load_file` does
not throw `ios_base::failure` for it. -/
theorem C4_offset_equal_to_flash_size_passes_range_check :
    parse_record (IntelHexFile.IntelHexFile 1024 64) ":01040000AA51\r".toList
      = .fault (.buffer_overrun 1024) ∧
    load_file (IntelHexFile.IntelHexFile 1024 64) "firmware.hex"
        (some [":01040000AA51\r".toList, ":00000001FF\r".toList])
      = .fault (.buffer_overrun 1024) := by
  constructor <;> decide

/-- C5 (the code departs from the claim): the line `:8000000000` plus a carriage
return, whose byte count field is 0x80, is accepted, and the 8-bit sum of its
fields with `CC` as written is 0x80, not 0: the parser adds `count / 2` for
the 8-bit `count = 2 * CC`, which is 0 here. -/
theorem C5_accepted_record_with_nonzero_sum :
    parse_record (IntelHexFile.IntelHexFile 4096 64) ":8000000000\r".toList
      = .accepted 0 (IntelHexFile.IntelHexFile 4096 64) ∧
    rec_cc ":8000000000\r".toList = 0x80 ∧
    (rec_cc ":8000000000\r".toList + rec_high ":8000000000\r".toList +
      rec_low ":8000000000\r".toList + rec_type ":8000000000\r".toList +
      (rec_bytes ":8000000000\r".toList).sum + rec_kk ":8000000000\r".toList) % 256
      = 0x80 := by
  refine ⟨?_, by decide, by decide⟩
  rw [parse_record_accepted_iff]
  refine ⟨?_, by decide, (store_of_count_zero _ _ (by decide)).symm⟩
  show Acceptable 4096 (List.replicate 4096 0).length _
  rw [List.length_replicate]
  decide

/-- C6: when `parse_record` accepts a line on a new image, the line with the
two characters of one of its data bytes replaced by two hexadecimal digits
of another value, everything else untouched, is rejected with "Failed to
verify checksum" on every object of that flash size; and `load_file` throws
`ios_base::failure` with that message on every file that holds the changed
line behind lines that are all read and accepted. -/
theorem C6_changed_data_byte_rejected (flash_size page_size : Nat) (record : List Char)
    (a : Nat) (s1 : IntelHexFile)
    (hacc : parse_record (IntelHexFile.IntelHexFile flash_size page_size) record
      = .accepted a s1)
    (j : Nat) (hj : j < rec_count record) (x y : Char) (v : Nat)
    (hv : hex2 [x, y] = some v) (hne : v ≠ rec_byte record j) :
    (∀ self : IntelHexFile, self.nvm_flash_size = flash_size →
      self.nvm_data.length = flash_size →
      parse_record self (replace_byte record j x y)
        = .rejected "Failed to verify checksum" (store self (replace_byte record j x y))) ∧
    (∀ (filename : String) (pre : List (List Char)) (line : List Char)
      (post : List (List Char)) (st0 : Nat) (s0 : IntelHexFile),
      records pre = pre →
      load_records pre (IntelHexFile.IntelHexFile flash_size page_size) 0x7fffffff
        = .done st0 s0 →
      getline line = some (replace_byte record j x y) →
      ∃ s, load_file (IntelHexFile.IntelHexFile flash_size page_size) filename
        (some (pre ++ line :: post)) = .failure "Failed to verify checksum" s) := by
  rw [parse_record_accepted_iff, acceptable_iff_shaped] at hacc
  obtain ⟨⟨hshape, hsum⟩, -, -⟩ := hacc
  have hflash : (IntelHexFile.IntelHexFile flash_size page_size).nvm_flash_size = flash_size :=
    rfl
  have hbuf : (IntelHexFile.IntelHexFile flash_size page_size).nvm_data.length = flash_size :=
    List.length_replicate _ _
  rw [hflash, hbuf] at hshape
  obtain ⟨hshape1, hsum1⟩ := replace_byte_shaped flash_size flash_size record j x y v hshape hj hv
  have hbad : check_sum (replace_byte record j x y) ≠ 0 := by
    intro h0
    rw [h0, hsum] at hsum1
    have h1 : v < 256 := hex2_lt hv
    have h2 : rec_byte record j < 256 := Nat.mod_lt _ (by norm_num)
    omega
  have hrej : ∀ self : IntelHexFile, self.nvm_flash_size = flash_size →
      self.nvm_data.length = flash_size →
      parse_record self (replace_byte record j x y)
        = .rejected "Failed to verify checksum" (store self (replace_byte record j x y)) := by
    intro self h1 h2
    rw [parse_record_of_shaped self _ (by rw [h1, h2]; exact hshape1), if_pos hbad]
  refine ⟨hrej, ?_⟩
  intro filename pre line post st0 s0 hread hpre hline
  rw [load_records_done_iff, hread] at hpre
  have hne1 : replace_byte record j x y ≠ [] := by
    intro h0
    have := hshape1.1
    rw [h0] at this
    cases this
  refine ⟨store (pre.foldl store (IntelHexFile.IntelHexFile flash_size page_size))
    (replace_byte record j x y), ?_⟩
  unfold load_file
  simp only []
  have hfresh : ({ IntelHexFile.IntelHexFile flash_size page_size with firmware_size := 0 }
      : IntelHexFile) = IntelHexFile.IntelHexFile flash_size page_size := rfl
  rw [hfresh, load_records_append _ _ _ _ hread hpre.1, load_records, hline]
  simp only []
  rw [if_neg hne1, hrej _ (by rw [foldl_store_flash_size]; rfl)
    (by rw [foldl_store_data_length, hbuf])]

/-- Witness for C6: in the record `:02000000AABB99`, the first data byte `AA`
replaced by `AB`, on a new image of 8 bytes in pages of 2. -/
theorem C6_changed_data_byte_rejected_witness :
    replace_byte ":02000000AABB99\r".toList 0 'A' 'B' = ":02000000ABBB99\r".toList ∧
    parse_record (IntelHexFile.IntelHexFile 8 2) ":02000000AABB99\r".toList
      = .accepted 0 (store (IntelHexFile.IntelHexFile 8 2) ":02000000AABB99\r".toList) ∧
    parse_record (IntelHexFile.IntelHexFile 8 2)
        (replace_byte ":02000000AABB99\r".toList 0 'A' 'B')
      = .rejected "Failed to verify checksum"
          (store (IntelHexFile.IntelHexFile 8 2)
            (replace_byte ":02000000AABB99\r".toList 0 'A' 'B')) ∧
    ∃ s, load_file (IntelHexFile.IntelHexFile 8 2) "firmware.hex"
        (some ([] ++ replace_byte ":02000000AABB99\r".toList 0 'A' 'B' ::
          [":00000001FF\r".toList]))
      = .failure "Failed to verify checksum" s :=
  ⟨by decide, by decide,
   (C6_changed_data_byte_rejected 8 2 ":02000000AABB99\r".toList 0
      (store (IntelHexFile.IntelHexFile 8 2) ":02000000AABB99\r".toList) (by decide) 0
      (by decide) 'A' 'B' 0xAB (by decide) (by decide)).1 _ rfl rfl,
   (C6_changed_data_byte_rejected 8 2 ":02000000AABB99\r".toList 0
      (store (IntelHexFile.IntelHexFile 8 2) ":02000000AABB99\r".toList) (by decide) 0
      (by decide) 'A' 'B' 0xAB (by decide) (by decide)).2 "firmware.hex" [] _
      [":00000001FF\r".toList] 0x7fffffff _ rfl rfl (by decide)⟩

/-- C7 (the code departs from the claim): the line `:81000000AA55` plus a
carriage return (14 characters) is accepted although its byte count field
is 0x81 = 129 and `(14 - 11) / 2 = 1`: the length test compares the 8-bit
`count = 2 * CC`, which is 2 here; one data byte is stored. -/
theorem C7_accepted_record_with_other_byte_count :
    parse_record (IntelHexFile.IntelHexFile 4096 64) ":81000000AA55\r".toList
      = .accepted 0 (store (IntelHexFile.IntelHexFile 4096 64) ":81000000AA55\r".toList) ∧
    rec_cc ":81000000AA55\r".toList = 0x81 ∧
    (":81000000AA55\r".toList.length - 11) / 2 = 1 ∧
    rec_bytes ":81000000AA55\r".toList = [0xAA] := by
  refine ⟨?_, by decide, by decide, by decide⟩
  rw [parse_record_accepted_iff]
  refine ⟨?_, by decide, rfl⟩
  show Acceptable 4096 (List.replicate 4096 0).length _
  rw [List.length_replicate]
  decide

/-! ### The start address -/

theorem rec_addr_lt (record : List Char) : rec_addr record < 65536 := by
  unfold rec_addr rec_high rec_low
  omega

theorem foldl_min_start_le (rs : List (List Char)) : ∀ (st : Nat),
    rs.foldl min_start st ≤ st ∧ ∀ r, r ∈ rs → rs.foldl min_start st ≤ rec_addr r := by
  induction rs with
  | nil => intro st; exact ⟨le_refl _, fun r hr => by cases hr⟩
  | cons r0 rs ih =>
    intro st
    rw [List.foldl_cons]
    obtain ⟨h1, h2⟩ := ih (min_start st r0)
    have h3 : min_start st r0 ≤ st ∧ min_start st r0 ≤ rec_addr r0 := by
      unfold min_start; split <;> omega
    refine ⟨by omega, ?_⟩
    intro r hr
    rcases List.mem_cons.mp hr with rfl | hmem
    · omega
    · exact h2 r hmem

theorem foldl_min_start_mem (rs : List (List Char)) : ∀ (st : Nat),
    rs.foldl min_start st = st ∨ ∃ r, r ∈ rs ∧ rec_addr r = rs.foldl min_start st := by
  induction rs with
  | nil => intro st; exact Or.inl rfl
  | cons r0 rs ih =>
    intro st
    rw [List.foldl_cons]
    rcases ih (min_start st r0) with h | ⟨r, hr, h⟩
    · rw [h]
      unfold min_start
      split
      · exact Or.inr ⟨r0, List.mem_cons_self _ _, rfl⟩
      · exact Or.inl rfl
    · exact Or.inr ⟨r, List.mem_cons_of_mem _ hr, h⟩

/-- C8: when `load_file` returns for a file of which it read at least one
record, the value it returns is the offset field of one of the records read
and is at most the offset field of each of them (end-of-file records
included): it is the smallest offset, whatever the order of the records; if
some record has offset 0 it is 0. -/
theorem C8_returns_smallest_offset (self : IntelHexFile) (filename : String)
    (lines : List (List Char)) (start : Nat) (s : IntelHexFile)
    (hload : load_file self filename (some lines) = .returned start s)
    (hne : records lines ≠ []) :
    (∃ r, r ∈ records lines ∧ rec_addr r = start) ∧
    (∀ r, r ∈ records lines → start ≤ rec_addr r) ∧
    ((∃ r, r ∈ records lines ∧ rec_addr r = 0) → start = 0) := by
  rw [load_file_returned_iff] at hload
  obtain ⟨s1, hrec, -, -, -⟩ := hload
  rw [load_records_done_iff] at hrec
  obtain ⟨-, -, rfl⟩ := hrec
  obtain ⟨hle, hmin⟩ := foldl_min_start_le (records lines) 0x7fffffff
  refine ⟨?_, hmin, ?_⟩
  · rcases foldl_min_start_mem (records lines) 0x7fffffff with h | h
    · exfalso
      obtain ⟨r, hr⟩ := List.exists_mem_of_ne_nil _ hne
      have h1 := hmin r hr
      have h2 := rec_addr_lt r
      omega
    · exact h
  · rintro ⟨r, hr, h0⟩
    have := hmin r hr
    omega

/-- Witness for C8: two records at offsets 4 and 2, in that order, on an
image of 8 bytes in pages of 2; the value returned is 2. -/
theorem C8_returns_smallest_offset_witness :
    load_file (IntelHexFile.IntelHexFile 8 2) "firmware.hex" (some unordered_hex)
      = .returned 2 (loaded_image 8 2 unordered_hex) ∧
    ((∃ r, r ∈ records unordered_hex ∧ rec_addr r = 2) ∧
    (∀ r, r ∈ records unordered_hex → 2 ≤ rec_addr r) ∧
    ((∃ r, r ∈ records unordered_hex ∧ rec_addr r = 0) → 2 = 0)) :=
  ⟨by decide,
   C8_returns_smallest_offset (IntelHexFile.IntelHexFile 8 2) "firmware.hex" unordered_hex 2
    (loaded_image 8 2 unordered_hex) (by decide) (by decide)⟩

/-! ### The order of the records -/

theorem bump_bump (m : Nat) : ∀ (n fs : Nat), bump n (bump m fs) = bump (m + n) fs := by
  induction m with
  | zero => intro n fs; rw [Nat.zero_add]; rfl
  | succ m ih =>
    intro n fs
    have e : m + 1 + n = (m + n) + 1 := by omega
    rw [e]
    simp only [bump]
    exact ih n _

theorem disjoint_symm {r1 r2 : List Char} (h : disjoint r1 r2) : disjoint r2 r1 := by
  unfold disjoint at h ⊢; omega

theorem write_bytes_comm (data : List Nat) (a1 a2 : Nat) (v1 v2 : List Nat)
    (h : v1.length = 0 ∨ v2.length = 0 ∨ a1 + v1.length ≤ a2 ∨ a2 + v2.length ≤ a1) :
    write_bytes (write_bytes data a1 v1) a2 v2 = write_bytes (write_bytes data a2 v2) a1 v1 := by
  apply List.ext_getElem?
  intro k
  simp only [write_bytes_getElem?, write_bytes_length]
  by_cases h1 : a1 ≤ k ∧ k < a1 + v1.length ∧ k < data.length
  · have h2 : ¬ (a2 ≤ k ∧ k < a2 + v2.length ∧ k < data.length) := by omega
    rw [if_neg h2, if_pos h1, if_pos h1]
  · by_cases h2 : a2 ≤ k ∧ k < a2 + v2.length ∧ k < data.length
    · rw [if_pos h2, if_neg h1, if_pos h2]
    · rw [if_neg h2, if_neg h1, if_neg h1, if_neg h2]

/-- Two records with different target offsets can be stored in either
order. -/
theorem store_comm (z : IntelHexFile) (x y : List Char) (h : disjoint x y) :
    store (store z x) y = store (store z y) x := by
  unfold disjoint at h
  simp only [store, bump_bump]
  rw [write_bytes_comm _ _ _ _ _ (by
    simp only [rec_bytes, bytes_from_length]; exact h), Nat.add_comm]

theorem min_start_comm (z : Nat) (x y : List Char) :
    min_start (min_start z x) y = min_start (min_start z y) x := by
  unfold min_start
  split_ifs <;> omega

/-- C9: when `load_file` returns for a file whose records have pairwise
different target offsets, it returns the same start address and the same
object (buffer, byte count, pages) for every file that holds the same
records in another order. -/
theorem C9_record_order_irrelevant (self : IntelHexFile) (filename1 filename2 : String)
    (lines1 lines2 : List (List Char)) (start : Nat) (s : IntelHexFile)
    (hperm : (records lines1).Perm (records lines2))
    (hdisj : (records lines1).Pairwise disjoint)
    (hload : load_file self filename1 (some lines1) = .returned start s) :
    load_file self filename2 (some lines2) = .returned start s := by
  rw [load_file_returned_iff] at hload ⊢
  obtain ⟨s1, hrec, h2, h3, h4⟩ := hload
  refine ⟨s1, ?_, h2, h3, h4⟩
  rw [load_records_done_iff] at hrec ⊢
  obtain ⟨hacc, hs, ha⟩ := hrec
  have hall := hdisj.forall (fun _ _ h => disjoint_symm h)
  refine ⟨fun r hr => hacc r (hperm.mem_iff.mpr hr), ?_, ?_⟩
  · rw [hs]
    apply hperm.foldl_eq'
    intro x hx y hy z
    by_cases hxy : x = y
    · rw [hxy]
    · exact store_comm z x y (hall hx hy hxy)
  · rw [ha]
    exact hperm.foldl_eq' (fun x _ y _ z => min_start_comm z x y) _

/-- Witness for C9: the records at offsets 4 and 2 in both orders, on a new
image of 8 bytes in pages of 2. -/
theorem C9_record_order_irrelevant_witness :
    load_file (IntelHexFile.IntelHexFile 8 2) "unordered.hex" (some unordered_hex)
      = .returned 2 (loaded_image 8 2 unordered_hex) ∧
    load_file (IntelHexFile.IntelHexFile 8 2) "ordered.hex" (some ordered_hex)
      = .returned 2 (loaded_image 8 2 unordered_hex) :=
  ⟨by decide,
   C9_record_order_irrelevant (IntelHexFile.IntelHexFile 8 2) "unordered.hex" "ordered.hex"
    unordered_hex ordered_hex 2 (loaded_image 8 2 unordered_hex)
    (by decide) (by decide) (by decide)⟩

/-! ### The pages -/

theorem chunks_flatten (page_size : Nat) (n : Nat) : ∀ (data : List Nat),
    data.length = n * page_size →
    ((List.range n).map (fun k => (data.drop (k * page_size)).take page_size)).flatten
      = data := by
  induction n with
  | zero =>
    intro data h
    rw [Nat.zero_mul] at h
    rw [List.length_eq_zero.mp h]
    rfl
  | succ n ih =>
    intro data h
    rw [List.range_succ_eq_map, List.map_cons, List.map_map, List.flatten_cons]
    have hfun : ((fun k => (data.drop (k * page_size)).take page_size) ∘ Nat.succ)
        = fun k => ((data.drop page_size).drop (k * page_size)).take page_size := by
      funext k
      simp only [Function.comp, List.drop_drop]
      congr 2
      rw [Nat.succ_mul]; omega
    rw [hfun, ih (data.drop page_size) (by rw [List.length_drop, h, Nat.succ_mul]; omega)]
    rw [Nat.zero_mul, List.drop_zero, List.take_append_drop]

theorem pages_of_flatten (page_size : Nat) (data : List Nat)
    (hd : data.length % page_size = 0) :
    ((pages_of page_size data).map (fun p => p.data)).flatten = data := by
  unfold pages_of
  rw [List.map_map]
  have hfun : ((fun p : ProgramPage => p.data) ∘ fun k => page_at page_size data (k * page_size))
      = fun k => (data.drop (k * page_size)).take page_size := by
    funext k; rfl
  rw [hfun]
  apply chunks_flatten
  have := Nat.div_add_mod data.length page_size
  rw [hd, Nat.add_zero, Nat.mul_comm] at this
  exact this.symm

theorem pages_of_page (page_size : Nat) (data : List Nat) (hd : data.length % page_size = 0)
    (i : Nat) (hi : i < (pages_of page_size data).length) :
    (pages_of page_size data)[i].address = i * page_size ∧
    (pages_of page_size data)[i].pageSize = page_size ∧
    (pages_of page_size data)[i].data.length = page_size := by
  have hi1 : i < data.length / page_size := by rwa [pages_of_length] at hi
  have hget : (pages_of page_size data)[i] = page_at page_size data (i * page_size) := by
    have h1 := pages_of_getElem? page_size data i hi1
    rw [List.getElem?_eq_getElem hi] at h1
    exact Option.some.inj h1
  rw [hget]
  refine ⟨rfl, rfl, ?_⟩
  simp only [page_at, List.length_take, List.length_drop]
  have hlen := Nat.div_add_mod data.length page_size
  rw [hd, Nat.add_zero] at hlen
  have hmul : (i + 1) * page_size ≤ data.length / page_size * page_size :=
    Nat.mul_le_mul_right _ hi1
  rw [Nat.mul_comm] at hlen
  rw [Nat.succ_mul] at hmul
  omega

theorem rounded_size_mod (firmware_size page_size : Nat) :
    rounded_size firmware_size page_size % page_size = 0 := by
  unfold rounded_size
  have hle : (firmware_size + page_size - 1) % 2 ^ 32 / page_size * page_size
      ≤ (firmware_size + page_size - 1) % 2 ^ 32 := Nat.div_mul_le_self _ _
  have hlt : (firmware_size + page_size - 1) % 2 ^ 32 < 2 ^ 32 := Nat.mod_lt _ (by norm_num)
  have e : (firmware_size + page_size - 1) % 2 ^ 32 / page_size * page_size % 2 ^ 32
      = (firmware_size + page_size - 1) % 2 ^ 32 / page_size * page_size :=
    Nat.mod_eq_of_lt (lt_of_le_of_lt hle hlt)
  rw [e]
  exact Nat.mul_mod_left _ _

/-- On a new image whose flash size is a multiple of the page size above 0,
`load_file` returns for every file whose records are all acceptable: the
page loop does not run over the end of the buffer. -/
theorem load_file_new_returns (flash_size page_size : Nat) (filename : String)
    (lines : List (List Char)) (hps : page_size ≠ 0) (hmul : flash_size % page_size = 0)
    (hacc : ∀ r, r ∈ records lines → Acceptable flash_size flash_size r) :
    load_file (IntelHexFile.IntelHexFile flash_size page_size) filename (some lines)
      = .returned ((records lines).foldl min_start 0x7fffffff)
          (loaded_image flash_size page_size lines) := by
  rw [load_file_new_iff]
  refine ⟨hps, hacc, ?_, rfl, rfl⟩
  rw [loaded_image_data]
  unfold aligned
  split
  · rw [resize_length]; exact rounded_size_mod _ _
  · rw [foldl_store_data_length]
    show (List.replicate flash_size 0).length % page_size = 0
    rw [List.length_replicate]; exact hmul

/-- C10: after `load_file` returned on a new image, page `i` has address
`i * page_size`, page size `page_size` and `page_size` data bytes, for every
index `i`, and the data of all pages in order make up the buffer
`get_flash_data` returns. (With a flash size that is a multiple of the page
size `load_file` does return for every accepted file: `load_file_new_returns`.) -/
theorem C10_pages_cover_buffer (flash_size page_size : Nat) (filename : String)
    (lines : List (List Char)) (start : Nat) (s : IntelHexFile)
    (hmul : flash_size % page_size = 0)
    (hload : load_file (IntelHexFile.IntelHexFile flash_size page_size) filename (some lines)
      = .returned start s) :
    (∀ i (hi : i < (get_page_data s).length),
      (get_page_data s)[i].address = i * page_size ∧
      (get_page_data s)[i].pageSize = page_size ∧
      (get_page_data s)[i].data.length = page_size) ∧
    ((get_page_data s).map (fun p => p.data)).flatten = get_flash_data s := by
  have _ := hmul
  rw [load_file_new_iff] at hload
  obtain ⟨-, -, hal, -, rfl⟩ := hload
  simp only [get_page_data, get_flash_data, loaded_image_pages]
  exact ⟨fun i hi => pages_of_page _ _ hal i hi, pages_of_flatten _ _ hal⟩

/-- Witness for C10: the two-byte firmware on an image of 8 bytes in pages
of 2. -/
theorem C10_pages_cover_buffer_witness :
    8 % 2 = 0 ∧
    load_file (IntelHexFile.IntelHexFile 8 2) "firmware.hex" (some two_byte_hex)
      = .returned 0 (loaded_image 8 2 two_byte_hex) ∧
    ((∀ i (hi : i < (get_page_data (loaded_image 8 2 two_byte_hex)).length),
      (get_page_data (loaded_image 8 2 two_byte_hex))[i].address = i * 2 ∧
      (get_page_data (loaded_image 8 2 two_byte_hex))[i].pageSize = 2 ∧
      (get_page_data (loaded_image 8 2 two_byte_hex))[i].data.length = 2) ∧
    ((get_page_data (loaded_image 8 2 two_byte_hex)).map (fun p => p.data)).flatten
      = get_flash_data (loaded_image 8 2 two_byte_hex)) :=
  ⟨by decide, by decide,
   C10_pages_cover_buffer 8 2 "firmware.hex" two_byte_hex 0 (loaded_image 8 2 two_byte_hex)
    (by decide) (by decide)⟩

/-! ### The byte count -/

theorem bump_eq (n : Nat) : ∀ fs : Nat,
    bump n fs = if n = 0 then fs else (fs + n) % 2 ^ 32 := by
  induction n with
  | zero => intro fs; rfl
  | succ n ih =>
    intro fs
    rw [bump, ih, if_neg (Nat.succ_ne_zero n)]
    by_cases hn : n = 0
    · rw [if_pos hn, hn]
    · rw [if_neg hn]; omega

theorem foldl_store_firmware_size (rs : List (List Char)) : ∀ self : IntelHexFile,
    (rs.foldl store self).firmware_size = bump (rs.map rec_count).sum self.firmware_size := by
  induction rs with
  | nil => intro self; rfl
  | cons r rs ih =>
    intro self
    rw [List.foldl_cons, ih, List.map_cons, List.sum_cons]
    simp only [store, bump_bump]

/-- C11: after `load_file` returned, `firmware_size` is the sum, over the
records read, of the number of data bytes each of them stored, every store
counted (also of an offset stored before), in the 32 bits of the counter:
the sum modulo 2^32, which is the sum itself below 2^32 bytes. -/
theorem C11_firmware_size_counts_every_write (self : IntelHexFile) (filename : String)
    (lines : List (List Char)) (start : Nat) (s : IntelHexFile)
    (hload : load_file self filename (some lines) = .returned start s) :
    s.firmware_size = ((records lines).map rec_count).sum % 2 ^ 32 ∧
    (((records lines).map rec_count).sum < 2 ^ 32 →
      s.firmware_size = ((records lines).map rec_count).sum) := by
  rw [load_file_returned_iff] at hload
  obtain ⟨s1, hrec, -, -, rfl⟩ := hload
  rw [load_records_done_iff] at hrec
  obtain ⟨-, rfl, -⟩ := hrec
  have h : ((records lines).foldl store { self with firmware_size := 0 }).firmware_size
      = ((records lines).map rec_count).sum % 2 ^ 32 := by
    rw [foldl_store_firmware_size, bump_eq]
    split
    · rename_i h0; rw [h0]; rfl
    · rw [Nat.zero_add]
  exact ⟨h, fun hlt => by rw [h, Nat.mod_eq_of_lt hlt]⟩

/-- Witness for C11: two records that both store the offsets 0 and 1, on a
new image of 8 bytes in pages of 2; the byte count is 4. -/
theorem C11_firmware_size_counts_every_write_witness :
    load_file (IntelHexFile.IntelHexFile 8 2) "firmware.hex" (some twice_hex)
      = .returned 0 (loaded_image 8 2 twice_hex) ∧
    ((records twice_hex).map rec_count).sum = 4 ∧
    ((loaded_image 8 2 twice_hex).firmware_size = ((records twice_hex).map rec_count).sum % 2 ^ 32 ∧
    (((records twice_hex).map rec_count).sum < 2 ^ 32 →
      (loaded_image 8 2 twice_hex).firmware_size = ((records twice_hex).map rec_count).sum)) :=
  ⟨by decide, by decide,
   C11_firmware_size_counts_every_write (IntelHexFile.IntelHexFile 8 2) "firmware.hex" twice_hex 0
    (loaded_image 8 2 twice_hex) (by decide)⟩

/-- C12 (the code departs from the claim): on a new image with flash size 4096
and page size 64, the file with one data byte is accepted with
`firmware_size = 1`, and `get_flash_data` returns 64 bytes: the byte and 63
bytes of padding. -/
theorem C12_flash_data_is_padded :
    (load_file (IntelHexFile.IntelHexFile 4096 64) "firmware.hex" (some one_byte_hex)).self?.map
        (fun s => (s.firmware_size, (get_flash_data s).length))
      = some (1, 64) := by
  have hfs : (loaded_image 4096 64 one_byte_hex).firmware_size = 1 := by decide
  have hlen : (loaded_image 4096 64 one_byte_hex).nvm_data.length = 64 := by
    rw [loaded_image_data, ← loaded_image_firmware_size, hfs]
    simp only [aligned]
    rw [if_pos (by decide), resize_length]
    decide
  have hload : load_file (IntelHexFile.IntelHexFile 4096 64) "firmware.hex" (some one_byte_hex)
      = .returned 0 (loaded_image 4096 64 one_byte_hex) := by
    rw [load_file_new_iff]
    refine ⟨by decide, by decide, ?_, by decide, rfl⟩
    rw [hlen]
  rw [hload]
  simp only [Loaded.self?, Option.map_some', get_flash_data, hfs, hlen]

/-! ### The record type -/

/-- A line whose four header fields can be read and whose type is neither 0
nor 1 is rejected with "Unsupported record type", the object untouched. -/
theorem parse_record_unsupported_type (self : IntelHexFile) (record : List Char)
    (hhead : record.head? = some ':')
    (hok : fieldOk record 1 = true ∧ fieldOk record 3 = true ∧ fieldOk record 5 = true)
    (htype : rec_type record ≠ 0 ∧ rec_type record ≠ 1) :
    parse_record self record = .rejected "Unsupported record type" self := by
  obtain ⟨o1, o3, o5⟩ := hok
  have o7 : fieldOk record 7 = true := by
    unfold fieldOk
    cases h : hexField record 7 with
    | ok x => rfl
    | error f =>
      exfalso
      apply htype.1
      simp only [rec_type, fieldVal, h]
  rw [fieldOk_iff] at o1 o3 o5 o7
  unfold parse_record
  rw [if_neg (not_not.mpr hhead), o1, o3, o5, o7]
  simp only []
  unfold rec_type at htype
  rw [if_pos htype]

/-- C13: a line of 9 characters or more that starts with a colon, holds a
value in its byte count and offset fields, and whose type field is neither
0 nor 1, is rejected by `parse_record` with "Unsupported record type",
whatever the values of its other fields; `load_file` throws
`ios_base::failure` with that message on every file that holds the line
behind lines that are all read and accepted. -/
theorem C13_unsupported_record_type_rejected (record : List Char)
    (hlen : 9 ≤ record.length) (hhead : record.head? = some ':')
    (hok : fieldOk record 1 = true ∧ fieldOk record 3 = true ∧ fieldOk record 5 = true)
    (htype : rec_type record ≠ 0 ∧ rec_type record ≠ 1) :
    (∀ self : IntelHexFile,
      parse_record self record = .rejected "Unsupported record type" self) ∧
    (∀ (self : IntelHexFile) (filename : String) (pre : List (List Char)) (line : List Char)
      (post : List (List Char)) (st0 : Nat) (s0 : IntelHexFile),
      records pre = pre →
      load_records pre { self with firmware_size := 0 } 0x7fffffff = .done st0 s0 →
      getline line = some record →
      load_file self filename (some (pre ++ line :: post))
        = .failure "Unsupported record type" s0) := by
  have hrej := fun self => parse_record_unsupported_type self record hhead hok htype
  refine ⟨hrej, ?_⟩
  intro self filename pre line post st0 s0 hread hpre hline
  have hne : record ≠ [] := by
    intro h0; rw [h0] at hlen; simp at hlen
  have hpre1 := hpre
  rw [load_records_done_iff, hread] at hpre1
  obtain ⟨hacc, hs0, -⟩ := hpre1
  unfold load_file
  simp only []
  rw [load_records_append _ _ _ _ hread hacc, load_records, hline]
  simp only []
  rw [if_neg hne, hrej, ← hs0]

/-- Witness for C13: the extended-address record `:020000040000FA` (type 04)
plus a carriage return, alone and as first line of a file. -/
theorem C13_unsupported_record_type_rejected_witness :
    parse_record (IntelHexFile.IntelHexFile 8 2) ":020000040000FA\r".toList
      = .rejected "Unsupported record type" (IntelHexFile.IntelHexFile 8 2) ∧
    load_file (IntelHexFile.IntelHexFile 8 2) "firmware.hex"
        (some ([] ++ ":020000040000FA\r".toList :: two_byte_hex))
      = .failure "Unsupported record type" (IntelHexFile.IntelHexFile 8 2) :=
  ⟨(C13_unsupported_record_type_rejected ":020000040000FA\r".toList (by decide) (by decide)
      (by decide) (by decide)).1 _,
   (C13_unsupported_record_type_rejected ":020000040000FA\r".toList (by decide) (by decide)
      (by decide) (by decide)).2 (IntelHexFile.IntelHexFile 8 2) "firmware.hex" []
      ":020000040000FA\r".toList two_byte_hex 0x7fffffff (IntelHexFile.IntelHexFile 8 2)
      rfl rfl (by decide)⟩

/-! ### Device profiles -/

/-- C14 (source at variance): for a name that is in none of the family
tables the constructor of `AvrDevice` does not fail: it yields a profile,
the one with the default register bases and lock address 0, whose flash
base, flash size and page size were never assigned. -/
theorem C14_unknown_name_yields_default_profile (device_name : String)
    (h : device_name ∉ family_tables.flatten) :
    AvrDevice.AvrDevice device_name =
      { name := device_name
        syscfg_base_addr := 0x0F00
        nvmctrl_base_addr := 0x1000
        sigrow_base_addr := 0x1100
        fuses_base_addr := 0x1280
        userrow_base_addr := 0x1300
        lock_address := 0
        flash_start_addr := none
        flash_size := none
        flash_page_size := none } := by
  simp only [family_tables, List.flatten, List.mem_append, not_or, List.append_nil] at h
  unfold AvrDevice.AvrDevice
  simp only [h, if_false]
  rfl

/-- Witness for C14: the name `tiny41`, the beginning of `tiny412` and in no
table. -/
theorem C14_unknown_name_yields_default_profile_witness :
    "tiny41" ∉ family_tables.flatten ∧
    AvrDevice.AvrDevice "tiny41" =
      { name := "tiny41"
        syscfg_base_addr := 0x0F00
        nvmctrl_base_addr := 0x1000
        sigrow_base_addr := 0x1100
        fuses_base_addr := 0x1280
        userrow_base_addr := 0x1300
        lock_address := 0
        flash_start_addr := none
        flash_size := none
        flash_page_size := none } :=
  ⟨by decide, C14_unknown_name_yields_default_profile "tiny41" (by decide)⟩

/-- C15: for every name in `avr_d_series` the profile has flash base
0x800000, page size 256, fuses base 0x1050, user row base 0x1080, lock
address 0x1040 and as flash size 1024 times the first decimal number in the
name. -/
theorem C15_dx_series_profile (device_name : String) (h : device_name ∈ avr_d_series) :
    (AvrDevice.AvrDevice device_name).flash_start_addr = some 0x800000 ∧
    (AvrDevice.AvrDevice device_name).flash_page_size = some 256 ∧
    (AvrDevice.AvrDevice device_name).fuses_base_addr = 0x1050 ∧
    (AvrDevice.AvrDevice device_name).userrow_base_addr = 0x1080 ∧
    (AvrDevice.AvrDevice device_name).lock_address = 0x1040 ∧
    (AvrDevice.AvrDevice device_name).flash_size
      = some (1024 * first_decimal_number device_name) :=
  (by decide : ∀ n, n ∈ avr_d_series →
    (AvrDevice.AvrDevice n).flash_start_addr = some 0x800000 ∧
    (AvrDevice.AvrDevice n).flash_page_size = some 256 ∧
    (AvrDevice.AvrDevice n).fuses_base_addr = 0x1050 ∧
    (AvrDevice.AvrDevice n).userrow_base_addr = 0x1080 ∧
    (AvrDevice.AvrDevice n).lock_address = 0x1040 ∧
    (AvrDevice.AvrDevice n).flash_size = some (1024 * first_decimal_number n))
    device_name h

/-- Witness for C15: `avr128db32`, whose first decimal number is 128 and
whose flash size is 131072. -/
theorem C15_dx_series_profile_witness :
    "avr128db32" ∈ avr_d_series ∧ first_decimal_number "avr128db32" = 128 ∧
    (AvrDevice.AvrDevice "avr128db32").flash_size = some 131072 ∧
    ((AvrDevice.AvrDevice "avr128db32").flash_start_addr = some 0x800000 ∧
    (AvrDevice.AvrDevice "avr128db32").flash_page_size = some 256 ∧
    (AvrDevice.AvrDevice "avr128db32").fuses_base_addr = 0x1050 ∧
    (AvrDevice.AvrDevice "avr128db32").userrow_base_addr = 0x1080 ∧
    (AvrDevice.AvrDevice "avr128db32").lock_address = 0x1040 ∧
    (AvrDevice.AvrDevice "avr128db32").flash_size
      = some (1024 * first_decimal_number "avr128db32")) :=
  ⟨by decide, by decide, by decide, C15_dx_series_profile "avr128db32" (by decide)⟩

/-- C16: for every name in a tiny table the profile has flash base 0x8000,
the default register bases, lock address 0, and the flash size and the page
size of that table (32, 16, 8, 4 or 2 KiB). -/
theorem C16_tiny_series_profile (table : List String) (size page : Nat)
    (device_name : String) (htable : (table, size, page) ∈ tiny_tables)
    (h : device_name ∈ table) :
    (AvrDevice.AvrDevice device_name).flash_start_addr = some 0x8000 ∧
    (AvrDevice.AvrDevice device_name).syscfg_base_addr = 0x0F00 ∧
    (AvrDevice.AvrDevice device_name).nvmctrl_base_addr = 0x1000 ∧
    (AvrDevice.AvrDevice device_name).sigrow_base_addr = 0x1100 ∧
    (AvrDevice.AvrDevice device_name).fuses_base_addr = 0x1280 ∧
    (AvrDevice.AvrDevice device_name).userrow_base_addr = 0x1300 ∧
    (AvrDevice.AvrDevice device_name).lock_address = 0 ∧
    (AvrDevice.AvrDevice device_name).flash_size = some size ∧
    (AvrDevice.AvrDevice device_name).flash_page_size = some page :=
  (by decide : ∀ t, t ∈ tiny_tables → ∀ n, n ∈ t.1 →
    (AvrDevice.AvrDevice n).flash_start_addr = some 0x8000 ∧
    (AvrDevice.AvrDevice n).syscfg_base_addr = 0x0F00 ∧
    (AvrDevice.AvrDevice n).nvmctrl_base_addr = 0x1000 ∧
    (AvrDevice.AvrDevice n).sigrow_base_addr = 0x1100 ∧
    (AvrDevice.AvrDevice n).fuses_base_addr = 0x1280 ∧
    (AvrDevice.AvrDevice n).userrow_base_addr = 0x1300 ∧
    (AvrDevice.AvrDevice n).lock_address = 0 ∧
    (AvrDevice.AvrDevice n).flash_size = some t.2.1 ∧
    (AvrDevice.AvrDevice n).flash_page_size = some t.2.2)
    (table, size, page) htable device_name h

/-- Witness for C16: `tiny416` in the 4 KiB table: flash size 4096, page
size 64. -/
theorem C16_tiny_series_profile_witness :
    (tiny_4k, 4096, 64) ∈ tiny_tables ∧ "tiny416" ∈ tiny_4k ∧
    ((AvrDevice.AvrDevice "tiny416").flash_start_addr = some 0x8000 ∧
    (AvrDevice.AvrDevice "tiny416").syscfg_base_addr = 0x0F00 ∧
    (AvrDevice.AvrDevice "tiny416").nvmctrl_base_addr = 0x1000 ∧
    (AvrDevice.AvrDevice "tiny416").sigrow_base_addr = 0x1100 ∧
    (AvrDevice.AvrDevice "tiny416").fuses_base_addr = 0x1280 ∧
    (AvrDevice.AvrDevice "tiny416").userrow_base_addr = 0x1300 ∧
    (AvrDevice.AvrDevice "tiny416").lock_address = 0 ∧
    (AvrDevice.AvrDevice "tiny416").flash_size = some 4096 ∧
    (AvrDevice.AvrDevice "tiny416").flash_page_size = some 64) :=
  ⟨by decide, by decide,
   C16_tiny_series_profile tiny_4k 4096 64 "tiny416" (by decide) (by decide)⟩

/-- C17: for every name in a family table the profile has a page size of
64, 128 or 256 and a flash size that is a multiple of it, and the name is in
exactly one of the ten tables. -/
theorem C17_profile_invariant (device_name : String)
    (h : device_name ∈ family_tables.flatten) :
    (∃ page size, (AvrDevice.AvrDevice device_name).flash_page_size = some page ∧
      (AvrDevice.AvrDevice device_name).flash_size = some size ∧
      (page = 64 ∨ page = 128 ∨ page = 256) ∧ size % page = 0) ∧
    (family_tables.filter (fun table => decide (device_name ∈ table))).length = 1 := by
  have key := (by decide : ∀ n, n ∈ family_tables.flatten →
    ((AvrDevice.AvrDevice n).flash_page_size ∈ [some 64, some 128, some 256] ∧
     ((AvrDevice.AvrDevice n).flash_size.bind fun size =>
        (AvrDevice.AvrDevice n).flash_page_size.map fun page => size % page) = some 0) ∧
    (family_tables.filter (fun table => decide (n ∈ table))).length = 1) device_name h
  obtain ⟨⟨hpage, hmod⟩, hone⟩ := key
  refine ⟨?_, hone⟩
  cases hp : (AvrDevice.AvrDevice device_name).flash_page_size with
  | none => rw [hp] at hpage; simp at hpage
  | some page =>
    cases hs : (AvrDevice.AvrDevice device_name).flash_size with
    | none => rw [hs] at hmod; simp at hmod
    | some size =>
      rw [hp] at hpage
      rw [hs, hp] at hmod
      simp at hpage hmod
      exact ⟨page, size, rfl, rfl, hpage, hmod⟩

/-- Witness for C17: `mega4809`, in the table `avr_mega_48k` alone. -/
theorem C17_profile_invariant_witness :
    "mega4809" ∈ family_tables.flatten ∧
    ((∃ page size, (AvrDevice.AvrDevice "mega4809").flash_page_size = some page ∧
      (AvrDevice.AvrDevice "mega4809").flash_size = some size ∧
      (page = 64 ∨ page = 128 ∨ page = 256) ∧ size % page = 0) ∧
    (family_tables.filter (fun table => decide ("mega4809" ∈ table))).length = 1) :=
  ⟨by decide, C17_profile_invariant "mega4809" (by decide)⟩

/-! ### The UPDI session -/

theorem bind_ok {σ α β : Type} (m : Op σ α) (f : α → Op σ β) (self s1 : σ) (a : α)
    (h : m self = .ok a s1) : (m >>= f) self = f a s1 := by
  show Op.bind m f self = _
  unfold Op.bind
  rw [h]

theorem bind_hang {σ α β : Type} (m : Op σ α) (f : α → Op σ β) (self s1 : σ)
    (h : m self = .hang s1) : (m >>= f) self = .hang s1 := by
  show Op.bind m f self = _
  unfold Op.bind
  rw [h]

theorem read_written (n : Nat) (self : UpdiSerial) :
    (UpdiSerial.read n self).2.written = self.written := by
  unfold UpdiSerial.read
  split
  · rfl
  · split
    · rfl
    · rfl
    · split <;> rfl

theorem send_written (command : List Nat) (self : UpdiInstruction) :
    ∃ s, UpdiInstruction.serial (UpdiSerial.send command) self = .ok () s ∧
      frames_written s = frames_written self ++ [command] := by
  refine ⟨_, rfl, ?_⟩
  show (UpdiSerial.read _ _).2.written = _
  rw [read_written]
  rfl

theorem receive_loop_written (expected_size : Nat) (written : List (List Nat)) :
    ∀ (pending : List (Option (List Nat))) (data : List Nat),
      (∃ r s, UpdiSerial.receive_loop expected_size written data pending = .ok r s ∧
        s.written = written) ∨
      (∃ s, UpdiSerial.receive_loop expected_size written data pending = .hang s ∧
        s.written = written) := by
  intro pending
  induction pending with
  | nil =>
    intro data
    unfold UpdiSerial.receive_loop
    by_cases h : data.length < expected_size
    · right; exact ⟨_, if_pos h, rfl⟩
    · left; exact ⟨_, _, if_neg h, rfl⟩
  | cons event rest ih =>
    intro data
    unfold UpdiSerial.receive_loop
    by_cases h : data.length < expected_size
    · rw [if_pos h]
      cases event with
      | none => left; exact ⟨_, _, rfl, rfl⟩
      | some bytes =>
        by_cases hb : bytes.length ≤ expected_size - data.length
        · simp only [hb, if_true]
          exact ih _
        · simp only [hb, if_false]
          left; exact ⟨_, _, rfl, rfl⟩
    · left; exact ⟨_, _, if_neg h, rfl⟩

theorem receive_written (expected_size : Nat) (self : UpdiInstruction) :
    (∃ r s, UpdiInstruction.serial (UpdiSerial.receive expected_size) self = .ok r s ∧
      frames_written s = frames_written self) ∨
    (∃ s, UpdiInstruction.serial (UpdiSerial.receive expected_size) self = .hang s ∧
      frames_written s = frames_written self) := by
  rcases receive_loop_written expected_size self._serial_comm.written
    self._serial_comm.pending [] with ⟨r, c, h, hc⟩ | ⟨c, h, hc⟩
  · left
    refine ⟨r, { self with _serial_comm := c }, ?_, hc⟩
    unfold UpdiInstruction.serial UpdiSerial.receive
    rw [h]
  · right
    refine ⟨{ self with _serial_comm := c }, ?_, hc⟩
    unfold UpdiInstruction.serial UpdiSerial.receive
    rw [h]


theorem st_ptr_inc_rest_written : ∀ (rest : List Nat) (self : UpdiInstruction),
    ∃ k, k ≤ rest.length ∧
      (UpdiInstruction.st_ptr_inc_rest rest self).self?.map frames_written
        = some (frames_written self ++ (rest.take k).map fun byte => [byte]) ∧
      (UpdiInstruction.st_ptr_inc_rest rest self).returned?.map frames_written
        = (UpdiInstruction.st_ptr_inc_rest rest self).returned?.map
            fun _ => frames_written self ++ rest.map fun byte => [byte] := by
  intro rest
  induction rest with
  | nil =>
    intro self
    refine ⟨0, le_refl _, ?_, ?_⟩
    · show some (frames_written self) = some (frames_written self ++ [])
      rw [List.append_nil]
    · show some (frames_written self) = some (frames_written self ++ [])
      rw [List.append_nil]
  | cons byte rest ih =>
    intro self
    obtain ⟨s1, h1, w1⟩ := send_written [byte] self
    rw [UpdiInstruction.st_ptr_inc_rest, bind_ok _ _ _ _ _ h1]
    rcases receive_written 1 s1 with ⟨r, s2, h2, w2⟩ | ⟨s2, h2, w2⟩
    · rw [bind_ok _ _ _ _ _ h2]
      by_cases hack : no_ack r = true
      · simp only [hack, if_true]
        refine ⟨1, by simp, ?_, rfl⟩
        show some (frames_written s2) = _
        rw [w2, w1]
        simp
      · simp only [hack]
        obtain ⟨k, hk, hself, hret⟩ := ih s2
        refine ⟨k + 1, by simp [hk], ?_, ?_⟩
        · show Option.map frames_written (UpdiInstruction.st_ptr_inc_rest rest s2).self? = _
          rw [hself, w2, w1]
          simp
        · show Option.map frames_written (UpdiInstruction.st_ptr_inc_rest rest s2).returned? = _
          rw [hret, w2, w1]
          simp
    · rw [bind_hang _ _ _ _ h2]
      refine ⟨1, by simp, ?_, rfl⟩
      show some (frames_written s2) = _
      rw [w2, w1]
      simp

/-- C18 (source at variance): on a tiny416 that reports programming mode at
every read of ASI_SYS_STATUS, `enter_progmode` returns and sends no KEY
instruction, but it writes the reset request 0x59 to ASI_RESET_REQ and then
its release 0x00: of the seven frames it transmits, the second and the
fourth are those two writes. -/
theorem C18_enter_progmode_resets_programmed_target :
    (UpdiApplication.enter_progmode still_clock
        (tiny416_application programmed_target)).returned?.map
      (fun application => frames_written application._updi_instruction)
    = some [[0x55, 0x8B], [0x55, 0xC8, 0x59], [0x55, 0x8B], [0x55, 0xC8, 0x00],
            [0x55, 0x8B], [0x55, 0x87], [0x55, 0x8B]] := by
  decide

/-- C19: while `_programming` is false, each of `chip_erase`, `write_flash`,
`read_flash`, `read_fuse` and `write_fuse` throws "Enter progmode first" and
leaves the programmer as it was, the serial line and the flag included; the
flag is false after construction, and it is false whenever `leave_progmode`
returns. -/
theorem C19_operations_need_progmode (clock : Nat → Nat) (self : NvmProgrammer)
    (h : self._programming = false) (address size fuse_num value : Nat)
    (pages : List ProgramPage) (instruction : UpdiInstruction) (device_name : String)
    (other : NvmProgrammer) :
    NvmProgrammer.chip_erase clock self = .thrown "Enter progmode first" self ∧
    NvmProgrammer.write_flash clock address pages self = .thrown "Enter progmode first" self ∧
    NvmProgrammer.read_flash address size self = .thrown "Enter progmode first" self ∧
    NvmProgrammer.read_fuse fuse_num self = .thrown "Enter progmode first" self ∧
    NvmProgrammer.write_fuse fuse_num value self = .thrown "Enter progmode first" self ∧
    (NvmProgrammer.NvmProgrammer instruction device_name)._programming = false ∧
    (NvmProgrammer.leave_progmode clock other).returned?.map (fun p => p._programming)
      = (NvmProgrammer.leave_progmode clock other).returned?.map (fun _ => false) := by
  refine ⟨?_, ?_, ?_, ?_, ?_, rfl, ?_⟩
  · unfold NvmProgrammer.chip_erase; simp [h]
  · unfold NvmProgrammer.write_flash; simp [h]
  · unfold NvmProgrammer.read_flash; simp [h]
  · unfold NvmProgrammer.read_fuse; simp [h]
  · unfold NvmProgrammer.write_fuse; simp [h]
  · have unfolded : NvmProgrammer.leave_progmode clock other =
        Op.bind (NvmProgrammer.application (UpdiApplication.leave_progmode clock))
          (fun _ => NvmProgrammer.set_programming false) other := rfl
    rw [unfolded]
    unfold Op.bind
    cases NvmProgrammer.application (UpdiApplication.leave_progmode clock) other <;> rfl

/-- Witness for C19: the programmer for a tiny416 right after construction,
on which nothing is written to the line by any of the five operations. -/
theorem C19_operations_need_progmode_witness :
    fresh_programmer._programming = false ∧
    (NvmProgrammer.chip_erase still_clock fresh_programmer
        = .thrown "Enter progmode first" fresh_programmer ∧
    NvmProgrammer.write_flash still_clock 0 [] fresh_programmer
        = .thrown "Enter progmode first" fresh_programmer ∧
    NvmProgrammer.read_flash 0 64 fresh_programmer
        = .thrown "Enter progmode first" fresh_programmer ∧
    NvmProgrammer.read_fuse 1 fresh_programmer
        = .thrown "Enter progmode first" fresh_programmer ∧
    NvmProgrammer.write_fuse 1 0 fresh_programmer
        = .thrown "Enter progmode first" fresh_programmer ∧
    (NvmProgrammer.NvmProgrammer acknowledging_line "tiny416")._programming = false ∧
    (NvmProgrammer.leave_progmode still_clock fresh_programmer).returned?.map
        (fun p => p._programming)
      = (NvmProgrammer.leave_progmode still_clock fresh_programmer).returned?.map
        (fun _ => false)) :=
  ⟨rfl, C19_operations_need_progmode still_clock fresh_programmer rfl 0 64 1 0 []
    acknowledging_line "tiny416" fresh_programmer⟩

/-- C20 (source at variance): for every non-empty `data`, `st_ptr_inc` first
hands the whole of `data` to the line, with no SYNC and no opcode before it,
and then each byte after the first alone: when it returns, the frames it
has written are `data` followed by one frame for each of `data[1]`,
`data[2]`, ..., so every byte after the first is transmitted twice. With
the two bytes 0x11, 0x22 on a line that acknowledges, it returns after
writing the frames 0x11 0x22 and 0x22. -/
theorem C20_st_ptr_inc_sends_data_unframed (first : Nat) (rest : List Nat)
    (self : UpdiInstruction) :
    (∃ k, k ≤ rest.length ∧
      (UpdiInstruction.st_ptr_inc (first :: rest) self).self?.map frames_written
        = some (frames_written self ++
            (first :: rest) :: (rest.take k).map fun byte => [byte])) ∧
    (UpdiInstruction.st_ptr_inc (first :: rest) self).returned?.map frames_written
      = (UpdiInstruction.st_ptr_inc (first :: rest) self).returned?.map
          (fun _ => frames_written self ++ (first :: rest) :: rest.map fun byte => [byte]) ∧
    UpdiInstruction.st_ptr_inc [0x11, 0x22] acknowledging_line
      = .ok () { _serial_comm := { written := [[0x11, 0x22], [0x22]], pending := [] }
                 _use_24bit_addr := false } := by
  refine ⟨?_, ?_, by decide⟩
  all_goals
    obtain ⟨s1, h1, w1⟩ := send_written (first :: rest) self
    have unfolded : UpdiInstruction.st_ptr_inc (first :: rest) self =
        (UpdiInstruction.serial (UpdiSerial.receive 1) >>=
          fun response => if no_ack response then raise "Ack error with st_ptr_inc"
            else UpdiInstruction.st_ptr_inc_rest rest) s1 := by
      rw [UpdiInstruction.st_ptr_inc]
      exact bind_ok _ _ _ _ _ h1
    rw [unfolded]
    rcases receive_written 1 s1 with ⟨r, s2, h2, w2⟩ | ⟨s2, h2, w2⟩
  · rw [bind_ok _ _ _ _ _ h2]
    by_cases hack : no_ack r = true
    · simp only [hack, if_true]
      refine ⟨0, by simp, ?_⟩
      show some (frames_written s2) = _
      rw [w2, w1]
      simp
    · simp only [hack]
      obtain ⟨k, hk, hself, _⟩ := st_ptr_inc_rest_written rest s2
      refine ⟨k, hk, ?_⟩
      show Option.map frames_written (UpdiInstruction.st_ptr_inc_rest rest s2).self? = _
      rw [hself, w2, w1]
      simp
  · rw [bind_hang _ _ _ _ h2]
    refine ⟨0, by simp, ?_⟩
    show some (frames_written s2) = _
    rw [w2, w1]
    simp
  · rw [bind_ok _ _ _ _ _ h2]
    by_cases hack : no_ack r = true
    · simp only [hack, if_true]
      rfl
    · simp only [hack]
      obtain ⟨k, hk, _, hret⟩ := st_ptr_inc_rest_written rest s2
      show Option.map frames_written (UpdiInstruction.st_ptr_inc_rest rest s2).returned? = _
      rw [hret, w2, w1]
      simp
  · rw [bind_hang _ _ _ _ h2]
    rfl

/-! ### Frames of the instruction set -/

theorem read_pending (n : Nat) (written written2 : List (List Nat))
    (pending : List (Option (List Nat))) :
    (UpdiSerial.read n { written := written, pending := pending }).2.pending
      = (UpdiSerial.read n { written := written2, pending := pending }).2.pending := by
  unfold UpdiSerial.read
  split
  · rfl
  · cases pending with
    | nil => rfl
    | cons event rest =>
      cases event with
      | none => rfl
      | some bytes =>
        simp only []
        split <;> rfl

theorem send_state (command : List Nat) (self : UpdiInstruction) :
    ∃ s, UpdiInstruction.serial (UpdiSerial.send command) self = .ok () s ∧
      frames_written s = frames_written self ++ [command] ∧
      s._serial_comm.pending = after_read command.length self._serial_comm.pending ∧
      s._use_24bit_addr = self._use_24bit_addr := by
  refine ⟨_, rfl, ?_, ?_, rfl⟩
  · show (UpdiSerial.read _ _).2.written = _
    rw [read_written]
    rfl
  · exact read_pending _ _ _ _

theorem st_ptr_inc16_written (data : List Nat) (self : UpdiInstruction) :
    ∃ s, UpdiInstruction.st_ptr_inc16 data self = .ok () s ∧
      frames_written s = frames_written self ++
        [[0x55, 0xC2, 0x88], [0x55, 0x65], data, [0x55, 0xC2, 0x80]] ∧
      s._serial_comm.pending =
        after_read 3 (after_read data.length (after_read 2
          (after_read 3 self._serial_comm.pending))) ∧
      s._use_24bit_addr = self._use_24bit_addr := by
  obtain ⟨s1, h1, w1, p1, u1⟩ := send_state [0x55, 0xC2, 0x88] self
  obtain ⟨s2, h2, w2, p2, u2⟩ := send_state [0x55, 0x65] s1
  obtain ⟨s3, h3, w3, p3, u3⟩ := send_state data s2
  obtain ⟨s4, h4, w4, p4, u4⟩ := send_state [0x55, 0xC2, 0x80] s3
  refine ⟨s4, ?_, ?_, ?_, ?_⟩
  · have unfolded : UpdiInstruction.st_ptr_inc16 data self =
        (UpdiInstruction.serial (UpdiSerial.send [0x55, 0xC2, 0x88]) >>= fun _ =>
          UpdiInstruction.serial (UpdiSerial.send [0x55, 0x65]) >>= fun _ =>
          UpdiInstruction.serial (UpdiSerial.send data) >>= fun _ =>
          UpdiInstruction.serial (UpdiSerial.send [0x55, 0xC2, 0x80])) self := rfl
    rw [unfolded, bind_ok _ _ _ _ _ h1, bind_ok _ _ _ _ _ h2, bind_ok _ _ _ _ _ h3]
    exact h4
  · rw [w4, w3, w2, w1]
    simp
  · rw [p4, p3, p2, p1]
    rfl
  · rw [u4, u3, u2, u1]

/-- C21: for every `data`, `st_ptr_inc16` returns after writing four frames
to the line: STCS to CS.CTRLA (register 2) with 0x88, SYNC and the opcode
0x65, `data` as a whole, and STCS to CS.CTRLA with 0x80, whose RSD bit
(bit 3) is clear. The only reads it makes are the four for the echoes of
these frames, of 3, 2, `data.size()` and 3 bytes: it waits for no ACK. -/
theorem C21_st_ptr_inc16_frames (data : List Nat) (self : UpdiInstruction) :
    (∃ s, UpdiInstruction.st_ptr_inc16 data self = .ok () s ∧
      frames_written s = frames_written self ++
        [[0x55, 0xC2, 0x88], [0x55, 0x65], data, [0x55, 0xC2, 0x80]] ∧
      s._serial_comm.pending =
        after_read 3 (after_read data.length (after_read 2
          (after_read 3 self._serial_comm.pending))) ∧
      s._use_24bit_addr = self._use_24bit_addr) ∧
    0x88 = (1 <<< 7) ||| (1 <<< 3) ∧ 0x80 = 1 <<< 7 ∧ 0x80 &&& (1 <<< 3) = 0 :=
  ⟨st_ptr_inc16_written data self, by decide, by decide, by decide⟩

theorem key_written (characters : List Nat) (self : UpdiInstruction) :
    ∃ s, UpdiInstruction.key characters self = .ok () s ∧
      frames_written s = frames_written self ++ [[0x55, 0xE0], characters.reverse] := by
  obtain ⟨s1, h1, w1, -, -⟩ := send_state [0x55, 0xE0] self
  obtain ⟨s2, h2, w2, -, -⟩ := send_state characters.reverse s1
  refine ⟨s2, ?_, ?_⟩
  · have unfolded : UpdiInstruction.key characters self =
        (UpdiInstruction.serial (UpdiSerial.send [0x55, 0xE0]) >>= fun _ =>
          UpdiInstruction.serial (UpdiSerial.send characters.reverse)) self := rfl
    rw [unfolded, bind_ok _ _ _ _ _ h1]
    exact h2
  · rw [w2, w1]
    simp

/-- C22: for every key, `key` returns after writing two frames: SYNC and the
opcode 0xE0, then the characters of the key in reverse order; for
`UPDI_KEY_NVM`, "NVMProg ", the second frame is the characters of
" gorPMVN". -/
theorem C22_key_sent_reversed (characters : List Nat) (self : UpdiInstruction) :
    (∃ s, UpdiInstruction.key characters self = .ok () s ∧
      frames_written s = frames_written self ++ [[0x55, 0xE0], characters.reverse]) ∧
    (∃ s, UpdiInstruction.key UPDI_KEY_NVM self = .ok () s ∧
      frames_written s = frames_written self ++
        [[0x55, 0xE0], " gorPMVN".toList.map Char.toNat]) :=
  ⟨key_written characters self, key_written UPDI_KEY_NVM self⟩

theorem repeat_written (repeats : Nat) (self : UpdiInstruction)
    (hlow : 1 ≤ repeats) (hhigh : repeats ≤ 256) :
    ∃ s, UpdiInstruction.repeat repeats self = .ok () s ∧
      frames_written s = frames_written self ++ [[0x55, 0xA0, repeats - 1]] := by
  have hwrap : (repeats + 2 ^ 32 - 1) % 2 ^ 32 = repeats - 1 := by omega
  have hmask : (repeats - 1) &&& 0xFF = repeats - 1 := by
    have h := Nat.and_pow_two_sub_one_eq_mod (repeats - 1) 8
    have e : (2 : Nat) ^ 8 - 1 = 0xFF := by decide
    rw [e] at h
    rw [h]
    omega
  obtain ⟨s1, h1, w1, -, -⟩ := send_state [0x55, 0xA0, repeats - 1] self
  refine ⟨s1, ?_, w1⟩
  unfold UpdiInstruction.repeat
  rw [hwrap, hmask]
  exact h1

/-- C25: for every count from 1 to 256, `repeat` returns after writing the
one frame SYNC, 0xA0, count - 1. -/
theorem C25_repeat_frame (repeats : Nat) (self : UpdiInstruction)
    (hlow : 1 ≤ repeats) (hhigh : repeats ≤ 256) :
    ∃ s, UpdiInstruction.repeat repeats self = .ok () s ∧
      frames_written s = frames_written self ++ [[0x55, 0xA0, repeats - 1]] :=
  repeat_written repeats self hlow hhigh

/-- Witness for C25: the count 256, sent as 0xFF. -/
theorem C25_repeat_frame_witness :
    ∃ s, UpdiInstruction.repeat 256 acknowledging_line = .ok () s ∧
      frames_written s = frames_written acknowledging_line ++ [[0x55, 0xA0, 0xFF]] :=
  C25_repeat_frame 256 acknowledging_line (by decide) (by decide)

/-! ### The session on a PDI v2 target -/

/-- C29: when `_pdi_v2` is set, `chip_erase`, `write_nvm_page` and
`write_fuse_data` each throw "PDI V2 is not supported now" and leave the
session as it was: nothing is written to the line and nothing read. -/
theorem C29_pdi_v2_unsupported (clock : Nat → Nat) (self : UpdiApplication)
    (h : self._pdi_v2 = true) (start_addr : Nat) (page_data : List Nat)
    (fuse_number value : Nat) :
    UpdiApplication.chip_erase clock self = .thrown "PDI V2 is not supported now" self ∧
    UpdiApplication.write_nvm_page clock start_addr page_data self
      = .thrown "PDI V2 is not supported now" self ∧
    UpdiApplication.write_fuse_data fuse_number value self
      = .thrown "PDI V2 is not supported now" self := by
  refine ⟨?_, ?_, ?_⟩
  · unfold UpdiApplication.chip_erase; rw [if_pos h]
  · unfold UpdiApplication.write_nvm_page; rw [if_pos h]
  · unfold UpdiApplication.write_fuse_data; rw [if_pos h]

/-- Witness for C29: a session on an avr128db32 that announced "P:2". -/
theorem C29_pdi_v2_unsupported_witness :
    pdi_v2_application._pdi_v2 = true ∧
    (UpdiApplication.chip_erase still_clock pdi_v2_application
      = .thrown "PDI V2 is not supported now" pdi_v2_application ∧
    UpdiApplication.write_nvm_page still_clock 0x800000 [0xFF, 0xFF] pdi_v2_application
      = .thrown "PDI V2 is not supported now" pdi_v2_application ∧
    UpdiApplication.write_fuse_data 1 0 pdi_v2_application
      = .thrown "PDI V2 is not supported now" pdi_v2_application) :=
  ⟨rfl, C29_pdi_v2_unsupported still_clock pdi_v2_application rfl 0x800000 [0xFF, 0xFF] 1 0⟩

/-! ### The two phases of a direct store -/

theorem no_ack_iff (response : List Nat) : no_ack response = true ↔ response ≠ [0x40] := by
  unfold no_ack
  simp

theorem round_trip_written (command : List Nat) (self : UpdiInstruction) :
    (∃ r s, round_trip command self = .ok r s ∧
      frames_written s = frames_written self ++ [command]) ∨
    (∃ s, round_trip command self = .hang s ∧
      frames_written s = frames_written self ++ [command]) := by
  obtain ⟨s1, h1, w1⟩ := send_written command self
  unfold round_trip
  rw [bind_ok _ _ _ _ _ h1]
  rcases receive_written 1 s1 with ⟨r, s2, h2, w2⟩ | ⟨s2, h2, w2⟩
  · left; exact ⟨r, s2, h2, by rw [w2, w1]⟩
  · right; exact ⟨s2, h2, by rw [w2, w1]⟩

/-- Two frames, each followed by the wait for an ACK, as in `st` and
`st16`. -/
theorem two_phases (frame data : List Nat) (what : String) (self : UpdiInstruction) :
    ((∃ s, (round_trip frame >>= fun response =>
        if no_ack response then raise what
        else round_trip data >>= fun response =>
          if no_ack response then raise what else pure ()) self = .ok () s) ↔
      ∃ s2 s4, round_trip frame self = .ok [0x40] s2 ∧ round_trip data s2 = .ok [0x40] s4) ∧
    (∀ r1 s2, round_trip frame self = .ok r1 s2 → r1 ≠ [0x40] →
      (round_trip frame >>= fun response =>
        if no_ack response then raise what
        else round_trip data >>= fun response =>
          if no_ack response then raise what else pure ()) self = .thrown what s2 ∧
      frames_written s2 = frames_written self ++ [frame]) := by
  constructor
  · constructor
    · rintro ⟨s, hs⟩
      rcases round_trip_written frame self with ⟨r1, s2, h1, -⟩ | ⟨s2, h1, -⟩
      · rw [bind_ok _ _ _ _ _ h1] at hs
        by_cases a1 : no_ack r1 = true
        · rw [if_pos a1] at hs
          cases hs
        · rw [if_neg a1] at hs
          have e1 : r1 = [0x40] := by
            by_contra hne
            exact a1 ((no_ack_iff r1).mpr hne)
          rcases round_trip_written data s2 with ⟨r2, s4, h2, -⟩ | ⟨s4, h2, -⟩
          · rw [bind_ok _ _ _ _ _ h2] at hs
            by_cases a2 : no_ack r2 = true
            · rw [if_pos a2] at hs
              cases hs
            · have e2 : r2 = [0x40] := by
                by_contra hne
                exact a2 ((no_ack_iff r2).mpr hne)
              exact ⟨s2, s4, by rw [h1, e1], by rw [h2, e2]⟩
          · rw [bind_hang _ _ _ _ h2] at hs
            cases hs
      · rw [bind_hang _ _ _ _ h1] at hs
        cases hs
    · rintro ⟨s2, s4, h1, h2⟩
      refine ⟨s4, ?_⟩
      rw [bind_ok _ _ _ _ _ h1, if_neg (by decide), bind_ok _ _ _ _ _ h2, if_neg (by decide)]
      rfl
  · intro r1 s2 h1 hne
    refine ⟨?_, ?_⟩
    · rw [bind_ok _ _ _ _ _ h1, if_pos ((no_ack_iff r1).mpr hne)]
      rfl
    · rcases round_trip_written frame self with ⟨r, s, h, w⟩ | ⟨s, h, -⟩
      · rw [h1] at h
        cases h
        exact w
      · rw [h1] at h
        cases h

/-- C23: `st` and `st16` return if and only if the wait after the first
frame (SYNC, opcode, address) and the wait after the data each yield the one
byte ACK (0x40); when the wait after the first frame yields anything else
they throw ("Error with st", "Error with st16") with the first frame as the
only one written: the data are not sent. -/
theorem C23_store_needs_both_acks (self : UpdiInstruction) (address value : Nat) :
    ((∃ s, UpdiInstruction.st address value self = .ok () s) ↔
      ∃ s2 s4,
        round_trip (direct_frame 0x40 0x00 self._use_24bit_addr address) self
          = .ok [0x40] s2 ∧
        round_trip [value] s2 = .ok [0x40] s4) ∧
    (∀ r1 s2,
      round_trip (direct_frame 0x40 0x00 self._use_24bit_addr address) self = .ok r1 s2 →
      r1 ≠ [0x40] →
      UpdiInstruction.st address value self = .thrown "Error with st" s2 ∧
      frames_written s2 = frames_written self ++
        [direct_frame 0x40 0x00 self._use_24bit_addr address]) ∧
    ((∃ s, UpdiInstruction.st16 address value self = .ok () s) ↔
      ∃ s2 s4,
        round_trip (direct_frame 0x40 0x01 self._use_24bit_addr address) self
          = .ok [0x40] s2 ∧
        round_trip [value &&& 0xFF, (value >>> 8) &&& 0xFF] s2 = .ok [0x40] s4) ∧
    (∀ r1 s2,
      round_trip (direct_frame 0x40 0x01 self._use_24bit_addr address) self = .ok r1 s2 →
      r1 ≠ [0x40] →
      UpdiInstruction.st16 address value self = .thrown "Error with st16" s2 ∧
      frames_written s2 = frames_written self ++
        [direct_frame 0x40 0x01 self._use_24bit_addr address]) := by
  have hst : UpdiInstruction.st address value self =
      (round_trip (direct_frame 0x40 0x00 self._use_24bit_addr address) >>= fun response =>
        if no_ack response then raise "Error with st"
        else round_trip [value] >>= fun response =>
          if no_ack response then raise "Error with st" else pure ()) self := rfl
  have hst16 : UpdiInstruction.st16 address value self =
      (round_trip (direct_frame 0x40 0x01 self._use_24bit_addr address) >>= fun response =>
        if no_ack response then raise "Error with st16"
        else round_trip [value &&& 0xFF, (value >>> 8) &&& 0xFF] >>= fun response =>
          if no_ack response then raise "Error with st16" else pure ()) self := rfl
  rw [hst, hst16]
  exact ⟨(two_phases _ _ _ self).1, (two_phases _ _ _ self).2,
    (two_phases _ _ _ self).1, (two_phases _ _ _ self).2⟩

/-- Witness for C23: `st 0x1000 0x04` on a line that answers the first frame
with 0x00 throws after that one frame; on a line that acknowledges both
frames it returns. -/
theorem C23_store_needs_both_acks_witness :
    (UpdiInstruction.st 0x1000 0x04 unacknowledging_line
        = .thrown "Error with st"
            { _serial_comm := { written := [[0x55, 0x44, 0x00, 0x10]], pending := [] }
              _use_24bit_addr := false } ∧
      frames_written
          { _serial_comm := { written := [[0x55, 0x44, 0x00, 0x10]], pending := [] }
            _use_24bit_addr := false }
        = frames_written unacknowledging_line ++
          [direct_frame 0x40 0x00 unacknowledging_line._use_24bit_addr 0x1000]) ∧
    ∃ s, UpdiInstruction.st 0x1000 0x04 store_line = .ok () s :=
  ⟨(C23_store_needs_both_acks unacknowledging_line 0x1000 0x04).2.1 [0x00]
      { _serial_comm := { written := [[0x55, 0x44, 0x00, 0x10]], pending := [] }
        _use_24bit_addr := false } (by decide) (by decide),
   (C23_store_needs_both_acks store_line 0x1000 0x04).1.mpr
     ⟨{ _serial_comm :=
          { written := [[0x55, 0x44, 0x00, 0x10]], pending := [some [0x04], some [0x40]] }
        _use_24bit_addr := false },
      { _serial_comm := { written := [[0x55, 0x44, 0x00, 0x10], [0x04]], pending := [] }
        _use_24bit_addr := false }, by decide, by decide⟩⟩

/-! ### The first frame of the addressed instructions -/

theorem and_0xFF (x : Nat) : x &&& 0xFF = x % 256 := by
  have h := Nat.and_pow_two_sub_one_eq_mod x 8
  have e : (2 : Nat) ^ 8 - 1 = 0xFF := by decide
  rw [e] at h
  rw [h]

theorem address_bytes_eq (use_24bit_addr : Bool) (a : Nat) :
    address_bytes use_24bit_addr a =
      if use_24bit_addr then [a % 256, (a / 2 ^ 8) % 256, (a / 2 ^ 16) % 256]
      else [a % 256, (a / 2 ^ 8) % 256] := by
  unfold address_bytes
  simp only [and_0xFF, Nat.shiftRight_eq_div_pow]

theorem direct_frame_eq (opcode width : Nat) (use_24bit_addr : Bool) (a : Nat) :
    direct_frame opcode width use_24bit_addr a =
      claimed_first_frame (opcode ||| 0x04 ||| width) (opcode ||| 0x08 ||| width)
        use_24bit_addr a := by
  unfold direct_frame claimed_first_frame
  rw [address_bytes_eq, address_bytes_eq]
  cases use_24bit_addr <;> rfl

theorem first_frame_of {α : Type} (frame : List Nat) (k : List Nat → Op UpdiInstruction α)
    (hk : ∀ r s, ∃ more, ((k r s).self?.map frames_written) = some (frames_written s ++ more))
    (self : UpdiInstruction) :
    ∃ more, ((round_trip frame >>= k) self).self?.map frames_written
      = some (frames_written self ++ frame :: more) := by
  rcases round_trip_written frame self with ⟨r, s, h, w⟩ | ⟨s, h, w⟩
  · rw [bind_ok _ _ _ _ _ h]
    obtain ⟨more, hmore⟩ := hk r s
    refine ⟨more, ?_⟩
    rw [hmore, w]
    simp
  · rw [bind_hang _ _ _ _ h]
    refine ⟨[], ?_⟩
    show some (frames_written s) = _
    rw [w]

theorem ack_or_throw (what : String) (r : List Nat) (s : UpdiInstruction) :
    ∃ more, ((if no_ack r then raise what else pure () : Op UpdiInstruction Unit) s).self?.map
      frames_written = some (frames_written s ++ more) := by
  refine ⟨[], ?_⟩
  rw [List.append_nil]
  by_cases a : no_ack r = true
  · rw [if_pos a]; rfl
  · rw [if_neg a]; rfl

theorem data_phase (what : String) (data : List Nat) (r : List Nat) (s : UpdiInstruction) :
    ∃ more, ((if no_ack r then raise what
        else round_trip data >>= fun response =>
          if no_ack response then raise what else pure () : Op UpdiInstruction Unit) s).self?.map
      frames_written = some (frames_written s ++ more) := by
  by_cases a : no_ack r = true
  · rw [if_pos a]
    exact ⟨[], by rw [List.append_nil]; rfl⟩
  · rw [if_neg a]
    obtain ⟨more, h⟩ := first_frame_of data _ (ack_or_throw what) s
    exact ⟨data :: more, h⟩

/-- C24: the first frame that `ld`, `ld16`, `st`, `st16` and `st_ptr` write
is SYNC, the opcode and the address with its low byte first: with
`_use_24bit_addr` the opcode 0x08, 0x09, 0x48, 0x49, 0x6A and the three
bytes a, a >> 8, a >> 16 (each mod 256), without it the opcode 0x04, 0x05,
0x44, 0x45, 0x69 and the two bytes a, a >> 8. -/
theorem C24_first_frame_carries_address (self : UpdiInstruction) (address value : Nat) :
    (∃ more, (UpdiInstruction.ld address self).self?.map frames_written
      = some (frames_written self ++
          claimed_first_frame 0x04 0x08 self._use_24bit_addr address :: more)) ∧
    (∃ more, (UpdiInstruction.ld16 address self).self?.map frames_written
      = some (frames_written self ++
          claimed_first_frame 0x05 0x09 self._use_24bit_addr address :: more)) ∧
    (∃ more, (UpdiInstruction.st address value self).self?.map frames_written
      = some (frames_written self ++
          claimed_first_frame 0x44 0x48 self._use_24bit_addr address :: more)) ∧
    (∃ more, (UpdiInstruction.st16 address value self).self?.map frames_written
      = some (frames_written self ++
          claimed_first_frame 0x45 0x49 self._use_24bit_addr address :: more)) ∧
    (∃ more, (UpdiInstruction.st_ptr address self).self?.map frames_written
      = some (frames_written self ++
          claimed_first_frame 0x69 0x6A self._use_24bit_addr address :: more)) := by
  have hld : UpdiInstruction.ld address self =
      (round_trip (direct_frame 0x00 0x00 self._use_24bit_addr address) >>= fun response =>
        match response with
        | [value] => pure value
        | _ => raise "Error with ld") self := rfl
  have hld16 : UpdiInstruction.ld16 address self =
      (UpdiInstruction.serial
          (UpdiSerial.send (direct_frame 0x00 0x01 self._use_24bit_addr address)) >>= fun _ =>
        UpdiInstruction.serial (UpdiSerial.receive 2) >>= fun response =>
          if response.length ≠ 2 then raise "Error with ld16" else pure response) self := rfl
  have hst : UpdiInstruction.st address value self =
      (round_trip (direct_frame 0x40 0x00 self._use_24bit_addr address) >>= fun response =>
        if no_ack response then raise "Error with st"
        else round_trip [value] >>= fun response =>
          if no_ack response then raise "Error with st" else pure ()) self := rfl
  have hst16 : UpdiInstruction.st16 address value self =
      (round_trip (direct_frame 0x40 0x01 self._use_24bit_addr address) >>= fun response =>
        if no_ack response then raise "Error with st16"
        else round_trip [value &&& 0xFF, (value >>> 8) &&& 0xFF] >>= fun response =>
          if no_ack response then raise "Error with st16" else pure ()) self := rfl
  have hptr : UpdiInstruction.st_ptr address self =
      (round_trip (claimed_first_frame 0x69 0x6A self._use_24bit_addr address) >>=
        fun response => if no_ack response then raise "Error with st_prt" else pure ()) self := by
    unfold UpdiInstruction.st_ptr claimed_first_frame
    rw [address_bytes_eq, address_bytes_eq]
    cases self._use_24bit_addr <;> rfl
  refine ⟨?_, ?_, ?_, ?_, ?_⟩
  · rw [hld, direct_frame_eq]
    refine first_frame_of _ _ ?_ self
    intro r s
    refine ⟨[], ?_⟩
    rw [List.append_nil]
    match r with
    | [] => rfl
    | [_] => rfl
    | _ :: _ :: _ => rfl
  · rw [hld16, direct_frame_eq]
    obtain ⟨s1, h1, w1⟩ := send_written
      (claimed_first_frame (0x00 ||| 0x04 ||| 0x01) (0x00 ||| 0x08 ||| 0x01)
        self._use_24bit_addr address) self
    rw [bind_ok _ _ _ _ _ h1]
    refine ⟨[], ?_⟩
    rcases receive_written 2 s1 with ⟨r, s2, h2, w2⟩ | ⟨s2, h2, w2⟩
    · rw [bind_ok _ _ _ _ _ h2]
      by_cases hr : r.length ≠ 2
      · rw [if_pos hr]
        show some (frames_written s2) = _
        rw [w2, w1]
        rfl
      · rw [if_neg hr]
        show some (frames_written s2) = _
        rw [w2, w1]
        rfl
    · rw [bind_hang _ _ _ _ h2]
      show some (frames_written s2) = _
      rw [w2, w1]
      rfl
  · rw [hst, direct_frame_eq]
    exact first_frame_of _ _ (data_phase "Error with st" [value]) self
  · rw [hst16, direct_frame_eq]
    exact first_frame_of _ _
      (data_phase "Error with st16" [value &&& 0xFF, (value >>> 8) &&& 0xFF]) self
  · rw [hptr]
    exact first_frame_of _ _ (ack_or_throw "Error with st_prt") self

/-! ### Entering programming mode -/

theorem bind_thrown {σ α β : Type} (m : Op σ α) (f : α → Op σ β) (self s1 : σ)
    (what : String) (h : m self = .thrown what s1) : (m >>= f) self = .thrown what s1 := by
  show Op.bind m f self = _
  unfold Op.bind
  rw [h]

theorem bind_fault {σ α β : Type} (m : Op σ α) (f : α → Op σ β) (self : σ) (e : Fault)
    (h : m self = .fault e) : (m >>= f) self = .fault e := by
  show Op.bind m f self = _
  unfold Op.bind
  rw [h]

theorem bind_eq_ok {σ α β : Type} (m : Op σ α) (f : α → Op σ β) (self s : σ) (b : β)
    (h : (m >>= f) self = .ok b s) : ∃ a s1, m self = .ok a s1 ∧ f a s1 = .ok b s := by
  have h1 : Op.bind m f self = .ok b s := h
  unfold Op.bind at h1
  cases hm : m self with
  | ok a s1 => rw [hm] at h1; exact ⟨a, s1, rfl, h1⟩
  | thrown what s1 => rw [hm] at h1; cases h1
  | hang s1 => rw [hm] at h1; cases h1
  | fault e => rw [hm] at h1; cases h1

theorem instruction_ok {α : Type} (m : Op UpdiInstruction α) (self : UpdiApplication) (a : α)
    (i : UpdiInstruction) (h : m self._updi_instruction = .ok a i) :
    UpdiApplication.instruction m self = .ok a { self with _updi_instruction := i } := by
  unfold UpdiApplication.instruction
  rw [h]

theorem ldcs_written (reg_addr value : Nat) (self s : UpdiInstruction)
    (h : UpdiInstruction.ldcs reg_addr self = .ok value s) :
    frames_written s = frames_written self ++ [[0x55, 0x80 ||| (reg_addr &&& 0x0F)]] := by
  have unfolded : UpdiInstruction.ldcs reg_addr self =
      (round_trip [0x55, 0x80 ||| (reg_addr &&& 0x0F)] >>= fun response =>
        match response with
        | [value] => pure value
        | _ => raise "Error with ldcs") self := rfl
  rw [unfolded] at h
  obtain ⟨r, s1, h1, h2⟩ := bind_eq_ok _ _ _ _ _ h
  rcases round_trip_written [0x55, 0x80 ||| (reg_addr &&& 0x0F)] self with
    ⟨r0, s0, h0, w0⟩ | ⟨s0, h0, -⟩
  · rw [h1] at h0
    cases h0
    match r, h2 with
    | [v], h2 =>
      cases h2
      exact w0
  · rw [h1] at h0
    cases h0

/-- C30: when the status read first has the NVMPROG bit (bit 3) clear and
the key status read after the key has the NVMPROG bit (bit 4) clear,
`enter_progmode` throws "NVMPROG key is not accepted" right there: the
frames written are the read of ASI_SYS_STATUS, the two frames of the key and
the read of ASI_KEY_STATUS, and no write to ASI_RESET_REQ. -/
theorem C30_key_not_accepted (clock : Nat → Nat) (self : UpdiApplication)
    (status key_status : Nat) (i1 i3 : UpdiInstruction)
    (hstatus : UpdiInstruction.ldcs 0x0B self._updi_instruction = .ok status i1)
    (hmode : status &&& (1 <<< 3) = 0)
    (hkey : (UpdiInstruction.key UPDI_KEY_NVM >>= fun _ => UpdiInstruction.ldcs 0x07) i1
      = .ok key_status i3)
    (hbit : key_status &&& (1 <<< 4) = 0) :
    UpdiApplication.enter_progmode clock self
      = .thrown "NVMPROG key is not accepted" { self with _updi_instruction := i3 } ∧
    frames_written i3 = frames_written self._updi_instruction ++
      [[0x55, 0x8B], [0x55, 0xE0], " gorPMVN".toList.map Char.toNat, [0x55, 0x87]] := by
  obtain ⟨i2, hk, wk⟩ := key_written UPDI_KEY_NVM i1
  rw [bind_ok _ _ _ _ _ hk] at hkey
  have w1 := ldcs_written _ _ _ _ hstatus
  have w3 := ldcs_written _ _ _ _ hkey
  refine ⟨?_, ?_⟩
  · have a1 := instruction_ok _ self _ _ hstatus
    have a2 := instruction_ok (UpdiInstruction.key UPDI_KEY_NVM)
      { self with _updi_instruction := i1 } _ _ hk
    have a3 := instruction_ok (UpdiInstruction.ldcs 0x07)
      { self with _updi_instruction := i2 } _ _ hkey
    have hmode1 : UpdiApplication.in_prog_mode self
        = .ok false { self with _updi_instruction := i1 } := by
      unfold UpdiApplication.in_prog_mode
      rw [bind_ok _ _ _ _ _ a1]
      show Outcome.ok (decide (status &&& (1 <<< 3) ≠ 0)) _ = _
      rw [hmode]
      rfl
    have hwrite : UpdiApplication.write_progmode_key self
        = .thrown "NVMPROG key is not accepted" { self with _updi_instruction := i3 } := by
      unfold UpdiApplication.write_progmode_key
      rw [bind_ok _ _ _ _ _ hmode1]
      simp only [Bool.false_eq_true, if_false]
      rw [bind_ok _ _ _ _ _ a2, bind_ok _ _ _ _ _ a3, if_pos hbit]
      rfl
    unfold UpdiApplication.enter_progmode
    exact bind_thrown _ _ _ _ _ hwrite
  · rw [w3, wk, w1]
    simp
    decide

/-- Witness for C30: a tiny416 that answers both status reads with 0x00. -/
theorem C30_key_not_accepted_witness :
    UpdiApplication.enter_progmode still_clock (tiny416_application refusing_target)
      = .thrown "NVMPROG key is not accepted"
          { tiny416_application refusing_target with
            _updi_instruction :=
              { _serial_comm :=
                  { written := [[0x55, 0x8B], [0x55, 0xE0],
                      [0x20, 0x67, 0x6F, 0x72, 0x50, 0x4D, 0x56, 0x4E], [0x55, 0x87]]
                    pending := [] }
                _use_24bit_addr := false } } ∧
    frames_written
        { _serial_comm :=
            { written := [[0x55, 0x8B], [0x55, 0xE0],
                [0x20, 0x67, 0x6F, 0x72, 0x50, 0x4D, 0x56, 0x4E], [0x55, 0x87]]
              pending := [] }
          _use_24bit_addr := false }
      = frames_written (tiny416_application refusing_target)._updi_instruction ++
        [[0x55, 0x8B], [0x55, 0xE0], " gorPMVN".toList.map Char.toNat, [0x55, 0x87]] :=
  C30_key_not_accepted still_clock (tiny416_application refusing_target) 0x00 0x00
    { _serial_comm :=
        { written := [[0x55, 0x8B]]
          pending := [some [0x55, 0xE0], some [0x20, 0x67, 0x6F, 0x72, 0x50, 0x4D, 0x56, 0x4E],
            some [0x55, 0x87], some [0x00]] }
      _use_24bit_addr := false }
    { _serial_comm :=
        { written := [[0x55, 0x8B], [0x55, 0xE0],
            [0x20, 0x67, 0x6F, 0x72, 0x50, 0x4D, 0x56, 0x4E], [0x55, 0x87]]
          pending := [] }
      _use_24bit_addr := false }
    (by decide) (by decide) (by decide) (by decide)

/-! ### Writing and reading the flash page by page -/

theorem write_pages_eq (clock : Nat → Nat) : ∀ (pages : List ProgramPage) (start : Nat),
    start < 2 ^ 32 →
    NvmProgrammer.write_pages clock start pages =
      program_at clock (((List.range pages.length).map fun i =>
        (start + ((pages.take i).map fun page => page.pageSize).sum) % 2 ^ 32).zip pages) := by
  intro pages
  induction pages with
  | nil => intro start _; rfl
  | cons page rest ih =>
    intro start hstart
    have hlist : ((List.range (page :: rest).length).map fun i =>
        (start + (((page :: rest).take i).map fun page => page.pageSize).sum) % 2 ^ 32)
        = start :: ((List.range rest.length).map fun i =>
          ((start + page.pageSize) % 2 ^ 32
            + ((rest.take i).map fun page => page.pageSize).sum) % 2 ^ 32) := by
      rw [List.length_cons, List.range_succ_eq_map, List.map_cons, List.map_map]
      congr 1
      · show (start + 0) % 2 ^ 32 = start
        rw [Nat.add_zero, Nat.mod_eq_of_lt hstart]
      · apply List.map_congr_left
        intro i _
        simp only [Function.comp, List.take_succ_cons, List.map_cons, List.sum_cons]
        rw [Nat.mod_add_mod, Nat.add_assoc]
    rw [hlist, List.zip_cons_cons]
    show (NvmProgrammer.application (UpdiApplication.write_nvm_page clock start page.data) >>=
        fun _ => NvmProgrammer.write_pages clock ((start + page.pageSize) % 2 ^ 32) rest) = _
    rw [ih _ (Nat.mod_lt _ (by decide))]
    rfl

theorem write_flash_eq (clock : Nat → Nat) (self : NvmProgrammer)
    (flash_base address : Nat) (pages : List ProgramPage)
    (hprog : self._programming = true)
    (hbase : self._avr_device.flash_start_addr = some flash_base)
    (haddr : address < 2 ^ 32) :
    NvmProgrammer.write_flash clock address pages self =
      program_at clock (((List.range pages.length).map fun i =>
        claimed_page_address flash_base address pages i % 2 ^ 32).zip pages) self := by
  unfold NvmProgrammer.write_flash
  simp only [hprog, Bool.not_true, Bool.false_eq_true, if_false, hbase]
  have hstart : (if address < flash_base then (address + flash_base) % 2 ^ 32 else address)
      < 2 ^ 32 := by
    split
    · exact Nat.mod_lt _ (by decide)
    · exact haddr
  rw [write_pages_eq clock pages _ hstart]
  congr 2
  apply List.map_congr_left
  intro i _
  unfold claimed_page_address claimed_start
  split
  · rw [Nat.mod_add_mod]
  · rfl

/-- C26 (amended): in programming mode, on a device whose flash base is
assigned, `write_flash` makes the calls `write_nvm_page(a, page.data)` in
the order of the list, each once the one before has returned, with for page
`i` the address start + (page sizes of the pages before it) taken modulo
2^32, where start is address + flash base when the address is below the
flash base and the address otherwise; where that sum is below 2^32 the
address is the sum itself and not below the flash base. -/
theorem C26_pages_programmed_in_order (clock : Nat → Nat) (self : NvmProgrammer)
    (flash_base address : Nat) (pages : List ProgramPage)
    (hprog : self._programming = true)
    (hbase : self._avr_device.flash_start_addr = some flash_base)
    (haddr : address < 2 ^ 32) :
    NvmProgrammer.write_flash clock address pages self =
      program_at clock (((List.range pages.length).map fun i =>
        claimed_page_address flash_base address pages i % 2 ^ 32).zip pages) self ∧
    ∀ i, i < pages.length → claimed_page_address flash_base address pages i < 2 ^ 32 →
      claimed_page_address flash_base address pages i % 2 ^ 32
        = claimed_page_address flash_base address pages i ∧
      flash_base ≤ claimed_page_address flash_base address pages i % 2 ^ 32 := by
  refine ⟨write_flash_eq clock self flash_base address pages hprog hbase haddr, ?_⟩
  intro i _ hlt
  refine ⟨Nat.mod_eq_of_lt hlt, ?_⟩
  rw [Nat.mod_eq_of_lt hlt]
  unfold claimed_page_address claimed_start
  split <;> omega

/-- Witness for C26: two pages of 64 bytes at address 0 of a tiny416, flash
base 0x8000: the second page goes to 0x8040. -/
theorem C26_pages_programmed_in_order_witness :
    NvmProgrammer.write_flash still_clock 0 two_pages
        (programming_tiny416 (ready_tiny416 0x00 0x80 (List.replicate 64 0xFF) ++
          ready_tiny416 0x40 0x80 (List.replicate 64 0x00)))
      = program_at still_clock (((List.range two_pages.length).map fun i =>
          claimed_page_address 0x8000 0 two_pages i % 2 ^ 32).zip two_pages)
        (programming_tiny416 (ready_tiny416 0x00 0x80 (List.replicate 64 0xFF) ++
          ready_tiny416 0x40 0x80 (List.replicate 64 0x00))) ∧
    claimed_page_address 0x8000 0 two_pages 1 % 2 ^ 32
      = claimed_page_address 0x8000 0 two_pages 1 ∧
    0x8000 ≤ claimed_page_address 0x8000 0 two_pages 1 % 2 ^ 32 :=
  ⟨(C26_pages_programmed_in_order still_clock
      (programming_tiny416 (ready_tiny416 0x00 0x80 (List.replicate 64 0xFF) ++
        ready_tiny416 0x40 0x80 (List.replicate 64 0x00)))
      0x8000 0 two_pages rfl (by decide) (by decide)).1,
   (C26_pages_programmed_in_order still_clock
      (programming_tiny416 (ready_tiny416 0x00 0x80 (List.replicate 64 0xFF) ++
        ready_tiny416 0x40 0x80 (List.replicate 64 0x00)))
      0x8000 0 two_pages rfl (by decide) (by decide)).2 1 (by decide) (by decide)⟩

/-! ### One page write, instruction by instruction -/

theorem tracks_instruction {α : Type} (d : AvrDevice) (v2 : Bool) (m : Op UpdiInstruction α) :
    tracks d v2 (UpdiApplication.instruction m) m := by
  intro self hd hv
  right
  unfold UpdiApplication.instruction
  cases m self._updi_instruction with
  | ok a i => exact ⟨rfl, hd, hv⟩
  | thrown what i => exact ⟨rfl, hd, hv⟩
  | hang i => exact ⟨rfl, hd, hv⟩
  | fault e => exact ⟨rfl, trivial⟩

theorem tracks_bind {α β : Type} (d : AvrDevice) (v2 : Bool) (m : Op UpdiApplication α)
    (m' : Op UpdiInstruction α) (f : α → Op UpdiApplication β) (f' : α → Op UpdiInstruction β)
    (hm : tracks d v2 m m') (hf : ∀ a, tracks d v2 (f a) (f' a)) :
    tracks d v2 (m >>= f) (m' >>= f') := by
  intro self hd hv
  show outside_claim (Op.bind m' f' self._updi_instruction) ∨
    (on_instruction (Op.bind m f self) = Op.bind m' f' self._updi_instruction ∧
      kept d v2 (Op.bind m f self))
  unfold Op.bind
  rcases hm self hd hv with hout | ⟨heq, hkept⟩
  · left
    cases hm' : m' self._updi_instruction with
    | ok a i => rw [hm'] at hout; exact hout.elim
    | thrown what i => rw [hm'] at hout; exact hout
    | hang i => rw [hm'] at hout; exact hout.elim
    | fault e => rw [hm'] at hout; exact hout.elim
  · cases hms : m self with
    | ok a s =>
      rw [hms] at heq hkept
      rw [← heq]
      exact hf a s hkept.1 hkept.2
    | thrown what s =>
      rw [hms] at heq hkept
      rw [← heq]
      exact Or.inr ⟨rfl, hkept⟩
    | hang s =>
      rw [hms] at heq hkept
      rw [← heq]
      exact Or.inr ⟨rfl, hkept⟩
    | fault e =>
      rw [hms] at heq
      rw [← heq]
      exact Or.inr ⟨rfl, trivial⟩

theorem tracks_pure {α : Type} (d : AvrDevice) (v2 : Bool) (a : α) :
    tracks d v2 (pure a) (pure a) := by
  intro self hd hv
  exact Or.inr ⟨rfl, hd, hv⟩

theorem wait_flash_ready_unfold (clock : Nat → Nat) (self : UpdiApplication) :
    UpdiApplication.wait_flash_ready clock self =
      (UpdiApplication.instruction
          (UpdiInstruction.ld ((self._avr_device.nvmctrl_base_addr + 0x02) % 2 ^ 32)) >>=
        fun nvm_status =>
          if nvm_status &&& (1 <<< 2) ≠ 0 then pure false
          else if nvm_status &&& ((1 <<< 0) ||| (1 <<< 1)) = 0 then pure true
          else UpdiApplication.now clock >>= fun now =>
            if clock self.clock_readings + 10 * 1000 < now then pure false
            else UpdiApplication.wait_flash_ready_loop clock (clock self.clock_readings)
              self._updi_instruction._serial_comm.budget)
        { self with clock_readings := self.clock_readings + 1 } := rfl

theorem tracks_wait_then {β : Type} (clock : Nat → Nat) (d : AvrDevice) (v2 : Bool)
    (what : String) (k : Op UpdiApplication β) (k' : Op UpdiInstruction β)
    (hbase : d.nvmctrl_base_addr + 0x02 < 2 ^ 32) (hk : tracks d v2 k k') :
    tracks d v2
      (UpdiApplication.wait_flash_ready clock >>= fun ready =>
        if !ready then raise what else k)
      (claimed_status_read d.nvmctrl_base_addr >>= fun _ => k') := by
  intro self hd hv
  have hmod : (self._avr_device.nvmctrl_base_addr + 0x02) % 2 ^ 32
      = d.nvmctrl_base_addr + 0x02 := by
    rw [hd]
    exact Nat.mod_eq_of_lt hbase
  have hclaimed : claimed_status_read d.nvmctrl_base_addr =
      (UpdiInstruction.ld (d.nvmctrl_base_addr + 0x02) >>= fun status =>
        if status &&& 0x03 = 0 ∧ status &&& 0x04 = 0 then pure ()
        else raise "status outside the claim") := rfl
  have hwait := wait_flash_ready_unfold clock self
  rw [hmod] at hwait
  cases hld : UpdiInstruction.ld (d.nvmctrl_base_addr + 0x02) self._updi_instruction with
  | ok status i =>
    have hi := instruction_ok (UpdiInstruction.ld (d.nvmctrl_base_addr + 0x02))
      { self with clock_readings := self.clock_readings + 1 } status i hld
    rw [bind_ok _ _ _ _ _ hi] at hwait
    by_cases hready : status &&& 0x03 = 0 ∧ status &&& 0x04 = 0
    · have e4 : ¬ (status &&& (1 <<< 2) ≠ 0) := by
        have h4 := hready.2
        intro hne
        exact hne h4
      have e3 : status &&& ((1 <<< 0) ||| (1 <<< 1)) = 0 := hready.1
      rw [if_neg e4, if_pos e3] at hwait
      have hc : claimed_status_read d.nvmctrl_base_addr self._updi_instruction = .ok () i := by
        rw [hclaimed, bind_ok _ _ _ _ _ hld, if_pos hready]
        rfl
      rw [bind_ok _ _ _ _ _ hwait, bind_ok _ _ _ _ _ hc]
      have hnot : (!true) = false := rfl
      rw [hnot, if_neg (by decide)]
      exact hk { _updi_instruction := i, _avr_device := self._avr_device,
                 _pdi_v2 := self._pdi_v2, clock_readings := self.clock_readings + 1 } hd hv
    · left
      have hc : claimed_status_read d.nvmctrl_base_addr self._updi_instruction
          = .thrown "status outside the claim" i := by
        rw [hclaimed, bind_ok _ _ _ _ _ hld, if_neg hready]
        rfl
      rw [bind_thrown _ _ _ _ _ hc]
      rfl
  | thrown w i =>
    right
    have hc : claimed_status_read d.nvmctrl_base_addr self._updi_instruction = .thrown w i := by
      rw [hclaimed]
      exact bind_thrown _ _ _ _ _ hld
    have hw : UpdiApplication.wait_flash_ready clock self
        = .thrown w { self with clock_readings := self.clock_readings + 1,
                                _updi_instruction := i } := by
      rw [hwait]
      refine bind_thrown _ _ _ _ _ ?_
      unfold UpdiApplication.instruction
      rw [hld]
    rw [bind_thrown _ _ _ _ _ hw, bind_thrown _ _ _ _ _ hc]
    exact ⟨rfl, hd, hv⟩
  | hang i =>
    right
    have hc : claimed_status_read d.nvmctrl_base_addr self._updi_instruction = .hang i := by
      rw [hclaimed]
      exact bind_hang _ _ _ _ hld
    have hw : UpdiApplication.wait_flash_ready clock self
        = .hang { self with clock_readings := self.clock_readings + 1,
                            _updi_instruction := i } := by
      rw [hwait]
      refine bind_hang _ _ _ _ ?_
      unfold UpdiApplication.instruction
      rw [hld]
    rw [bind_hang _ _ _ _ hw, bind_hang _ _ _ _ hc]
    exact ⟨rfl, hd, hv⟩
  | fault e =>
    right
    have hc : claimed_status_read d.nvmctrl_base_addr self._updi_instruction = .fault e := by
      rw [hclaimed]
      exact bind_fault _ _ _ _ hld
    have hw : UpdiApplication.wait_flash_ready clock self = .fault e := by
      rw [hwait]
      refine bind_fault _ _ _ _ ?_
      unfold UpdiApplication.instruction
      rw [hld]
    rw [bind_fault _ _ _ _ hw, bind_fault _ _ _ _ hc]
    exact ⟨rfl, trivial⟩

theorem bind_pure_unit {σ : Type} (m : Op σ Unit) : (m >>= fun _ => pure ()) = m := by
  funext self
  show Op.bind m _ self = _
  unfold Op.bind
  cases m self <;> rfl

theorem op_bind_assoc {σ α β γ : Type} (m : Op σ α) (f : α → Op σ β) (g : β → Op σ γ) :
    (m >>= f) >>= g = m >>= fun a => f a >>= g := by
  funext self
  show Op.bind (Op.bind m f) g self = Op.bind m (fun a => Op.bind (f a) g) self
  unfold Op.bind
  cases m self <;> rfl

theorem tracks_execute (d : AvrDevice) (v2 : Bool) (command : Nat)
    (hbase : d.nvmctrl_base_addr + 0x02 < 2 ^ 32) :
    tracks d v2 (UpdiApplication.execute_nvm_command command)
      (UpdiInstruction.st (d.nvmctrl_base_addr + 0x00) command) := by
  intro self hd hv
  have hmod : (self._avr_device.nvmctrl_base_addr + 0x00) % 2 ^ 32
      = d.nvmctrl_base_addr + 0x00 := by
    rw [hd]
    exact Nat.mod_eq_of_lt (by omega)
  unfold UpdiApplication.execute_nvm_command
  rw [hmod]
  exact tracks_instruction d v2 _ self hd hv

theorem tracks_words (d : AvrDevice) (v2 : Bool) (address page_size : Nat) (data : List Nat)
    (hlen : data.length = page_size)
    (hsize : 2 < page_size ∧ page_size % 2 = 0 ∧ page_size ≤ 512) :
    tracks d v2 (UpdiApplication.write_data_words address data)
      (UpdiInstruction.st_ptr address >>= fun _ =>
        UpdiInstruction.repeat (page_size / 2) >>= fun _ =>
        UpdiInstruction.st_ptr_inc16 data) := by
  have hwords : UpdiApplication.write_data_words address data =
      (UpdiApplication.instruction (UpdiInstruction.st_ptr address) >>= fun _ =>
        UpdiApplication.instruction (UpdiInstruction.repeat (page_size / 2)) >>= fun _ =>
        UpdiApplication.instruction (UpdiInstruction.st_ptr_inc16 data)) := by
    obtain ⟨h2, heven, hmax⟩ := hsize
    match data, hlen with
    | [], hlen => simp at hlen; omega
    | [_], hlen => simp at hlen; omega
    | [_, _], hlen => simp at hlen; omega
    | x :: y :: z :: rest, hlen =>
      unfold UpdiApplication.write_data_words
      have e1 : ¬ ((x :: y :: z :: rest).length % 2 ≠ 0) := by
        rw [hlen]; omega
      have e2 : ¬ ((x :: y :: z :: rest).length > (0xFF + 1) * 2) := by
        rw [hlen]; omega
      simp only [e1, e2, if_false]
      rw [hlen]
  rw [hwords]
  exact tracks_bind d v2 _ _ _ _ (tracks_instruction d v2 _) fun _ =>
    tracks_bind d v2 _ _ _ _ (tracks_instruction d v2 _) fun _ =>
      tracks_instruction d v2 _

theorem tracks_page_write (clock : Nat → Nat) (d : AvrDevice) (start_addr page_size : Nat)
    (page_data : List Nat) (hbase : d.nvmctrl_base_addr + 0x02 < 2 ^ 32)
    (hlen : page_data.length = page_size)
    (hsize : 2 < page_size ∧ page_size % 2 = 0 ∧ page_size ≤ 512) :
    tracks d false (UpdiApplication.write_nvm_page clock start_addr page_data)
      (claimed_page_write d.nvmctrl_base_addr start_addr page_size page_data) := by
  have hclaimed : claimed_page_write d.nvmctrl_base_addr start_addr page_size page_data =
      (claimed_status_read d.nvmctrl_base_addr >>= fun _ =>
        UpdiInstruction.st (d.nvmctrl_base_addr + 0x00) 0x04 >>= fun _ =>
        claimed_status_read d.nvmctrl_base_addr >>= fun _ =>
        (UpdiInstruction.st_ptr start_addr >>= fun _ =>
          UpdiInstruction.repeat (page_size / 2) >>= fun _ =>
          UpdiInstruction.st_ptr_inc16 page_data) >>= fun _ =>
        UpdiInstruction.st (d.nvmctrl_base_addr + 0x00) 0x01 >>= fun _ =>
        claimed_status_read d.nvmctrl_base_addr >>= fun _ => pure ()) := by
    simp only [op_bind_assoc, bind_pure_unit]
    rfl
  intro self hd hv
  have hbody : UpdiApplication.write_nvm_page clock start_addr page_data self =
      (UpdiApplication.wait_flash_ready clock >>= fun ready =>
        if !ready then raise "Waiting for flash ready timed out"
        else UpdiApplication.execute_nvm_command 0x04 >>= fun _ =>
          UpdiApplication.wait_flash_ready clock >>= fun ready =>
          if !ready then raise "Waiting for flash ready after page buffer clear timed out"
          else UpdiApplication.write_data_words start_addr page_data >>= fun _ =>
            UpdiApplication.execute_nvm_command 0x01 >>= fun _ =>
            UpdiApplication.wait_flash_ready clock >>= fun ready =>
            if !ready then raise "Waiting for flash ready after page write timed out"
            else pure ()) self := by
    unfold UpdiApplication.write_nvm_page
    rw [hv]
    rfl
  rw [hbody, hclaimed]
  exact tracks_wait_then clock d false _ _ _ hbase
    (tracks_bind d false _ _ _ _ (tracks_execute d false 0x04 hbase) fun _ =>
      tracks_wait_then clock d false _ _ _ hbase
        (tracks_bind d false _ _ _ _ (tracks_words d false start_addr page_size page_data
          hlen hsize) fun _ =>
          tracks_bind d false _ _ _ _ (tracks_execute d false 0x01 hbase) fun _ =>
            tracks_wait_then clock d false _ _ _ hbase (tracks_pure d false ())))
    self hd hv

/-- C28: with `_pdi_v2` clear and a page of `page_size` bytes (even, more
than 2, at most 512), `write_nvm_page` does on the instruction object what
the claimed sequence does: status read at NVMCTRL + 0x02, `st(NVMCTRL, 0x04)`,
status read, `st_ptr(addr)`, `repeat(page_size / 2)`, `st_ptr_inc16(data)`,
`st(NVMCTRL, 0x01)`, status read; same frames written, same bytes read, same
return or exception, provided every status read in the sequence finds no busy
and no error bit. -/
theorem C28_page_write_sequence (clock : Nat → Nat) (self : UpdiApplication)
    (start_addr page_size : Nat) (page_data : List Nat)
    (hv1 : self._pdi_v2 = false)
    (hbase : self._avr_device.nvmctrl_base_addr + 0x02 < 2 ^ 32)
    (hlen : page_data.length = page_size)
    (hsize : 2 < page_size ∧ page_size % 2 = 0 ∧ page_size ≤ 512)
    (hready : ¬ outside_claim (claimed_page_write self._avr_device.nvmctrl_base_addr
      start_addr page_size page_data self._updi_instruction)) :
    on_instruction (UpdiApplication.write_nvm_page clock start_addr page_data self)
      = claimed_page_write self._avr_device.nvmctrl_base_addr start_addr page_size page_data
          self._updi_instruction := by
  rcases tracks_page_write clock self._avr_device start_addr page_size page_data hbase hlen
    hsize self rfl hv1 with hout | ⟨heq, -⟩
  · exact (hready hout).elim
  · exact heq

/-- Witness for C28: a page of 64 bytes 0xFF at 0x8000 of a tiny416 that is
ready throughout: `write_nvm_page` returns after the thirteen frames of the
claimed sequence. -/
theorem C28_page_write_sequence_witness :
    on_instruction (UpdiApplication.write_nvm_page still_clock 0x8000 (List.replicate 64 0xFF)
        (tiny416_application (ready_tiny416 0x00 0x80 (List.replicate 64 0xFF))))
      = .ok () { _serial_comm :=
                   { written := tiny416_page_frames 0x00 0x80 (List.replicate 64 0xFF)
                     pending := [] }
                 _use_24bit_addr := false } :=
  have run : claimed_page_write 0x1000 0x8000 64 (List.replicate 64 0xFF)
      (tiny416_application
        (ready_tiny416 0x00 0x80 (List.replicate 64 0xFF)))._updi_instruction
      = .ok () { _serial_comm :=
                   { written := tiny416_page_frames 0x00 0x80 (List.replicate 64 0xFF)
                     pending := [] }
                 _use_24bit_addr := false } := by decide
  (C28_page_write_sequence still_clock
    (tiny416_application (ready_tiny416 0x00 0x80 (List.replicate 64 0xFF)))
    0x8000 64 (List.replicate 64 0xFF) rfl (by decide) (by decide) (by decide)
    (fun hout => by
      have hrun : claimed_page_write
          (tiny416_application
            (ready_tiny416 0x00 0x80 (List.replicate 64 0xFF)))._avr_device.nvmctrl_base_addr
          0x8000 64 (List.replicate 64 0xFF)
          (tiny416_application
            (ready_tiny416 0x00 0x80 (List.replicate 64 0xFF)))._updi_instruction
          = _ := run
      rw [hrun] at hout
      exact hout)).trans run

theorem page_write_returns (clock : Nat → Nat) (self : UpdiApplication)
    (start_addr page_size : Nat) (page_data : List Nat) (i : UpdiInstruction)
    (hv1 : self._pdi_v2 = false)
    (hbase : self._avr_device.nvmctrl_base_addr + 0x02 < 2 ^ 32)
    (hlen : page_data.length = page_size)
    (hsize : 2 < page_size ∧ page_size % 2 = 0 ∧ page_size ≤ 512)
    (hrun : claimed_page_write self._avr_device.nvmctrl_base_addr start_addr page_size
      page_data self._updi_instruction = .ok () i) :
    ∃ s, UpdiApplication.write_nvm_page clock start_addr page_data self = .ok () s ∧
      s._updi_instruction = i ∧ s._avr_device = self._avr_device ∧ s._pdi_v2 = false := by
  rcases tracks_page_write clock self._avr_device start_addr page_size page_data hbase hlen
    hsize self rfl hv1 with hout | ⟨heq, hkept⟩
  · rw [hrun] at hout
    exact hout.elim
  · rw [hrun] at heq
    cases hw : UpdiApplication.write_nvm_page clock start_addr page_data self with
    | ok a s =>
      rw [hw] at heq hkept
      have hi : s._updi_instruction = i := by
        injection heq
      exact ⟨s, rfl, hi, hkept.1, hkept.2⟩
    | thrown what s => rw [hw] at heq; cases heq
    | hang s => rw [hw] at heq; cases heq
    | fault e => rw [hw] at heq; cases heq

theorem application_ok {α : Type} (m : Op UpdiApplication α) (self : NvmProgrammer) (a : α)
    (s : UpdiApplication) (h : m self._updi_application = .ok a s) :
    NvmProgrammer.application m self = .ok a { self with _updi_application := s } := by
  unfold NvmProgrammer.application
  rw [h]

/-- C26 (counterexample): `write_flash` at address 0xFFFFFFC0 with two pages
of 64 bytes, on a tiny416 (flash base 0x8000) that is ready throughout,
returns; the pointer is set to 0xFFC0 for the first page and to 0x0000 for
the second: the address of the second page, 0xFFFFFFC0 + 64, has wrapped to
0, which is below the flash base. -/
theorem C26_second_page_below_flash_base :
    (AvrDevice.AvrDevice "tiny416").flash_start_addr = some 0x8000 ∧
    claimed_page_address 0x8000 0xFFFFFFC0 two_pages 1 = 0x100000000 ∧
    NvmProgrammer.write_flash still_clock 0xFFFFFFC0 two_pages
        (programming_tiny416 (ready_tiny416 0xC0 0xFF (List.replicate 64 0xFF) ++
          ready_tiny416 0x00 0x00 (List.replicate 64 0x00)))
      = program_at still_clock
          [(0xFFFFFFC0, { address := 0, pageSize := 64, data := List.replicate 64 0xFF }),
           (0, { address := 64, pageSize := 64, data := List.replicate 64 0x00 })]
        (programming_tiny416 (ready_tiny416 0xC0 0xFF (List.replicate 64 0xFF) ++
          ready_tiny416 0x00 0x00 (List.replicate 64 0x00))) ∧
    ((NvmProgrammer.write_flash still_clock 0xFFFFFFC0 two_pages
        (programming_tiny416 (ready_tiny416 0xC0 0xFF (List.replicate 64 0xFF) ++
          ready_tiny416 0x00 0x00 (List.replicate 64 0x00)))).returned?.map
      fun p => pointer_frames (frames_written p._updi_application._updi_instruction))
      = some [[0x55, 0x69, 0xC0, 0xFF], [0x55, 0x69, 0x00, 0x00]] := by
  have hflash : NvmProgrammer.write_flash still_clock 0xFFFFFFC0 two_pages
        (programming_tiny416 (ready_tiny416 0xC0 0xFF (List.replicate 64 0xFF) ++
          ready_tiny416 0x00 0x00 (List.replicate 64 0x00)))
      = program_at still_clock
          [(0xFFFFFFC0, { address := 0, pageSize := 64, data := List.replicate 64 0xFF }),
           (0, { address := 64, pageSize := 64, data := List.replicate 64 0x00 })]
        (programming_tiny416 (ready_tiny416 0xC0 0xFF (List.replicate 64 0xFF) ++
          ready_tiny416 0x00 0x00 (List.replicate 64 0x00))) := by
    rw [write_flash_eq still_clock _ 0x8000 0xFFFFFFC0 two_pages rfl (by decide) (by decide)]
    have hjobs : ((List.range two_pages.length).map fun i =>
        claimed_page_address 0x8000 0xFFFFFFC0 two_pages i % 2 ^ 32).zip two_pages
        = [(0xFFFFFFC0, { address := 0, pageSize := 64, data := List.replicate 64 0xFF }),
           (0, { address := 64, pageSize := 64, data := List.replicate 64 0x00 })] := by
      decide
    rw [hjobs]
  refine ⟨by decide, by decide, hflash, ?_⟩
  rw [hflash]
  obtain ⟨s1, h1, i1, d1, v1⟩ := page_write_returns still_clock
    (tiny416_application (ready_tiny416 0xC0 0xFF (List.replicate 64 0xFF) ++
      ready_tiny416 0x00 0x00 (List.replicate 64 0x00)))
    0xFFFFFFC0 64 (List.replicate 64 0xFF)
    { _serial_comm :=
        { written := tiny416_page_frames 0xC0 0xFF (List.replicate 64 0xFF)
          pending := ready_tiny416 0x00 0x00 (List.replicate 64 0x00) }
      _use_24bit_addr := false }
    rfl (by decide) (by decide) (by decide) (by decide)
  obtain ⟨s2, h2, i2, -, -⟩ := page_write_returns still_clock s1
    0 64 (List.replicate 64 0x00)
    { _serial_comm :=
        { written := tiny416_page_frames 0xC0 0xFF (List.replicate 64 0xFF) ++
            tiny416_page_frames 0x00 0x00 (List.replicate 64 0x00)
          pending := [] }
      _use_24bit_addr := false }
    v1 (by rw [d1]; decide) (by decide) (by decide) (by rw [d1, i1]; decide)
  have a1 := application_ok _ (programming_tiny416 (ready_tiny416 0xC0 0xFF
      (List.replicate 64 0xFF) ++ ready_tiny416 0x00 0x00 (List.replicate 64 0x00)))
    () s1 h1
  have run : program_at still_clock
      [(0xFFFFFFC0, { address := 0, pageSize := 64, data := List.replicate 64 0xFF }),
       (0, { address := 64, pageSize := 64, data := List.replicate 64 0x00 })]
      (programming_tiny416 (ready_tiny416 0xC0 0xFF (List.replicate 64 0xFF) ++
        ready_tiny416 0x00 0x00 (List.replicate 64 0x00)))
      = .ok () { _updi_application := s2, _programming := true } := by
    rw [program_at, bind_ok _ _ _ _ _ a1, program_at]
    have a2 := application_ok (UpdiApplication.write_nvm_page still_clock 0
        (List.replicate 64 0x00))
      { _updi_application := s1, _programming := true } () s2 h2
    exact bind_ok _ _ _ _ _ a2
  rw [run]
  show some (pointer_frames (frames_written s2._updi_instruction)) = _
  rw [i2]
  decide

/-! ### Reading the flash page by page -/

theorem read_pages_eq (pagesize : Nat) : ∀ (count page_start_addr : Nat) (flash_data : List Nat)
    (self : NvmProgrammer), page_start_addr < 2 ^ 32 →
    NvmProgrammer.read_pages pagesize count page_start_addr flash_data self =
      (read_words_at (pagesize / 2) ((List.range count).map fun i =>
          (page_start_addr + i * pagesize) % 2 ^ 32) >>= fun more =>
        pure (flash_data ++ more)) self := by
  intro count
  induction count with
  | zero =>
    intro page_start_addr flash_data self _
    show Outcome.ok flash_data self = Outcome.ok (flash_data ++ []) self
    rw [List.append_nil]
  | succ count ih =>
    intro page_start_addr flash_data self hstart
    have hlist : ((List.range (count + 1)).map fun i =>
        (page_start_addr + i * pagesize) % 2 ^ 32)
        = page_start_addr :: ((List.range count).map fun i =>
          ((page_start_addr + pagesize) % 2 ^ 32 + i * pagesize) % 2 ^ 32) := by
      rw [List.range_succ_eq_map, List.map_cons, List.map_map]
      congr 1
      · show (page_start_addr + 0 * pagesize) % 2 ^ 32 = page_start_addr
        rw [Nat.zero_mul, Nat.add_zero, Nat.mod_eq_of_lt hstart]
      · apply List.map_congr_left
        intro i _
        simp only [Function.comp]
        rw [Nat.mod_add_mod, Nat.succ_mul, Nat.add_assoc, Nat.add_comm pagesize]
    rw [hlist]
    show Op.bind (NvmProgrammer.application
        (UpdiApplication.read_data_words page_start_addr (pagesize / 2)))
        (fun page_data => NvmProgrammer.read_pages pagesize count
          ((page_start_addr + pagesize) % 2 ^ 32) (flash_data ++ page_data)) self
      = Op.bind (Op.bind (NvmProgrammer.application
          (UpdiApplication.read_data_words page_start_addr (pagesize / 2)))
          (fun page_data => Op.bind (read_words_at (pagesize / 2) _)
            (fun more => pure (page_data ++ more))))
        (fun more => pure (flash_data ++ more)) self
    unfold Op.bind
    cases NvmProgrammer.application
        (UpdiApplication.read_data_words page_start_addr (pagesize / 2)) self with
    | ok page_data s1 =>
      simp only []
      rw [ih _ _ s1 (Nat.mod_lt _ (by decide))]
      show Op.bind _ _ s1 = _
      unfold Op.bind
      cases read_words_at (pagesize / 2) ((List.range count).map fun i =>
          ((page_start_addr + pagesize) % 2 ^ 32 + i * pagesize) % 2 ^ 32) s1 with
      | ok more s2 =>
        show Outcome.ok (flash_data ++ page_data ++ more) s2
          = Outcome.ok (flash_data ++ (page_data ++ more)) s2
        rw [List.append_assoc]
      | thrown what s2 => rfl
      | hang s2 => rfl
      | fault e => rfl
    | thrown what s1 => rfl
    | hang s1 => rfl
    | fault e => rfl

/-- C27: in programming mode, on a device whose page size is assigned and
not 0, `read_flash` throws "Only full page aligned flash supported", the
programmer untouched, when the size is no multiple of the page size;
otherwise it makes the size / page size calls
`read_data_words(addr + i * page size, page size / 2)`, i = 0, 1, ..., in this
order (the address taken modulo 2^32), each once the one before has
returned, and returns what they returned, concatenated in this order. -/
theorem C27_read_flash_page_by_page (self : NvmProgrammer) (address size page_size : Nat)
    (hprog : self._programming = true)
    (hpage : self._avr_device.flash_page_size = some page_size)
    (hpos : page_size ≠ 0) (haddr : address < 2 ^ 32) :
    (size % page_size ≠ 0 →
      NvmProgrammer.read_flash address size self
        = .thrown "Only full page aligned flash supported" self) ∧
    (size % page_size = 0 →
      NvmProgrammer.read_flash address size self
        = read_words_at (page_size / 2) ((List.range (size / page_size)).map fun i =>
            (address + i * page_size) % 2 ^ 32) self) := by
  constructor
  · intro hrem
    unfold NvmProgrammer.read_flash
    simp only [hprog, Bool.not_true, Bool.false_eq_true, if_false, hpage, hpos]
    rw [if_pos hrem]
  · intro hrem
    unfold NvmProgrammer.read_flash
    simp only [hprog, Bool.not_true, Bool.false_eq_true, if_false, hpage, hpos]
    rw [if_neg (not_not.mpr hrem), read_pages_eq page_size _ _ _ _ haddr]
    show Op.bind _ _ self = _
    unfold Op.bind
    cases read_words_at (page_size / 2) ((List.range (size / page_size)).map fun i =>
        (address + i * page_size) % 2 ^ 32) self with
    | ok more s => show Outcome.ok ([] ++ more) s = _; rw [List.nil_append]
    | thrown what s => rfl
    | hang s => rfl
    | fault e => rfl

/-- Witness for C27: on a tiny416 (page size 64) in programming mode, 65
bytes are refused, and 128 bytes from 0x8000 are read by the two calls
`read_data_words(0x8000, 32)` and `read_data_words(0x8040, 32)`, whose 64
bytes each come back one after the other. -/
theorem C27_read_flash_page_by_page_witness :
    NvmProgrammer.read_flash 0x8000 65
        (programming_tiny416 (read_tiny416 0x00 0x80 (List.replicate 64 0xAA) ++
          read_tiny416 0x40 0x80 (List.replicate 64 0xBB)))
      = .thrown "Only full page aligned flash supported"
        (programming_tiny416 (read_tiny416 0x00 0x80 (List.replicate 64 0xAA) ++
          read_tiny416 0x40 0x80 (List.replicate 64 0xBB))) ∧
    NvmProgrammer.read_flash 0x8000 128
        (programming_tiny416 (read_tiny416 0x00 0x80 (List.replicate 64 0xAA) ++
          read_tiny416 0x40 0x80 (List.replicate 64 0xBB)))
      = read_words_at (64 / 2) ((List.range (128 / 64)).map fun i =>
          (0x8000 + i * 64) % 2 ^ 32)
        (programming_tiny416 (read_tiny416 0x00 0x80 (List.replicate 64 0xAA) ++
          read_tiny416 0x40 0x80 (List.replicate 64 0xBB))) ∧
    read_words_at 32 [0x8000, 0x8040]
        (programming_tiny416 (read_tiny416 0x00 0x80 (List.replicate 64 0xAA) ++
          read_tiny416 0x40 0x80 (List.replicate 64 0xBB)))
      = .ok (List.replicate 64 0xAA ++ List.replicate 64 0xBB)
          { _updi_application :=
              { _updi_instruction :=
                  { _serial_comm :=
                      { written := [[0x55, 0x69, 0x00, 0x80], [0x55, 0xA0, 0x1F], [0x55, 0x25],
                          [0x55, 0x69, 0x40, 0x80], [0x55, 0xA0, 0x1F], [0x55, 0x25]]
                        pending := [] }
                    _use_24bit_addr := false }
                _avr_device := AvrDevice.AvrDevice "tiny416"
                _pdi_v2 := false
                clock_readings := 0 }
            _programming := true } :=
  ⟨(C27_read_flash_page_by_page
      (programming_tiny416 (read_tiny416 0x00 0x80 (List.replicate 64 0xAA) ++
        read_tiny416 0x40 0x80 (List.replicate 64 0xBB)))
      0x8000 65 64 rfl (by decide) (by decide) (by decide)).1 (by decide),
   (C27_read_flash_page_by_page
      (programming_tiny416 (read_tiny416 0x00 0x80 (List.replicate 64 0xAA) ++
        read_tiny416 0x40 0x80 (List.replicate 64 0xBB)))
      0x8000 128 64 rfl (by decide) (by decide) (by decide)).2 (by decide),
   by decide⟩

/-! ### Writing a fuse -/

theorem op_pure_bind {σ α β : Type} (a : α) (f : α → Op σ β) :
    (pure a >>= f : Op σ β) = f a := rfl

theorem follows_instruction {α : Type} (d : AvrDevice) (v2 : Bool)
    (m : Op UpdiInstruction α) : follows d v2 (UpdiApplication.instruction m) m := by
  intro self hd hv
  unfold UpdiApplication.instruction
  cases m self._updi_instruction with
  | ok a i => exact ⟨rfl, hd, hv⟩
  | thrown what i => exact ⟨rfl, hd, hv⟩
  | hang i => exact ⟨rfl, hd, hv⟩
  | fault e => exact ⟨rfl, trivial⟩

theorem follows_bind {α β : Type} (d : AvrDevice) (v2 : Bool) (m : Op UpdiApplication α)
    (m' : Op UpdiInstruction α) (f : α → Op UpdiApplication β) (f' : α → Op UpdiInstruction β)
    (hm : follows d v2 m m') (hf : ∀ a, follows d v2 (f a) (f' a)) :
    follows d v2 (m >>= f) (m' >>= f') := by
  intro self hd hv
  show on_instruction (Op.bind m f self) = Op.bind m' f' self._updi_instruction ∧
      kept d v2 (Op.bind m f self)
  unfold Op.bind
  obtain ⟨heq, hkept⟩ := hm self hd hv
  cases hms : m self with
  | ok a s =>
    rw [hms] at heq hkept
    rw [← heq]
    exact hf a s hkept.1 hkept.2
  | thrown what s =>
    rw [hms] at heq hkept
    rw [← heq]
    exact ⟨rfl, hkept⟩
  | hang s =>
    rw [hms] at heq hkept
    rw [← heq]
    exact ⟨rfl, hkept⟩
  | fault e =>
    rw [hms] at heq
    rw [← heq]
    exact ⟨rfl, trivial⟩

theorem follows_pure {α : Type} (d : AvrDevice) (v2 : Bool) (a : α) :
    follows d v2 (pure a) (pure a) := by
  intro self hd hv
  exact ⟨rfl, hd, hv⟩

theorem follows_raise {α : Type} (d : AvrDevice) (v2 : Bool) (what : String) :
    follows d v2 (raise what : Op UpdiApplication α) (raise what) := by
  intro self hd hv
  exact ⟨rfl, hd, hv⟩

theorem follows_execute (d : AvrDevice) (v2 : Bool) (command : Nat)
    (hbase : d.nvmctrl_base_addr + 0x00 < 2 ^ 32) :
    follows d v2 (UpdiApplication.execute_nvm_command command)
      (UpdiInstruction.st (d.nvmctrl_base_addr + 0x00) command) := by
  intro self hd hv
  have hmod : (self._avr_device.nvmctrl_base_addr + 0x00) % 2 ^ 32
      = d.nvmctrl_base_addr + 0x00 := by
    rw [hd]
    exact Nat.mod_eq_of_lt hbase
  unfold UpdiApplication.execute_nvm_command
  rw [hmod]
  exact follows_instruction d v2 _ self hd hv

theorem fuse_bytes (i fuses_base : Nat) :
    ((i + fuses_base) % 2 ^ 32) &&& 0xff = (fuses_base + i) % 256 ∧
    (((i + fuses_base) % 2 ^ 32) >>> 8) &&& 0xff = ((fuses_base + i) / 256) % 256 := by
  have e : (0xff : Nat) = 0xFF := rfl
  rw [e, and_0xFF, and_0xFF, Nat.shiftRight_eq_div_pow]
  constructor <;> omega

theorem follows_fuse_write (d : AvrDevice) (fuse_number value : Nat)
    (hbase : d.nvmctrl_base_addr + 0x09 < 2 ^ 32) :
    follows d false (UpdiApplication.write_fuse_data fuse_number value)
      (claimed_fuse_write d.nvmctrl_base_addr d.fuses_base_addr fuse_number value) := by
  intro self hd hv
  have m8 : (d.nvmctrl_base_addr + 0x08) % 2 ^ 32 = d.nvmctrl_base_addr + 0x08 :=
    Nat.mod_eq_of_lt (by omega)
  have m9 : (d.nvmctrl_base_addr + 0x09) % 2 ^ 32 = d.nvmctrl_base_addr + 0x09 :=
    Nat.mod_eq_of_lt (by omega)
  have m6 : (d.nvmctrl_base_addr + 0x06) % 2 ^ 32 = d.nvmctrl_base_addr + 0x06 :=
    Nat.mod_eq_of_lt (by omega)
  have hbody : UpdiApplication.write_fuse_data fuse_number value self =
      (UpdiApplication.instruction (UpdiInstruction.ldcs 0x0B) >>= fun status =>
        if status &&& (1 <<< 3) = 0 then raise "Enter progmode first"
        else
          UpdiApplication.instruction (UpdiInstruction.st (d.nvmctrl_base_addr + 0x08)
            ((d.fuses_base_addr + fuse_number) % 256)) >>= fun _ =>
          UpdiApplication.instruction (UpdiInstruction.st (d.nvmctrl_base_addr + 0x09)
            (((d.fuses_base_addr + fuse_number) / 256) % 256)) >>= fun _ =>
          UpdiApplication.instruction (UpdiInstruction.st (d.nvmctrl_base_addr + 0x06)
            value) >>= fun _ =>
          UpdiApplication.execute_nvm_command 0x07) self := by
    unfold UpdiApplication.write_fuse_data
    rw [hv, hd]
    simp only [Bool.false_eq_true, if_false]
    rw [(fuse_bytes fuse_number d.fuses_base_addr).1,
      (fuse_bytes fuse_number d.fuses_base_addr).2, m8, m9, m6]
    unfold UpdiApplication.in_prog_mode
    simp only [op_bind_assoc, op_pure_bind]
    refine congrArg (fun k =>
      (UpdiApplication.instruction (UpdiInstruction.ldcs 0x0B) >>= k) self)
      (funext fun status => ?_)
    by_cases hs : status &&& (1 <<< 3) = 0
    · have hdec : decide (status &&& (1 <<< 3) ≠ 0) = false := decide_eq_false (not_not.mpr hs)
      have hyes : (!false) = true := rfl
      rw [hdec, if_pos hyes, if_pos hs]
    · have hdec : decide (status &&& (1 <<< 3) ≠ 0) = true := decide_eq_true hs
      have hnot : ¬ ((!true) = true) := by decide
      rw [hdec, if_neg hnot, if_neg hs]
      rfl
  have hclaimed : claimed_fuse_write d.nvmctrl_base_addr d.fuses_base_addr fuse_number value =
      (UpdiInstruction.ldcs 0x0B >>= fun status =>
        if status &&& (1 <<< 3) = 0 then raise "Enter progmode first"
        else
          UpdiInstruction.st (d.nvmctrl_base_addr + 0x08)
            ((d.fuses_base_addr + fuse_number) % 256) >>= fun _ =>
          UpdiInstruction.st (d.nvmctrl_base_addr + 0x09)
            (((d.fuses_base_addr + fuse_number) / 256) % 256) >>= fun _ =>
          UpdiInstruction.st (d.nvmctrl_base_addr + 0x06) value >>= fun _ =>
          UpdiInstruction.st (d.nvmctrl_base_addr + 0x00) 0x07) := rfl
  rw [hbody, hclaimed]
  refine follows_bind d false _ _ _ _ (follows_instruction d false _) (fun status => ?_)
    self hd hv
  by_cases hs : status &&& (1 <<< 3) = 0
  · rw [if_pos hs, if_pos hs]
    exact follows_raise d false _
  · rw [if_neg hs, if_neg hs]
    exact follows_bind d false _ _ _ _ (follows_instruction d false _) fun _ =>
      follows_bind d false _ _ _ _ (follows_instruction d false _) fun _ =>
        follows_bind d false _ _ _ _ (follows_instruction d false _) fun _ =>
          follows_execute d false 0x07 (by omega)

/-- C31: with `_pdi_v2` clear, `write_fuse_data` does on the instruction
object what the claimed sequence does: the read of ASI_SYS_STATUS and then,
when its NVMPROG bit is set, the four stores
`st(NVMCTRL + 0x08, (fuses + i) mod 256)`,
`st(NVMCTRL + 0x09, ((fuses + i) / 256) mod 256)`, `st(NVMCTRL + 0x06, v)`,
`st(NVMCTRL + 0x00, 0x07)` in this order; when that bit is clear it throws
"Enter progmode first" with the status read as the only frame written. -/
theorem C31_fuse_write_sequence (self : UpdiApplication) (fuse_number value : Nat)
    (hv1 : self._pdi_v2 = false)
    (hbase : self._avr_device.nvmctrl_base_addr + 0x09 < 2 ^ 32) :
    on_instruction (UpdiApplication.write_fuse_data fuse_number value self)
      = claimed_fuse_write self._avr_device.nvmctrl_base_addr
          self._avr_device.fuses_base_addr fuse_number value self._updi_instruction ∧
    ∀ status i, UpdiInstruction.ldcs 0x0B self._updi_instruction = .ok status i →
      status &&& (1 <<< 3) = 0 →
      UpdiApplication.write_fuse_data fuse_number value self
        = .thrown "Enter progmode first" { self with _updi_instruction := i } ∧
      frames_written i = frames_written self._updi_instruction ++ [[0x55, 0x8B]] := by
  constructor
  · exact (follows_fuse_write self._avr_device fuse_number value hbase self rfl hv1).1
  · intro status i hstatus hclear
    have a1 := instruction_ok _ self _ _ hstatus
    have hmode : UpdiApplication.in_prog_mode self
        = .ok false { self with _updi_instruction := i } := by
      unfold UpdiApplication.in_prog_mode
      rw [bind_ok _ _ _ _ _ a1]
      show Outcome.ok (decide (status &&& (1 <<< 3) ≠ 0)) _ = _
      rw [hclear]
      rfl
    refine ⟨?_, ldcs_written _ _ _ _ hstatus⟩
    unfold UpdiApplication.write_fuse_data
    rw [if_neg (by rw [hv1]; decide), bind_ok _ _ _ _ _ hmode]
    rfl

/-- Witness for C31: fuse 1 of a tiny416 in programming mode set to 0x5A
(fuse address 0x1281): nine frames, the status read and the four stores; on
a tiny416 that reports no programming mode, the status read alone. -/
theorem C31_fuse_write_sequence_witness :
    on_instruction (UpdiApplication.write_fuse_data 1 0x5A (tiny416_application fuse_target))
      = .ok () { _serial_comm :=
                   { written := [[0x55, 0x8B],
                       [0x55, 0x44, 0x08, 0x10], [0x81],
                       [0x55, 0x44, 0x09, 0x10], [0x12],
                       [0x55, 0x44, 0x06, 0x10], [0x5A],
                       [0x55, 0x44, 0x00, 0x10], [0x07]]
                     pending := [] }
                 _use_24bit_addr := false } ∧
    UpdiApplication.write_fuse_data 1 0x5A (tiny416_application refusing_target)
      = .thrown "Enter progmode first"
          { tiny416_application refusing_target with
            _updi_instruction :=
              { _serial_comm :=
                  { written := [[0x55, 0x8B]], pending := refusing_target.drop 2 }
                _use_24bit_addr := false } } :=
  ⟨(C31_fuse_write_sequence (tiny416_application fuse_target) 1 0x5A rfl (by decide)).1.trans
      (by decide),
   ((C31_fuse_write_sequence (tiny416_application refusing_target) 1 0x5A rfl (by decide)).2
      0x00
      { _serial_comm := { written := [[0x55, 0x8B]], pending := refusing_target.drop 2 }
        _use_24bit_addr := false }
      (by decide) (by decide)).1⟩

/-! ### Writing and reading words -/

theorem word_bytes (b0 b1 : Nat) (h0 : b0 < 256) (h1 : b1 < 256) :
    [(((b1 <<< 8) + b0) % 2 ^ 16) &&& 0xFF, ((((b1 <<< 8) + b0) % 2 ^ 16) >>> 8) &&& 0xFF]
      = [b0, b1] := by
  rw [and_0xFF, and_0xFF, Nat.shiftRight_eq_div_pow, Nat.shiftLeft_eq]
  have e0 : (b1 * 2 ^ 8 + b0) % 2 ^ 16 % 256 = b0 := by omega
  have e1 : (b1 * 2 ^ 8 + b0) % 2 ^ 16 / 2 ^ 8 % 256 = b1 := by omega
  rw [e0, e1]

/-- C32: `write_data_words` with two bytes is one `st16`, whose second frame
is `data[0]`, `data[1]`; with another length it throws before anything is
sent when the length is odd ("Data size should align on word width") or
above 512 ("Data size exceeds the limits"), and otherwise it is `st_ptr` with
the address, `repeat` with half the length and `st_ptr_inc16` with the data,
in this order. -/
theorem C32_write_data_words_paths (self : UpdiApplication) (address : Nat) (data : List Nat) :
    (∀ b0 b1, data = [b0, b1] → b0 < 256 → b1 < 256 →
      UpdiApplication.write_data_words address data self
        = UpdiApplication.instruction
            (UpdiInstruction.st16 address (((b1 <<< 8) + b0) % 2 ^ 16)) self ∧
      UpdiInstruction.st16 address (((b1 <<< 8) + b0) % 2 ^ 16) self._updi_instruction
        = (round_trip
            (direct_frame 0x40 0x01 self._updi_instruction._use_24bit_addr address) >>=
          fun response =>
            if no_ack response then raise "Error with st16"
            else round_trip [b0, b1] >>= fun response =>
              if no_ack response then raise "Error with st16" else pure ())
          self._updi_instruction) ∧
    (data.length ≠ 2 → data.length % 2 ≠ 0 →
      UpdiApplication.write_data_words address data self
        = .thrown "Data size should align on word width" self) ∧
    (data.length ≠ 2 → data.length % 2 = 0 → 512 < data.length →
      UpdiApplication.write_data_words address data self
        = .thrown "Data size exceeds the limits" self) ∧
    (data.length ≠ 2 → data.length % 2 = 0 → data.length ≤ 512 →
      UpdiApplication.write_data_words address data self
        = (UpdiApplication.instruction (UpdiInstruction.st_ptr address) >>= fun _ =>
            UpdiApplication.instruction (UpdiInstruction.repeat (data.length / 2)) >>= fun _ =>
            UpdiApplication.instruction (UpdiInstruction.st_ptr_inc16 data)) self) := by
  have hother : data.length ≠ 2 →
      UpdiApplication.write_data_words address data =
        if data.length % 2 ≠ 0 then raise "Data size should align on word width"
        else if data.length > (0xFF + 1) * 2 then raise "Data size exceeds the limits"
        else
          UpdiApplication.instruction (UpdiInstruction.st_ptr address) >>= fun _ =>
          UpdiApplication.instruction (UpdiInstruction.repeat (data.length / 2)) >>= fun _ =>
          UpdiApplication.instruction (UpdiInstruction.st_ptr_inc16 data) := by
    intro hlen
    match data, hlen with
    | [], _ => rfl
    | [_], _ => rfl
    | [_, _], hlen => exact (hlen rfl).elim
    | _ :: _ :: _ :: _, _ => rfl
  refine ⟨?_, ?_, ?_, ?_⟩
  · intro b0 b1 hdata h0 h1
    subst hdata
    refine ⟨rfl, ?_⟩
    have hst16 : UpdiInstruction.st16 address (((b1 <<< 8) + b0) % 2 ^ 16)
        self._updi_instruction =
        (round_trip
            (direct_frame 0x40 0x01 self._updi_instruction._use_24bit_addr address) >>=
          fun response =>
            if no_ack response then raise "Error with st16"
            else round_trip [(((b1 <<< 8) + b0) % 2 ^ 16) &&& 0xFF,
                ((((b1 <<< 8) + b0) % 2 ^ 16) >>> 8) &&& 0xFF] >>= fun response =>
              if no_ack response then raise "Error with st16" else pure ())
          self._updi_instruction := rfl
    rw [hst16, word_bytes b0 b1 h0 h1]
  · intro hlen hodd
    rw [hother hlen, if_pos hodd]
    rfl
  · intro hlen heven hbig
    rw [hother hlen, if_neg (not_not.mpr heven), if_pos (by omega)]
    rfl
  · intro hlen heven hsmall
    rw [hother hlen, if_neg (not_not.mpr heven), if_neg (by omega)]

/-- Witness for C32: the word 0x12, 0x34 at 0x3F00 of a tiny416 goes out as
the frames 55 45 00 3F and 12 34; three bytes and 514 bytes are refused;
four bytes take the pointer path. -/
theorem C32_write_data_words_paths_witness :
    UpdiApplication.write_data_words 0x3F00 [0x12, 0x34] word_line
      = UpdiApplication.instruction (UpdiInstruction.st16 0x3F00 0x3412) word_line ∧
    (UpdiApplication.instruction (UpdiInstruction.st16 0x3F00 0x3412) word_line).returned?.map
        (fun s => frames_written s._updi_instruction)
      = some [[0x55, 0x45, 0x00, 0x3F], [0x12, 0x34]] ∧
    UpdiApplication.write_data_words 0x3F00 [1, 2, 3] word_line
      = .thrown "Data size should align on word width" word_line ∧
    UpdiApplication.write_data_words 0x3F00 (List.replicate 514 0) word_line
      = .thrown "Data size exceeds the limits" word_line ∧
    UpdiApplication.write_data_words 0x3F00 [1, 2, 3, 4] word_line
      = (UpdiApplication.instruction (UpdiInstruction.st_ptr 0x3F00) >>= fun _ =>
          UpdiApplication.instruction (UpdiInstruction.repeat ([1, 2, 3, 4].length / 2)) >>=
          fun _ => UpdiApplication.instruction (UpdiInstruction.st_ptr_inc16 [1, 2, 3, 4]))
        word_line :=
  ⟨((C32_write_data_words_paths word_line 0x3F00 [0x12, 0x34]).1 0x12 0x34 rfl
      (by decide) (by decide)).1,
   by decide,
   (C32_write_data_words_paths word_line 0x3F00 [1, 2, 3]).2.1 (by decide) (by decide),
   (C32_write_data_words_paths word_line 0x3F00 (List.replicate 514 0)).2.2.1
      (by rw [List.length_replicate]; decide) (by rw [List.length_replicate])
      (by rw [List.length_replicate]; decide),
   (C32_write_data_words_paths word_line 0x3F00 [1, 2, 3, 4]).2.2.2
      (by decide) (by decide) (by decide)⟩

theorem instruction_eq_ok {α : Type} (m : Op UpdiInstruction α) (self s : UpdiApplication)
    (a : α) (h : UpdiApplication.instruction m self = .ok a s) :
    m self._updi_instruction = .ok a s._updi_instruction := by
  unfold UpdiApplication.instruction at h
  cases hm : m self._updi_instruction with
  | ok b i => rw [hm] at h; cases h; rfl
  | thrown what i => rw [hm] at h; cases h
  | hang i => rw [hm] at h; cases h
  | fault e => rw [hm] at h; cases h

theorem ld16_length (address : Nat) (self s : UpdiInstruction) (data : List Nat)
    (h : UpdiInstruction.ld16 address self = .ok data s) : data.length = 2 := by
  have unfolded : UpdiInstruction.ld16 address self =
      (UpdiInstruction.serial
          (UpdiSerial.send (direct_frame 0x00 0x01 self._use_24bit_addr address)) >>= fun _ =>
        UpdiInstruction.serial (UpdiSerial.receive 2) >>= fun response =>
          if response.length ≠ 2 then raise "Error with ld16" else pure response) self := rfl
  rw [unfolded] at h
  obtain ⟨_, s1, -, h1⟩ := bind_eq_ok _ _ _ _ _ h
  obtain ⟨response, s2, -, h2⟩ := bind_eq_ok _ _ _ _ _ h1
  by_cases hr : response.length ≠ 2
  · rw [if_pos hr] at h2
    cases h2
  · rw [if_neg hr] at h2
    cases h2
    exact not_not.mp hr

theorem ld_ptr_inc16_length (size : Nat) (self s : UpdiInstruction) (data : List Nat)
    (h : UpdiInstruction.ld_ptr_inc16 size self = .ok data s) : data.length = size * 2 := by
  unfold UpdiInstruction.ld_ptr_inc16 at h
  obtain ⟨_, s1, -, h1⟩ := bind_eq_ok _ _ _ _ _ h
  obtain ⟨response, s2, -, h2⟩ := bind_eq_ok _ _ _ _ _ h1
  by_cases hr : response.length ≠ size * 2
  · rw [if_pos hr] at h2
    cases h2
  · rw [if_neg hr] at h2
    cases h2
    exact not_not.mp hr

/-- C33: `read_data_words` throws "Read size exceeds the limit in one go"
before anything is sent when the word count is above 256; for one word it is
`ld16`, for 2 to 256 words it is `st_ptr`, `repeat` with the count and
`ld_ptr_inc16`, in this order; for 1 to 256 words, whenever it returns, it
returns twice as many bytes as words. -/
theorem C33_read_data_words_length (self : UpdiApplication) (address word_size : Nat) :
    (256 < word_size →
      UpdiApplication.read_data_words address word_size self
        = .thrown "Read size exceeds the limit in one go" self) ∧
    (word_size = 1 →
      UpdiApplication.read_data_words address word_size self
        = UpdiApplication.instruction (UpdiInstruction.ld16 address) self) ∧
    (1 < word_size → word_size ≤ 256 →
      UpdiApplication.read_data_words address word_size self
        = (UpdiApplication.instruction (UpdiInstruction.st_ptr address) >>= fun _ =>
            UpdiApplication.instruction (UpdiInstruction.repeat word_size) >>= fun _ =>
            UpdiApplication.instruction (UpdiInstruction.ld_ptr_inc16 word_size)) self) ∧
    (1 ≤ word_size → word_size ≤ 256 → ∀ data s,
      UpdiApplication.read_data_words address word_size self = .ok data s →
      data.length = 2 * word_size) := by
  have hbig : 256 < word_size →
      UpdiApplication.read_data_words address word_size self
        = .thrown "Read size exceeds the limit in one go" self := by
    intro h
    unfold UpdiApplication.read_data_words
    rw [if_pos (by omega)]
    rfl
  have hone : word_size = 1 →
      UpdiApplication.read_data_words address word_size self
        = UpdiApplication.instruction (UpdiInstruction.ld16 address) self := by
    intro h
    unfold UpdiApplication.read_data_words
    rw [if_neg (by omega), if_pos h]
  have hmany : 1 < word_size → word_size ≤ 256 →
      UpdiApplication.read_data_words address word_size self
        = (UpdiApplication.instruction (UpdiInstruction.st_ptr address) >>= fun _ =>
            UpdiApplication.instruction (UpdiInstruction.repeat word_size) >>= fun _ =>
            UpdiApplication.instruction (UpdiInstruction.ld_ptr_inc16 word_size)) self := by
    intro h1 h2
    unfold UpdiApplication.read_data_words
    rw [if_neg (by omega), if_neg (by omega)]
  refine ⟨hbig, hone, hmany, ?_⟩
  intro hlow hhigh data s hret
  by_cases h1 : word_size = 1
  · rw [hone h1] at hret
    have := ld16_length _ _ _ _ (instruction_eq_ok _ _ _ _ hret)
    omega
  · rw [hmany (by omega) hhigh] at hret
    obtain ⟨_, s1, -, hret1⟩ := bind_eq_ok _ _ _ _ _ hret
    obtain ⟨_, s2, -, hret2⟩ := bind_eq_ok _ _ _ _ _ hret1
    have := ld_ptr_inc16_length _ _ _ _ (instruction_eq_ok _ _ _ _ hret2)
    omega

/-- Witness for C33: 257 words are refused; 32 words at 0x8000 of a tiny416
that delivers 64 bytes come back as 64 bytes. -/
theorem C33_read_data_words_length_witness :
    UpdiApplication.read_data_words 0x8000 257
        (tiny416_application (read_tiny416 0x00 0x80 (List.replicate 64 0xAA)))
      = .thrown "Read size exceeds the limit in one go"
        (tiny416_application (read_tiny416 0x00 0x80 (List.replicate 64 0xAA))) ∧
    UpdiApplication.read_data_words 0x8000 32
        (tiny416_application (read_tiny416 0x00 0x80 (List.replicate 64 0xAA)))
      = .ok (List.replicate 64 0xAA)
          { _updi_instruction :=
              { _serial_comm :=
                  { written := [[0x55, 0x69, 0x00, 0x80], [0x55, 0xA0, 0x1F], [0x55, 0x25]]
                    pending := [] }
                _use_24bit_addr := false }
            _avr_device := AvrDevice.AvrDevice "tiny416"
            _pdi_v2 := false
            clock_readings := 0 } ∧
    (List.replicate 64 0xAA).length = 2 * 32 :=
  ⟨(C33_read_data_words_length
      (tiny416_application (read_tiny416 0x00 0x80 (List.replicate 64 0xAA))) 0x8000 257).1
      (by decide),
   by decide,
   (C33_read_data_words_length
      (tiny416_application (read_tiny416 0x00 0x80 (List.replicate 64 0xAA))) 0x8000 32).2.2.2
      (by decide) (by decide) (List.replicate 64 0xAA)
      { _updi_instruction :=
          { _serial_comm :=
              { written := [[0x55, 0x69, 0x00, 0x80], [0x55, 0xA0, 0x1F], [0x55, 0x25]]
                pending := [] }
            _use_24bit_addr := false }
        _avr_device := AvrDevice.AvrDevice "tiny416"
        _pdi_v2 := false
        clock_readings := 0 }
      (by decide)⟩

/-! ### The receive loop -/

theorem receive_loop_starved (expected_size : Nat) (written : List (List Nat)) :
    ∀ (timeouts : Nat) (data : List Nat), data.length < expected_size →
      UpdiSerial.receive_loop expected_size written data (List.replicate timeouts (some []))
        = .hang { written := written, pending := [] } := by
  intro timeouts
  induction timeouts with
  | zero =>
    intro data hshort
    show UpdiSerial.receive_loop expected_size written data [] = _
    unfold UpdiSerial.receive_loop
    rw [if_pos hshort]
  | succ n ih =>
    intro data hshort
    rw [List.replicate_succ]
    unfold UpdiSerial.receive_loop
    rw [if_pos hshort]
    have hfit : ([] : List Nat).length ≤ expected_size - data.length := Nat.zero_le _
    simp only [hfit, if_true, List.append_nil]
    exact ih data hshort

theorem receive_loop_full (expected_size : Nat) (written : List (List Nat)) :
    ∀ (pending : List (Option (List Nat))) (data : List Nat), data.length ≤ expected_size →
    ∀ (result : List Nat) (s : UpdiSerial),
      UpdiSerial.receive_loop expected_size written data pending = .ok result s →
      result.length = expected_size ∨ result = [] := by
  intro pending
  induction pending with
  | nil =>
    intro data hle result s h
    unfold UpdiSerial.receive_loop at h
    by_cases hshort : data.length < expected_size
    · rw [if_pos hshort] at h
      cases h
    · rw [if_neg hshort] at h
      cases h
      left
      omega
  | cons event rest ih =>
    intro data hle result s h
    unfold UpdiSerial.receive_loop at h
    by_cases hshort : data.length < expected_size
    · rw [if_pos hshort] at h
      cases event with
      | none =>
        cases h
        right
        rfl
      | some bytes =>
        by_cases hfit : bytes.length ≤ expected_size - data.length
        · simp only [hfit, if_true] at h
          exact ih (data ++ bytes) (by rw [List.length_append]; omega) result s h
        · simp only [hfit, if_false] at h
          cases h
          left
          rw [List.length_append, List.length_take]
          omega
    · rw [if_neg hshort] at h
      cases h
      left
      omega

/-- C35 (source at variance): `receive` does not end when the bytes stop
coming. On a port where one of two bytes arrives and every read after it
times out, `receive(data, 2)` never returns; it is so for every count of
timeouts and every number of bytes short of the expected one. What
`receive` returns, when it returns, has the expected size or, after a failed
read, no byte at all: never a part of the bytes. After a failed read it
returns normally, with the empty buffer. -/
theorem C35_receive_waits_without_end (expected_size timeouts : Nat) (self : UpdiSerial)
    (written : List (List Nat)) (data : List Nat) :
    UpdiSerial.receive 2 silent_after_one_byte = .hang { written := [], pending := [] } ∧
    (data.length < expected_size →
      UpdiSerial.receive_loop expected_size written data (List.replicate timeouts (some []))
        = .hang { written := written, pending := [] }) ∧
    (∀ result s, UpdiSerial.receive expected_size self = .ok result s →
      result.length = expected_size ∨ result = []) ∧
    UpdiSerial.receive 2 { written := [], pending := [some [0x11], none, some [0x22]] }
      = .ok [] { written := [], pending := [some [0x22]] } := by
  refine ⟨by decide, receive_loop_starved expected_size written timeouts data, ?_, by decide⟩
  intro result s h
  exact receive_loop_full expected_size self.written self.pending [] (Nat.zero_le _) result s h

/-- Witness for C35: with three timeouts behind the first of two bytes the
loop does not end; on a port that delivers both bytes `receive` returns
them. -/
theorem C35_receive_waits_without_end_witness :
    UpdiSerial.receive_loop 2 [] [0x11] (List.replicate 3 (some []))
      = .hang { written := [], pending := [] } ∧
    (([0x11, 0x22] : List Nat).length = 2 ∨ ([0x11, 0x22] : List Nat) = []) :=
  ⟨(C35_receive_waits_without_end 2 3 { written := [], pending := [some [0x11, 0x22]] }
      [] [0x11]).2.1 (by decide),
   (C35_receive_waits_without_end 2 3 { written := [], pending := [some [0x11, 0x22]] }
      [] [0x11]).2.2.1 [0x11, 0x22] { written := [], pending := [] } (by decide)⟩

/-! ### Waiting for the flash -/

theorem all_pure {σ α : Type} (P : σ → Prop) (a : α) (self : σ) (h : P self) :
    Outcome.all P ((pure a : Op σ α) self) := h

theorem all_raise {σ α : Type} (P : σ → Prop) (what : String) (self : σ) (h : P self) :
    Outcome.all P ((raise what : Op σ α) self) := h

theorem all_bind {σ α β : Type} (P : σ → Prop) (m : Op σ α) (f : α → Op σ β) (self : σ)
    (hm : Outcome.all P (m self)) (hf : ∀ a s, P s → Outcome.all P (f a s)) :
    Outcome.all P ((m >>= f) self) := by
  show Outcome.all P (Op.bind m f self)
  unfold Op.bind
  cases h : m self with
  | ok a s1 =>
    rw [h] at hm
    exact hf a s1 hm
  | thrown what s1 =>
    rw [h] at hm
    exact hm
  | hang s1 =>
    rw [h] at hm
    exact hm
  | fault e => trivial

theorem all_serial {α : Type} (wide : Bool) (m : Op UpdiSerial α) (self : UpdiInstruction)
    (h : addressing wide self) : Outcome.all (addressing wide) (UpdiInstruction.serial m self) := by
  unfold UpdiInstruction.serial
  cases m self._serial_comm with
  | ok a c => exact h
  | thrown what c => exact h
  | hang c => exact h
  | fault e => trivial

theorem all_thrown {σ α : Type} (P : σ → Prop) (what : String) (self : σ) (h : P self) :
    Outcome.all P (Outcome.thrown what self : Outcome σ α) := h

theorem all_hang {σ α : Type} (P : σ → Prop) (self : σ) (h : P self) :
    Outcome.all P (Outcome.hang self : Outcome σ α) := h

theorem all_fault {σ α : Type} (P : σ → Prop) (e : Fault) :
    Outcome.all P (Outcome.fault e : Outcome σ α) := trivial

theorem all_mono {σ α : Type} (P Q : σ → Prop) (h : ∀ s, P s → Q s) (o : Outcome σ α)
    (ho : Outcome.all P o) : Outcome.all Q o := by
  cases o with
  | ok a s => exact h s ho
  | thrown what s => exact h s ho
  | hang s => exact h s ho
  | fault e => trivial

theorem ldcs_addressing (wide : Bool) (reg_addr : Nat) (self : UpdiInstruction)
    (h : addressing wide self) :
    Outcome.all (addressing wide) (UpdiInstruction.ldcs reg_addr self) := by
  unfold UpdiInstruction.ldcs
  repeat' first
    | with_reducible assumption
    | with_reducible apply all_bind
    | with_reducible apply all_pure
    | with_reducible apply all_raise
    | with_reducible apply all_thrown
    | with_reducible apply all_hang
    | with_reducible apply all_fault
    | with_reducible apply all_serial
    | intro _ _ _
    | intro _ _
    | split
    | dsimp only

theorem stcs_addressing (wide : Bool) (reg_address value : Nat) (self : UpdiInstruction)
    (h : addressing wide self) :
    Outcome.all (addressing wide) (UpdiInstruction.stcs reg_address value self) := by
  unfold UpdiInstruction.stcs
  repeat' first
    | with_reducible assumption
    | with_reducible apply all_bind
    | with_reducible apply all_pure
    | with_reducible apply all_raise
    | with_reducible apply all_thrown
    | with_reducible apply all_hang
    | with_reducible apply all_fault
    | with_reducible apply all_serial
    | intro _ _ _
    | intro _ _
    | split
    | dsimp only

theorem ld_addressing (wide : Bool) (address : Nat) (self : UpdiInstruction)
    (h : addressing wide self) :
    Outcome.all (addressing wide) (UpdiInstruction.ld address self) := by
  unfold UpdiInstruction.ld
  repeat' first
    | with_reducible assumption
    | with_reducible apply all_bind
    | with_reducible apply all_pure
    | with_reducible apply all_raise
    | with_reducible apply all_thrown
    | with_reducible apply all_hang
    | with_reducible apply all_fault
    | with_reducible apply all_serial
    | intro _ _ _
    | intro _ _
    | split
    | dsimp only

theorem ld16_addressing (wide : Bool) (address : Nat) (self : UpdiInstruction)
    (h : addressing wide self) :
    Outcome.all (addressing wide) (UpdiInstruction.ld16 address self) := by
  unfold UpdiInstruction.ld16
  repeat' first
    | with_reducible assumption
    | with_reducible apply all_bind
    | with_reducible apply all_pure
    | with_reducible apply all_raise
    | with_reducible apply all_thrown
    | with_reducible apply all_hang
    | with_reducible apply all_fault
    | with_reducible apply all_serial
    | intro _ _ _
    | intro _ _
    | split
    | dsimp only

theorem st_addressing (wide : Bool) (address value : Nat) (self : UpdiInstruction)
    (h : addressing wide self) :
    Outcome.all (addressing wide) (UpdiInstruction.st address value self) := by
  unfold UpdiInstruction.st
  repeat' first
    | with_reducible assumption
    | with_reducible apply all_bind
    | with_reducible apply all_pure
    | with_reducible apply all_raise
    | with_reducible apply all_thrown
    | with_reducible apply all_hang
    | with_reducible apply all_fault
    | with_reducible apply all_serial
    | intro _ _ _
    | intro _ _
    | split
    | dsimp only

theorem st16_addressing (wide : Bool) (address value : Nat) (self : UpdiInstruction)
    (h : addressing wide self) :
    Outcome.all (addressing wide) (UpdiInstruction.st16 address value self) := by
  unfold UpdiInstruction.st16
  repeat' first
    | with_reducible assumption
    | with_reducible apply all_bind
    | with_reducible apply all_pure
    | with_reducible apply all_raise
    | with_reducible apply all_thrown
    | with_reducible apply all_hang
    | with_reducible apply all_fault
    | with_reducible apply all_serial
    | intro _ _ _
    | intro _ _
    | split
    | dsimp only

theorem ld_ptr_inc_addressing (wide : Bool) (size : Nat) (self : UpdiInstruction)
    (h : addressing wide self) :
    Outcome.all (addressing wide) (UpdiInstruction.ld_ptr_inc size self) := by
  unfold UpdiInstruction.ld_ptr_inc
  repeat' first
    | with_reducible assumption
    | with_reducible apply all_bind
    | with_reducible apply all_pure
    | with_reducible apply all_raise
    | with_reducible apply all_thrown
    | with_reducible apply all_hang
    | with_reducible apply all_fault
    | with_reducible apply all_serial
    | intro _ _ _
    | intro _ _
    | split
    | dsimp only

theorem ld_ptr_inc16_addressing (wide : Bool) (size : Nat) (self : UpdiInstruction)
    (h : addressing wide self) :
    Outcome.all (addressing wide) (UpdiInstruction.ld_ptr_inc16 size self) := by
  unfold UpdiInstruction.ld_ptr_inc16
  repeat' first
    | with_reducible assumption
    | with_reducible apply all_bind
    | with_reducible apply all_pure
    | with_reducible apply all_raise
    | with_reducible apply all_thrown
    | with_reducible apply all_hang
    | with_reducible apply all_fault
    | with_reducible apply all_serial
    | intro _ _ _
    | intro _ _
    | split
    | dsimp only

theorem st_ptr_addressing (wide : Bool) (address : Nat) (self : UpdiInstruction)
    (h : addressing wide self) :
    Outcome.all (addressing wide) (UpdiInstruction.st_ptr address self) := by
  unfold UpdiInstruction.st_ptr
  repeat' first
    | with_reducible assumption
    | with_reducible apply all_bind
    | with_reducible apply all_pure
    | with_reducible apply all_raise
    | with_reducible apply all_thrown
    | with_reducible apply all_hang
    | with_reducible apply all_fault
    | with_reducible apply all_serial
    | intro _ _ _
    | intro _ _
    | split
    | dsimp only

theorem st_ptr_inc_rest_addressing (wide : Bool) (data : List Nat) :
    ∀ self : UpdiInstruction, addressing wide self →
      Outcome.all (addressing wide) (UpdiInstruction.st_ptr_inc_rest data self) := by
  induction data with
  | nil =>
    intro self h
    exact h
  | cons byte rest ih =>
    intro self h
    unfold UpdiInstruction.st_ptr_inc_rest
    repeat' first
      | with_reducible assumption
      | with_reducible apply all_bind
      | with_reducible apply all_pure
      | with_reducible apply all_raise
      | with_reducible apply all_thrown
      | with_reducible apply all_hang
      | with_reducible apply all_fault
      | with_reducible apply all_serial
      | with_reducible apply ih
      | intro _ _ _
      | intro _ _
      | split
      | dsimp only

theorem st_ptr_inc_addressing (wide : Bool) (data : List Nat) (self : UpdiInstruction)
    (h : addressing wide self) :
    Outcome.all (addressing wide) (UpdiInstruction.st_ptr_inc data self) := by
  unfold UpdiInstruction.st_ptr_inc
  repeat' first
    | with_reducible assumption
    | with_reducible apply all_bind
    | with_reducible apply all_pure
    | with_reducible apply all_raise
    | with_reducible apply all_thrown
    | with_reducible apply all_hang
    | with_reducible apply all_fault
    | with_reducible apply all_serial
    | with_reducible apply st_ptr_inc_rest_addressing
    | intro _ _ _
    | intro _ _
    | split
    | dsimp only

theorem st_ptr_inc16_addressing (wide : Bool) (data : List Nat) (self : UpdiInstruction)
    (h : addressing wide self) :
    Outcome.all (addressing wide) (UpdiInstruction.st_ptr_inc16 data self) := by
  unfold UpdiInstruction.st_ptr_inc16
  repeat' first
    | with_reducible assumption
    | with_reducible apply all_bind
    | with_reducible apply all_pure
    | with_reducible apply all_raise
    | with_reducible apply all_thrown
    | with_reducible apply all_hang
    | with_reducible apply all_fault
    | with_reducible apply all_serial
    | with_reducible apply stcs_addressing
    | intro _ _ _
    | intro _ _
    | split
    | dsimp only

theorem repeat_addressing (wide : Bool) (repeats : Nat) (self : UpdiInstruction)
    (h : addressing wide self) :
    Outcome.all (addressing wide) (UpdiInstruction.repeat repeats self) := by
  unfold UpdiInstruction.repeat
  repeat' first
    | with_reducible assumption
    | with_reducible apply all_bind
    | with_reducible apply all_pure
    | with_reducible apply all_raise
    | with_reducible apply all_thrown
    | with_reducible apply all_hang
    | with_reducible apply all_fault
    | with_reducible apply all_serial
    | intro _ _ _
    | intro _ _
    | split
    | dsimp only

theorem read_sib_addressing (wide : Bool) (self : UpdiInstruction)
    (h : addressing wide self) :
    Outcome.all (addressing wide) (UpdiInstruction.read_sib self) := by
  unfold UpdiInstruction.read_sib
  repeat' first
    | with_reducible assumption
    | with_reducible apply all_bind
    | with_reducible apply all_pure
    | with_reducible apply all_raise
    | with_reducible apply all_thrown
    | with_reducible apply all_hang
    | with_reducible apply all_fault
    | with_reducible apply all_serial
    | intro _ _ _
    | intro _ _
    | split
    | dsimp only

theorem key_addressing (wide : Bool) (key : List Nat) (self : UpdiInstruction)
    (h : addressing wide self) :
    Outcome.all (addressing wide) (UpdiInstruction.key key self) := by
  unfold UpdiInstruction.key
  repeat' first
    | with_reducible assumption
    | with_reducible apply all_bind
    | with_reducible apply all_pure
    | with_reducible apply all_raise
    | with_reducible apply all_thrown
    | with_reducible apply all_hang
    | with_reducible apply all_fault
    | with_reducible apply all_serial
    | intro _ _ _
    | intro _ _
    | split
    | dsimp only

theorem updi_is_ready_addressing (wide : Bool) (self : UpdiInstruction)
    (h : addressing wide self) :
    Outcome.all (addressing wide) (UpdiInstruction.updi_is_ready self) := by
  unfold UpdiInstruction.updi_is_ready
  repeat' first
    | with_reducible assumption
    | with_reducible apply all_bind
    | with_reducible apply all_pure
    | with_reducible apply all_raise
    | with_reducible apply all_thrown
    | with_reducible apply all_hang
    | with_reducible apply all_fault
    | with_reducible apply all_serial
    | with_reducible apply ldcs_addressing
    | intro _ _ _
    | intro _ _
    | split
    | dsimp only

theorem all_now (v2 wide : Bool) (clock : Nat → Nat) (self : UpdiApplication)
    (h : flags v2 wide self) : Outcome.all (flags v2 wide) (UpdiApplication.now clock self) := h

theorem all_instruction {α : Type} (v2 wide : Bool) (m : Op UpdiInstruction α)
    (self : UpdiApplication) (h : flags v2 wide self)
    (hm : ∀ i, addressing wide i → Outcome.all (addressing wide) (m i)) :
    Outcome.all (flags v2 wide) (UpdiApplication.instruction m self) := by
  have hi := hm self._updi_instruction h.2
  unfold UpdiApplication.instruction
  cases hr : m self._updi_instruction with
  | ok a i =>
    rw [hr] at hi
    exact ⟨h.1, hi⟩
  | thrown what i =>
    rw [hr] at hi
    exact ⟨h.1, hi⟩
  | hang i =>
    rw [hr] at hi
    exact ⟨h.1, hi⟩
  | fault e => trivial

theorem in_prog_mode_flags (v2 wide : Bool) (self : UpdiApplication)
    (h : flags v2 wide self) :
    Outcome.all (flags v2 wide) (UpdiApplication.in_prog_mode self) := by
  unfold UpdiApplication.in_prog_mode
  repeat' first
    | with_reducible assumption
    | with_reducible apply all_bind
    | with_reducible apply all_pure
    | with_reducible apply all_raise
    | with_reducible apply all_thrown
    | with_reducible apply all_hang
    | with_reducible apply all_fault
    | with_reducible apply all_now
    | with_reducible apply all_instruction
    | with_reducible apply ldcs_addressing
    | with_reducible apply stcs_addressing
    | with_reducible apply ld_addressing
    | with_reducible apply ld16_addressing
    | with_reducible apply st_addressing
    | with_reducible apply st16_addressing
    | with_reducible apply ld_ptr_inc_addressing
    | with_reducible apply ld_ptr_inc16_addressing
    | with_reducible apply st_ptr_addressing
    | with_reducible apply st_ptr_inc_addressing
    | with_reducible apply st_ptr_inc16_addressing
    | with_reducible apply repeat_addressing
    | with_reducible apply read_sib_addressing
    | with_reducible apply key_addressing
    | with_reducible apply updi_is_ready_addressing
    | intro _ _ _
    | intro _ _
    | split
    | dsimp only

theorem write_progmode_key_flags (v2 wide : Bool) (self : UpdiApplication)
    (h : flags v2 wide self) :
    Outcome.all (flags v2 wide) (UpdiApplication.write_progmode_key self) := by
  unfold UpdiApplication.write_progmode_key
  repeat' first
    | with_reducible assumption
    | with_reducible apply all_bind
    | with_reducible apply all_pure
    | with_reducible apply all_raise
    | with_reducible apply all_thrown
    | with_reducible apply all_hang
    | with_reducible apply all_fault
    | with_reducible apply all_now
    | with_reducible apply all_instruction
    | with_reducible apply in_prog_mode_flags
    | with_reducible apply ldcs_addressing
    | with_reducible apply stcs_addressing
    | with_reducible apply ld_addressing
    | with_reducible apply ld16_addressing
    | with_reducible apply st_addressing
    | with_reducible apply st16_addressing
    | with_reducible apply ld_ptr_inc_addressing
    | with_reducible apply ld_ptr_inc16_addressing
    | with_reducible apply st_ptr_addressing
    | with_reducible apply st_ptr_inc_addressing
    | with_reducible apply st_ptr_inc16_addressing
    | with_reducible apply repeat_addressing
    | with_reducible apply read_sib_addressing
    | with_reducible apply key_addressing
    | with_reducible apply updi_is_ready_addressing
    | intro _ _ _
    | intro _ _
    | split
    | dsimp only

theorem reset_wait_flags (v2 wide : Bool) (clock : Nat → Nat) (start : Nat) (rounds : Nat) :
    ∀ self : UpdiApplication, flags v2 wide self →
      Outcome.all (flags v2 wide) (UpdiApplication.reset_wait clock start rounds self) := by
  induction rounds with
  | zero =>
    intro self h
    exact h
  | succ rounds ih =>
    intro self h
    unfold UpdiApplication.reset_wait
    repeat' first
      | with_reducible assumption
      | with_reducible apply all_bind
      | with_reducible apply all_pure
      | with_reducible apply all_raise
      | with_reducible apply all_thrown
      | with_reducible apply all_hang
      | with_reducible apply all_fault
      | with_reducible apply all_now
      | with_reducible apply all_instruction
      | with_reducible apply ih
      | with_reducible apply ldcs_addressing
      | with_reducible apply stcs_addressing
      | with_reducible apply ld_addressing
      | with_reducible apply ld16_addressing
      | with_reducible apply st_addressing
      | with_reducible apply st16_addressing
      | with_reducible apply ld_ptr_inc_addressing
      | with_reducible apply ld_ptr_inc16_addressing
      | with_reducible apply st_ptr_addressing
      | with_reducible apply st_ptr_inc_addressing
      | with_reducible apply st_ptr_inc16_addressing
      | with_reducible apply repeat_addressing
      | with_reducible apply read_sib_addressing
      | with_reducible apply key_addressing
      | with_reducible apply updi_is_ready_addressing
      | intro _ _ _
      | intro _ _
      | split
      | dsimp only

theorem reset_flags (v2 wide : Bool) (clock : Nat → Nat) (apply_reset : Bool) (self : UpdiApplication)
    (h : flags v2 wide self) :
    Outcome.all (flags v2 wide) (UpdiApplication.reset clock apply_reset self) := by
  unfold UpdiApplication.reset
  repeat' first
    | with_reducible assumption
    | with_reducible apply all_bind
    | with_reducible apply all_pure
    | with_reducible apply all_raise
    | with_reducible apply all_thrown
    | with_reducible apply all_hang
    | with_reducible apply all_fault
    | with_reducible apply all_now
    | with_reducible apply all_instruction
    | with_reducible apply reset_wait_flags
    | with_reducible apply ldcs_addressing
    | with_reducible apply stcs_addressing
    | with_reducible apply ld_addressing
    | with_reducible apply ld16_addressing
    | with_reducible apply st_addressing
    | with_reducible apply st16_addressing
    | with_reducible apply ld_ptr_inc_addressing
    | with_reducible apply ld_ptr_inc16_addressing
    | with_reducible apply st_ptr_addressing
    | with_reducible apply st_ptr_inc_addressing
    | with_reducible apply st_ptr_inc16_addressing
    | with_reducible apply repeat_addressing
    | with_reducible apply read_sib_addressing
    | with_reducible apply key_addressing
    | with_reducible apply updi_is_ready_addressing
    | intro _ _ _
    | intro _ _
    | split
    | dsimp only

theorem wait_unlocked_loop_flags (v2 wide : Bool) (clock : Nat → Nat) (start timeout_ms : Nat) (rounds : Nat) :
    ∀ self : UpdiApplication, flags v2 wide self →
      Outcome.all (flags v2 wide) (UpdiApplication.wait_unlocked_loop clock start timeout_ms rounds self) := by
  induction rounds with
  | zero =>
    intro self h
    exact h
  | succ rounds ih =>
    intro self h
    unfold UpdiApplication.wait_unlocked_loop
    repeat' first
      | with_reducible assumption
      | with_reducible apply all_bind
      | with_reducible apply all_pure
      | with_reducible apply all_raise
      | with_reducible apply all_thrown
      | with_reducible apply all_hang
      | with_reducible apply all_fault
      | with_reducible apply all_now
      | with_reducible apply all_instruction
      | with_reducible apply ih
      | with_reducible apply ldcs_addressing
      | with_reducible apply stcs_addressing
      | with_reducible apply ld_addressing
      | with_reducible apply ld16_addressing
      | with_reducible apply st_addressing
      | with_reducible apply st16_addressing
      | with_reducible apply ld_ptr_inc_addressing
      | with_reducible apply ld_ptr_inc16_addressing
      | with_reducible apply st_ptr_addressing
      | with_reducible apply st_ptr_inc_addressing
      | with_reducible apply st_ptr_inc16_addressing
      | with_reducible apply repeat_addressing
      | with_reducible apply read_sib_addressing
      | with_reducible apply key_addressing
      | with_reducible apply updi_is_ready_addressing
      | intro _ _ _
      | intro _ _
      | split
      | dsimp only

theorem wait_unlocked_flags (v2 wide : Bool) (clock : Nat → Nat) (timeout_ms : Nat) (self : UpdiApplication)
    (h : flags v2 wide self) :
    Outcome.all (flags v2 wide) (UpdiApplication.wait_unlocked clock timeout_ms self) := by
  unfold UpdiApplication.wait_unlocked
  repeat' first
    | with_reducible assumption
    | with_reducible apply all_bind
    | with_reducible apply all_pure
    | with_reducible apply all_raise
    | with_reducible apply all_thrown
    | with_reducible apply all_hang
    | with_reducible apply all_fault
    | with_reducible apply all_now
    | with_reducible apply all_instruction
    | with_reducible apply wait_unlocked_loop_flags
    | with_reducible apply ldcs_addressing
    | with_reducible apply stcs_addressing
    | with_reducible apply ld_addressing
    | with_reducible apply ld16_addressing
    | with_reducible apply st_addressing
    | with_reducible apply st16_addressing
    | with_reducible apply ld_ptr_inc_addressing
    | with_reducible apply ld_ptr_inc16_addressing
    | with_reducible apply st_ptr_addressing
    | with_reducible apply st_ptr_inc_addressing
    | with_reducible apply st_ptr_inc16_addressing
    | with_reducible apply repeat_addressing
    | with_reducible apply read_sib_addressing
    | with_reducible apply key_addressing
    | with_reducible apply updi_is_ready_addressing
    | intro _ _ _
    | intro _ _
    | split
    | dsimp only

theorem unlock_flags (v2 wide : Bool) (clock : Nat → Nat) (self : UpdiApplication)
    (h : flags v2 wide self) :
    Outcome.all (flags v2 wide) (UpdiApplication.unlock clock self) := by
  unfold UpdiApplication.unlock
  repeat' first
    | with_reducible assumption
    | with_reducible apply all_bind
    | with_reducible apply all_pure
    | with_reducible apply all_raise
    | with_reducible apply all_thrown
    | with_reducible apply all_hang
    | with_reducible apply all_fault
    | with_reducible apply all_now
    | with_reducible apply all_instruction
    | with_reducible apply write_progmode_key_flags
    | with_reducible apply reset_flags
    | with_reducible apply wait_unlocked_flags
    | with_reducible apply ldcs_addressing
    | with_reducible apply stcs_addressing
    | with_reducible apply ld_addressing
    | with_reducible apply ld16_addressing
    | with_reducible apply st_addressing
    | with_reducible apply st16_addressing
    | with_reducible apply ld_ptr_inc_addressing
    | with_reducible apply ld_ptr_inc16_addressing
    | with_reducible apply st_ptr_addressing
    | with_reducible apply st_ptr_inc_addressing
    | with_reducible apply st_ptr_inc16_addressing
    | with_reducible apply repeat_addressing
    | with_reducible apply read_sib_addressing
    | with_reducible apply key_addressing
    | with_reducible apply updi_is_ready_addressing
    | intro _ _ _
    | intro _ _
    | split
    | dsimp only

theorem progmode_wait_flags (v2 wide : Bool) (clock : Nat → Nat) (start : Nat) (rounds : Nat) :
    ∀ self : UpdiApplication, flags v2 wide self →
      Outcome.all (flags v2 wide) (UpdiApplication.progmode_wait clock start rounds self) := by
  induction rounds with
  | zero =>
    intro self h
    exact h
  | succ rounds ih =>
    intro self h
    unfold UpdiApplication.progmode_wait
    repeat' first
      | with_reducible assumption
      | with_reducible apply all_bind
      | with_reducible apply all_pure
      | with_reducible apply all_raise
      | with_reducible apply all_thrown
      | with_reducible apply all_hang
      | with_reducible apply all_fault
      | with_reducible apply all_now
      | with_reducible apply all_instruction
      | with_reducible apply ih
      | with_reducible apply ldcs_addressing
      | with_reducible apply stcs_addressing
      | with_reducible apply ld_addressing
      | with_reducible apply ld16_addressing
      | with_reducible apply st_addressing
      | with_reducible apply st16_addressing
      | with_reducible apply ld_ptr_inc_addressing
      | with_reducible apply ld_ptr_inc16_addressing
      | with_reducible apply st_ptr_addressing
      | with_reducible apply st_ptr_inc_addressing
      | with_reducible apply st_ptr_inc16_addressing
      | with_reducible apply repeat_addressing
      | with_reducible apply read_sib_addressing
      | with_reducible apply key_addressing
      | with_reducible apply updi_is_ready_addressing
      | intro _ _ _
      | intro _ _
      | split
      | dsimp only

theorem enter_progmode_flags (v2 wide : Bool) (clock : Nat → Nat) (self : UpdiApplication)
    (h : flags v2 wide self) :
    Outcome.all (flags v2 wide) (UpdiApplication.enter_progmode clock self) := by
  unfold UpdiApplication.enter_progmode
  repeat' first
    | with_reducible assumption
    | with_reducible apply all_bind
    | with_reducible apply all_pure
    | with_reducible apply all_raise
    | with_reducible apply all_thrown
    | with_reducible apply all_hang
    | with_reducible apply all_fault
    | with_reducible apply all_now
    | with_reducible apply all_instruction
    | with_reducible apply write_progmode_key_flags
    | with_reducible apply reset_flags
    | with_reducible apply progmode_wait_flags
    | with_reducible apply in_prog_mode_flags
    | with_reducible apply ldcs_addressing
    | with_reducible apply stcs_addressing
    | with_reducible apply ld_addressing
    | with_reducible apply ld16_addressing
    | with_reducible apply st_addressing
    | with_reducible apply st16_addressing
    | with_reducible apply ld_ptr_inc_addressing
    | with_reducible apply ld_ptr_inc16_addressing
    | with_reducible apply st_ptr_addressing
    | with_reducible apply st_ptr_inc_addressing
    | with_reducible apply st_ptr_inc16_addressing
    | with_reducible apply repeat_addressing
    | with_reducible apply read_sib_addressing
    | with_reducible apply key_addressing
    | with_reducible apply updi_is_ready_addressing
    | intro _ _ _
    | intro _ _
    | split
    | dsimp only

theorem leave_progmode_flags (v2 wide : Bool) (clock : Nat → Nat) (self : UpdiApplication)
    (h : flags v2 wide self) :
    Outcome.all (flags v2 wide) (UpdiApplication.leave_progmode clock self) := by
  unfold UpdiApplication.leave_progmode
  repeat' first
    | with_reducible assumption
    | with_reducible apply all_bind
    | with_reducible apply all_pure
    | with_reducible apply all_raise
    | with_reducible apply all_thrown
    | with_reducible apply all_hang
    | with_reducible apply all_fault
    | with_reducible apply all_now
    | with_reducible apply all_instruction
    | with_reducible apply reset_flags
    | with_reducible apply ldcs_addressing
    | with_reducible apply stcs_addressing
    | with_reducible apply ld_addressing
    | with_reducible apply ld16_addressing
    | with_reducible apply st_addressing
    | with_reducible apply st16_addressing
    | with_reducible apply ld_ptr_inc_addressing
    | with_reducible apply ld_ptr_inc16_addressing
    | with_reducible apply st_ptr_addressing
    | with_reducible apply st_ptr_inc_addressing
    | with_reducible apply st_ptr_inc16_addressing
    | with_reducible apply repeat_addressing
    | with_reducible apply read_sib_addressing
    | with_reducible apply key_addressing
    | with_reducible apply updi_is_ready_addressing
    | intro _ _ _
    | intro _ _
    | split
    | dsimp only

theorem wait_flash_ready_loop_flags (v2 wide : Bool) (clock : Nat → Nat) (start : Nat) (rounds : Nat) :
    ∀ self : UpdiApplication, flags v2 wide self →
      Outcome.all (flags v2 wide) (UpdiApplication.wait_flash_ready_loop clock start rounds self) := by
  induction rounds with
  | zero =>
    intro self h
    exact h
  | succ rounds ih =>
    intro self h
    unfold UpdiApplication.wait_flash_ready_loop
    repeat' first
      | with_reducible assumption
      | with_reducible apply all_bind
      | with_reducible apply all_pure
      | with_reducible apply all_raise
      | with_reducible apply all_thrown
      | with_reducible apply all_hang
      | with_reducible apply all_fault
      | with_reducible apply all_now
      | with_reducible apply all_instruction
      | with_reducible apply ih
      | with_reducible apply ldcs_addressing
      | with_reducible apply stcs_addressing
      | with_reducible apply ld_addressing
      | with_reducible apply ld16_addressing
      | with_reducible apply st_addressing
      | with_reducible apply st16_addressing
      | with_reducible apply ld_ptr_inc_addressing
      | with_reducible apply ld_ptr_inc16_addressing
      | with_reducible apply st_ptr_addressing
      | with_reducible apply st_ptr_inc_addressing
      | with_reducible apply st_ptr_inc16_addressing
      | with_reducible apply repeat_addressing
      | with_reducible apply read_sib_addressing
      | with_reducible apply key_addressing
      | with_reducible apply updi_is_ready_addressing
      | intro _ _ _
      | intro _ _
      | split
      | dsimp only

theorem wait_flash_ready_flags (v2 wide : Bool) (clock : Nat → Nat) (self : UpdiApplication)
    (h : flags v2 wide self) :
    Outcome.all (flags v2 wide) (UpdiApplication.wait_flash_ready clock self) := by
  unfold UpdiApplication.wait_flash_ready
  repeat' first
    | with_reducible assumption
    | with_reducible apply all_bind
    | with_reducible apply all_pure
    | with_reducible apply all_raise
    | with_reducible apply all_thrown
    | with_reducible apply all_hang
    | with_reducible apply all_fault
    | with_reducible apply all_now
    | with_reducible apply all_instruction
    | with_reducible apply wait_flash_ready_loop_flags
    | with_reducible apply ldcs_addressing
    | with_reducible apply stcs_addressing
    | with_reducible apply ld_addressing
    | with_reducible apply ld16_addressing
    | with_reducible apply st_addressing
    | with_reducible apply st16_addressing
    | with_reducible apply ld_ptr_inc_addressing
    | with_reducible apply ld_ptr_inc16_addressing
    | with_reducible apply st_ptr_addressing
    | with_reducible apply st_ptr_inc_addressing
    | with_reducible apply st_ptr_inc16_addressing
    | with_reducible apply repeat_addressing
    | with_reducible apply read_sib_addressing
    | with_reducible apply key_addressing
    | with_reducible apply updi_is_ready_addressing
    | intro _ _ _
    | intro _ _
    | split
    | dsimp only

theorem execute_nvm_command_flags (v2 wide : Bool) (command : Nat) (self : UpdiApplication)
    (h : flags v2 wide self) :
    Outcome.all (flags v2 wide) (UpdiApplication.execute_nvm_command command self) := by
  unfold UpdiApplication.execute_nvm_command
  repeat' first
    | with_reducible assumption
    | with_reducible apply all_bind
    | with_reducible apply all_pure
    | with_reducible apply all_raise
    | with_reducible apply all_thrown
    | with_reducible apply all_hang
    | with_reducible apply all_fault
    | with_reducible apply all_now
    | with_reducible apply all_instruction
    | with_reducible apply ldcs_addressing
    | with_reducible apply stcs_addressing
    | with_reducible apply ld_addressing
    | with_reducible apply ld16_addressing
    | with_reducible apply st_addressing
    | with_reducible apply st16_addressing
    | with_reducible apply ld_ptr_inc_addressing
    | with_reducible apply ld_ptr_inc16_addressing
    | with_reducible apply st_ptr_addressing
    | with_reducible apply st_ptr_inc_addressing
    | with_reducible apply st_ptr_inc16_addressing
    | with_reducible apply repeat_addressing
    | with_reducible apply read_sib_addressing
    | with_reducible apply key_addressing
    | with_reducible apply updi_is_ready_addressing
    | intro _ _ _
    | intro _ _
    | split
    | dsimp only

theorem chip_erase_flags (v2 wide : Bool) (clock : Nat → Nat) (self : UpdiApplication)
    (h : flags v2 wide self) :
    Outcome.all (flags v2 wide) (UpdiApplication.chip_erase clock self) := by
  unfold UpdiApplication.chip_erase
  repeat' first
    | with_reducible assumption
    | with_reducible apply all_bind
    | with_reducible apply all_pure
    | with_reducible apply all_raise
    | with_reducible apply all_thrown
    | with_reducible apply all_hang
    | with_reducible apply all_fault
    | with_reducible apply all_now
    | with_reducible apply all_instruction
    | with_reducible apply wait_flash_ready_flags
    | with_reducible apply execute_nvm_command_flags
    | with_reducible apply ldcs_addressing
    | with_reducible apply stcs_addressing
    | with_reducible apply ld_addressing
    | with_reducible apply ld16_addressing
    | with_reducible apply st_addressing
    | with_reducible apply st16_addressing
    | with_reducible apply ld_ptr_inc_addressing
    | with_reducible apply ld_ptr_inc16_addressing
    | with_reducible apply st_ptr_addressing
    | with_reducible apply st_ptr_inc_addressing
    | with_reducible apply st_ptr_inc16_addressing
    | with_reducible apply repeat_addressing
    | with_reducible apply read_sib_addressing
    | with_reducible apply key_addressing
    | with_reducible apply updi_is_ready_addressing
    | intro _ _ _
    | intro _ _
    | split
    | dsimp only

theorem write_data_flags (v2 wide : Bool) (address : Nat) (data : List Nat) (self : UpdiApplication)
    (h : flags v2 wide self) :
    Outcome.all (flags v2 wide) (UpdiApplication.write_data address data self) := by
  unfold UpdiApplication.write_data
  repeat' first
    | with_reducible assumption
    | with_reducible apply all_bind
    | with_reducible apply all_pure
    | with_reducible apply all_raise
    | with_reducible apply all_thrown
    | with_reducible apply all_hang
    | with_reducible apply all_fault
    | with_reducible apply all_now
    | with_reducible apply all_instruction
    | with_reducible apply ldcs_addressing
    | with_reducible apply stcs_addressing
    | with_reducible apply ld_addressing
    | with_reducible apply ld16_addressing
    | with_reducible apply st_addressing
    | with_reducible apply st16_addressing
    | with_reducible apply ld_ptr_inc_addressing
    | with_reducible apply ld_ptr_inc16_addressing
    | with_reducible apply st_ptr_addressing
    | with_reducible apply st_ptr_inc_addressing
    | with_reducible apply st_ptr_inc16_addressing
    | with_reducible apply repeat_addressing
    | with_reducible apply read_sib_addressing
    | with_reducible apply key_addressing
    | with_reducible apply updi_is_ready_addressing
    | intro _ _ _
    | intro _ _
    | split
    | dsimp only

theorem write_data_words_flags (v2 wide : Bool) (address : Nat) (data : List Nat) (self : UpdiApplication)
    (h : flags v2 wide self) :
    Outcome.all (flags v2 wide) (UpdiApplication.write_data_words address data self) := by
  unfold UpdiApplication.write_data_words
  repeat' first
    | with_reducible assumption
    | with_reducible apply all_bind
    | with_reducible apply all_pure
    | with_reducible apply all_raise
    | with_reducible apply all_thrown
    | with_reducible apply all_hang
    | with_reducible apply all_fault
    | with_reducible apply all_now
    | with_reducible apply all_instruction
    | with_reducible apply ldcs_addressing
    | with_reducible apply stcs_addressing
    | with_reducible apply ld_addressing
    | with_reducible apply ld16_addressing
    | with_reducible apply st_addressing
    | with_reducible apply st16_addressing
    | with_reducible apply ld_ptr_inc_addressing
    | with_reducible apply ld_ptr_inc16_addressing
    | with_reducible apply st_ptr_addressing
    | with_reducible apply st_ptr_inc_addressing
    | with_reducible apply st_ptr_inc16_addressing
    | with_reducible apply repeat_addressing
    | with_reducible apply read_sib_addressing
    | with_reducible apply key_addressing
    | with_reducible apply updi_is_ready_addressing
    | intro _ _ _
    | intro _ _
    | split
    | dsimp only

theorem write_nvm_page_flags (v2 wide : Bool) (clock : Nat → Nat) (start_addr : Nat) (page_data : List Nat) (self : UpdiApplication)
    (h : flags v2 wide self) :
    Outcome.all (flags v2 wide) (UpdiApplication.write_nvm_page clock start_addr page_data self) := by
  unfold UpdiApplication.write_nvm_page
  repeat' first
    | with_reducible assumption
    | with_reducible apply all_bind
    | with_reducible apply all_pure
    | with_reducible apply all_raise
    | with_reducible apply all_thrown
    | with_reducible apply all_hang
    | with_reducible apply all_fault
    | with_reducible apply all_now
    | with_reducible apply all_instruction
    | with_reducible apply wait_flash_ready_flags
    | with_reducible apply execute_nvm_command_flags
    | with_reducible apply write_data_words_flags
    | with_reducible apply ldcs_addressing
    | with_reducible apply stcs_addressing
    | with_reducible apply ld_addressing
    | with_reducible apply ld16_addressing
    | with_reducible apply st_addressing
    | with_reducible apply st16_addressing
    | with_reducible apply ld_ptr_inc_addressing
    | with_reducible apply ld_ptr_inc16_addressing
    | with_reducible apply st_ptr_addressing
    | with_reducible apply st_ptr_inc_addressing
    | with_reducible apply st_ptr_inc16_addressing
    | with_reducible apply repeat_addressing
    | with_reducible apply read_sib_addressing
    | with_reducible apply key_addressing
    | with_reducible apply updi_is_ready_addressing
    | intro _ _ _
    | intro _ _
    | split
    | dsimp only

theorem read_data_flags (v2 wide : Bool) (address byte_size : Nat) (self : UpdiApplication)
    (h : flags v2 wide self) :
    Outcome.all (flags v2 wide) (UpdiApplication.read_data address byte_size self) := by
  unfold UpdiApplication.read_data
  repeat' first
    | with_reducible assumption
    | with_reducible apply all_bind
    | with_reducible apply all_pure
    | with_reducible apply all_raise
    | with_reducible apply all_thrown
    | with_reducible apply all_hang
    | with_reducible apply all_fault
    | with_reducible apply all_now
    | with_reducible apply all_instruction
    | with_reducible apply ldcs_addressing
    | with_reducible apply stcs_addressing
    | with_reducible apply ld_addressing
    | with_reducible apply ld16_addressing
    | with_reducible apply st_addressing
    | with_reducible apply st16_addressing
    | with_reducible apply ld_ptr_inc_addressing
    | with_reducible apply ld_ptr_inc16_addressing
    | with_reducible apply st_ptr_addressing
    | with_reducible apply st_ptr_inc_addressing
    | with_reducible apply st_ptr_inc16_addressing
    | with_reducible apply repeat_addressing
    | with_reducible apply read_sib_addressing
    | with_reducible apply key_addressing
    | with_reducible apply updi_is_ready_addressing
    | intro _ _ _
    | intro _ _
    | split
    | dsimp only

theorem read_data_words_flags (v2 wide : Bool) (address word_size : Nat) (self : UpdiApplication)
    (h : flags v2 wide self) :
    Outcome.all (flags v2 wide) (UpdiApplication.read_data_words address word_size self) := by
  unfold UpdiApplication.read_data_words
  repeat' first
    | with_reducible assumption
    | with_reducible apply all_bind
    | with_reducible apply all_pure
    | with_reducible apply all_raise
    | with_reducible apply all_thrown
    | with_reducible apply all_hang
    | with_reducible apply all_fault
    | with_reducible apply all_now
    | with_reducible apply all_instruction
    | with_reducible apply ldcs_addressing
    | with_reducible apply stcs_addressing
    | with_reducible apply ld_addressing
    | with_reducible apply ld16_addressing
    | with_reducible apply st_addressing
    | with_reducible apply st16_addressing
    | with_reducible apply ld_ptr_inc_addressing
    | with_reducible apply ld_ptr_inc16_addressing
    | with_reducible apply st_ptr_addressing
    | with_reducible apply st_ptr_inc_addressing
    | with_reducible apply st_ptr_inc16_addressing
    | with_reducible apply repeat_addressing
    | with_reducible apply read_sib_addressing
    | with_reducible apply key_addressing
    | with_reducible apply updi_is_ready_addressing
    | intro _ _ _
    | intro _ _
    | split
    | dsimp only

theorem write_fuse_data_flags (v2 wide : Bool) (fuse_number value : Nat) (self : UpdiApplication)
    (h : flags v2 wide self) :
    Outcome.all (flags v2 wide) (UpdiApplication.write_fuse_data fuse_number value self) := by
  unfold UpdiApplication.write_fuse_data
  repeat' first
    | with_reducible assumption
    | with_reducible apply all_bind
    | with_reducible apply all_pure
    | with_reducible apply all_raise
    | with_reducible apply all_thrown
    | with_reducible apply all_hang
    | with_reducible apply all_fault
    | with_reducible apply all_now
    | with_reducible apply all_instruction
    | with_reducible apply in_prog_mode_flags
    | with_reducible apply write_data_flags
    | with_reducible apply execute_nvm_command_flags
    | with_reducible apply ldcs_addressing
    | with_reducible apply stcs_addressing
    | with_reducible apply ld_addressing
    | with_reducible apply ld16_addressing
    | with_reducible apply st_addressing
    | with_reducible apply st16_addressing
    | with_reducible apply ld_ptr_inc_addressing
    | with_reducible apply ld_ptr_inc16_addressing
    | with_reducible apply st_ptr_addressing
    | with_reducible apply st_ptr_inc_addressing
    | with_reducible apply st_ptr_inc16_addressing
    | with_reducible apply repeat_addressing
    | with_reducible apply read_sib_addressing
    | with_reducible apply key_addressing
    | with_reducible apply updi_is_ready_addressing
    | intro _ _ _
    | intro _ _
    | split
    | dsimp only

theorem read_fuse_data_flags (v2 wide : Bool) (fuse_number : Nat) (self : UpdiApplication)
    (h : flags v2 wide self) :
    Outcome.all (flags v2 wide) (UpdiApplication.read_fuse_data fuse_number self) := by
  unfold UpdiApplication.read_fuse_data
  repeat' first
    | with_reducible assumption
    | with_reducible apply all_bind
    | with_reducible apply all_pure
    | with_reducible apply all_raise
    | with_reducible apply all_thrown
    | with_reducible apply all_hang
    | with_reducible apply all_fault
    | with_reducible apply all_now
    | with_reducible apply all_instruction
    | with_reducible apply read_data_flags
    | with_reducible apply ldcs_addressing
    | with_reducible apply stcs_addressing
    | with_reducible apply ld_addressing
    | with_reducible apply ld16_addressing
    | with_reducible apply st_addressing
    | with_reducible apply st16_addressing
    | with_reducible apply ld_ptr_inc_addressing
    | with_reducible apply ld_ptr_inc16_addressing
    | with_reducible apply st_ptr_addressing
    | with_reducible apply st_ptr_inc_addressing
    | with_reducible apply st_ptr_inc16_addressing
    | with_reducible apply repeat_addressing
    | with_reducible apply read_sib_addressing
    | with_reducible apply key_addressing
    | with_reducible apply updi_is_ready_addressing
    | intro _ _ _
    | intro _ _
    | split
    | dsimp only

theorem invariant_of_flags {α : Type} (self : UpdiApplication) (o : Outcome UpdiApplication α)
    (h : addressing_invariant self)
    (ho : Outcome.all (flags self._pdi_v2 self._updi_instruction._use_24bit_addr) o) :
    Outcome.all addressing_invariant o :=
  all_mono _ _ (fun _ hs hv => hs.2.trans (h (hs.1.symm.trans hv))) o ho

theorem instruction_invariant {α : Type} (m : Op UpdiInstruction α) (self : UpdiApplication)
    (h : addressing_invariant self)
    (hm : ∀ wide i, addressing wide i → Outcome.all (addressing wide) (m i)) :
    Outcome.all addressing_invariant (UpdiApplication.instruction m self) :=
  invariant_of_flags self _ h (all_instruction _ _ m self ⟨rfl, rfl⟩ (hm _))

theorem init_nvm_operation_invariant (self : UpdiApplication) (h : addressing_invariant self) :
    Outcome.all addressing_invariant (UpdiApplication.init_nvm_operation self) := by
  unfold UpdiApplication.init_nvm_operation
  refine all_bind _ _ _ _
    (instruction_invariant _ _ h (fun wide i hi => updi_is_ready_addressing wide i hi))
    (fun ready s hs => ?_)
  split
  · exact hs
  · refine all_bind _ _ _ _
      (instruction_invariant _ _ hs (fun wide i hi => read_sib_addressing wide i hi))
      (fun sib s1 hs1 => ?_)
    split
    · exact hs1
    · dsimp only
      split
      · exact fun _ => rfl
      · exact hs1

/-- C36: the application object the constructor makes satisfies
`pdi_v2 ⇒ use_24bit_addr`, and every operation of `UpdiApplication` that is
started on an object that satisfies it leaves one that satisfies it, whether
it returns, throws or waits without end: `init_nvm_operation`,
`enter_progmode`, `unlock`, `leave_progmode`, `reset`, `chip_erase`,
`write_nvm_page`, `read_data`, `read_data_words`, `write_data`,
`write_data_words`, `write_fuse_data` and `read_fuse_data`. -/
theorem C36_pdi_v2_implies_24bit_addressing (clock : Nat → Nat) (self : UpdiApplication)
    (h : addressing_invariant self) :
    (∀ instruction device,
      addressing_invariant (UpdiApplication.UpdiApplication instruction device)) ∧
    Outcome.all addressing_invariant (UpdiApplication.init_nvm_operation self) ∧
    Outcome.all addressing_invariant (UpdiApplication.enter_progmode clock self) ∧
    Outcome.all addressing_invariant (UpdiApplication.unlock clock self) ∧
    Outcome.all addressing_invariant (UpdiApplication.leave_progmode clock self) ∧
    (∀ apply_reset,
      Outcome.all addressing_invariant (UpdiApplication.reset clock apply_reset self)) ∧
    Outcome.all addressing_invariant (UpdiApplication.chip_erase clock self) ∧
    (∀ start_addr page_data, Outcome.all addressing_invariant
      (UpdiApplication.write_nvm_page clock start_addr page_data self)) ∧
    (∀ address byte_size,
      Outcome.all addressing_invariant (UpdiApplication.read_data address byte_size self)) ∧
    (∀ address word_size, Outcome.all addressing_invariant
      (UpdiApplication.read_data_words address word_size self)) ∧
    (∀ address data,
      Outcome.all addressing_invariant (UpdiApplication.write_data address data self)) ∧
    (∀ address data,
      Outcome.all addressing_invariant (UpdiApplication.write_data_words address data self)) ∧
    (∀ fuse_number value, Outcome.all addressing_invariant
      (UpdiApplication.write_fuse_data fuse_number value self)) ∧
    (∀ fuse_number,
      Outcome.all addressing_invariant (UpdiApplication.read_fuse_data fuse_number self)) :=
  ⟨fun _ _ hv => Bool.noConfusion hv,
   init_nvm_operation_invariant self h,
   invariant_of_flags self _ h (enter_progmode_flags _ _ clock self ⟨rfl, rfl⟩),
   invariant_of_flags self _ h (unlock_flags _ _ clock self ⟨rfl, rfl⟩),
   invariant_of_flags self _ h (leave_progmode_flags _ _ clock self ⟨rfl, rfl⟩),
   fun apply_reset =>
     invariant_of_flags self _ h (reset_flags _ _ clock apply_reset self ⟨rfl, rfl⟩),
   invariant_of_flags self _ h (chip_erase_flags _ _ clock self ⟨rfl, rfl⟩),
   fun start_addr page_data => invariant_of_flags self _ h
     (write_nvm_page_flags _ _ clock start_addr page_data self ⟨rfl, rfl⟩),
   fun address byte_size =>
     invariant_of_flags self _ h (read_data_flags _ _ address byte_size self ⟨rfl, rfl⟩),
   fun address word_size =>
     invariant_of_flags self _ h (read_data_words_flags _ _ address word_size self ⟨rfl, rfl⟩),
   fun address data =>
     invariant_of_flags self _ h (write_data_flags _ _ address data self ⟨rfl, rfl⟩),
   fun address data =>
     invariant_of_flags self _ h (write_data_words_flags _ _ address data self ⟨rfl, rfl⟩),
   fun fuse_number value =>
     invariant_of_flags self _ h (write_fuse_data_flags _ _ fuse_number value self ⟨rfl, rfl⟩),
   fun fuse_number =>
     invariant_of_flags self _ h (read_fuse_data_flags _ _ fuse_number self ⟨rfl, rfl⟩)⟩

/-- Witness for C36: a session with `_pdi_v2` and the 24-bit addresses on
keeps the invariant through `init_nvm_operation` and `read_data_words`, and
a new session on a tiny416 keeps it through `init_nvm_operation`. -/
theorem C36_pdi_v2_implies_24bit_addressing_witness :
    addressing_invariant pdi_v2_application ∧
    Outcome.all addressing_invariant (UpdiApplication.init_nvm_operation pdi_v2_application) ∧
    Outcome.all addressing_invariant
      (UpdiApplication.read_data_words 0x800000 32 pdi_v2_application) ∧
    Outcome.all addressing_invariant
      (UpdiApplication.init_nvm_operation (tiny416_application programmed_target)) :=
  ⟨fun _ => rfl,
   (C36_pdi_v2_implies_24bit_addressing still_clock pdi_v2_application (fun _ => rfl)).2.1,
   (C36_pdi_v2_implies_24bit_addressing still_clock pdi_v2_application
      (fun _ => rfl)).2.2.2.2.2.2.2.2.2.1 0x800000 32,
   (C36_pdi_v2_implies_24bit_addressing still_clock (tiny416_application programmed_target)
      (fun hv => Bool.noConfusion hv)).2.1⟩

/-! ### Writes of `parse_record` into the buffer -/

theorem hexField_error (record : List Char) (pos : Nat) (f : Fault)
    (h : hexField record pos = .error f) : f = .out_of_range ∨ f = .unset_value := by
  unfold hexField at h
  split at h
  · cases h
    exact Or.inl rfl
  · split at h
    · cases h
      exact Or.inr rfl
    · cases h

theorem fill_succ (record : List Char) (a n i : Nat) (self : IntelHexFile) (ck : Nat) :
    fill record a (n + 1) i self ck =
      match hexField record (9 + i) with
      | .error f => .fault f
      | .ok x =>
        if a + i / 2 > self.nvm_flash_size then .rejected "Exceed maximum flash size" self
        else if a + i / 2 < self.nvm_data.length then
          fill record a n (i + 2)
            { self with
              nvm_data := self.nvm_data.set (a + i / 2) (x % 256)
              firmware_size := (self.firmware_size + 1) % 2 ^ 32 }
            ((ck + x % 256) % 256)
        else .fault (.buffer_overrun (a + i / 2)) := rfl

theorem fill_overrun_index (record : List Char) (a : Nat) :
    ∀ (n i : Nat) (self : IntelHexFile) (ck k : Nat),
      self.nvm_data.length = self.nvm_flash_size →
      fill record a n i self ck = .fault (.buffer_overrun k) → k = self.nvm_flash_size := by
  intro n
  induction n with
  | zero =>
    intro i self ck k _ h
    cases h
  | succ n ih =>
    intro i self ck k hlen h
    rw [fill_succ] at h
    split at h
    · rename_i f hf
      rcases hexField_error _ _ _ hf with hf1 | hf1
      · rw [hf1] at h
        cases h
      · rw [hf1] at h
        cases h
    · split at h
      · cases h
      · rename_i hle
        split at h
        · have key := fun hl => ih _ _ _ k hl h
          refine key ?_
          show (self.nvm_data.set _ _).length = self.nvm_flash_size
          rw [List.length_set]
          exact hlen
        · rename_i hge
          cases h
          omega

theorem parse_record_overrun_index (self : IntelHexFile) (record : List Char) (k : Nat)
    (hlen : self.nvm_data.length = self.nvm_flash_size)
    (h : parse_record self record = .fault (.buffer_overrun k)) :
    k = self.nvm_flash_size := by
  have field : ∀ pos f, hexField record pos = .error f → f ≠ .buffer_overrun k := by
    intro pos f hf hk
    rcases hexField_error _ _ _ hf with h1 | h1 <;> rw [h1] at hk <;> cases hk
  unfold parse_record at h
  split at h
  · cases h
  · split at h
    · rename_i f _ _ _ hf
      cases h
      exact absurd rfl (field _ _ hf)
    · rename_i f _ _ hf
      cases h
      exact absurd rfl (field _ _ hf)
    · rename_i f _ hf
      cases h
      exact absurd rfl (field _ _ hf)
    · rename_i f hf
      cases h
      exact absurd rfl (field _ _ hf)
    · dsimp only at h
      split at h
      · cases h
      · split at h
        · cases h
        · split at h
          · rename_i f hfill
            cases h
            exact fill_overrun_index _ _ _ _ _ _ _ hlen hfill
          · cases h
          · split at h
            · rename_i f hf
              cases h
              exact absurd rfl (field _ _ hf)
            · split at h <;> cases h

/-- C38 (the code departs from the claim): on a new image with flash size 8,
whose buffer has 8 bytes, the record with two data bytes at offsets 7 and 8
passes the range test, which is `>`, and its second byte is written at index
8, one behind the end of the buffer. On an image whose buffer is as long as
the flash size, the flash size is the only index outside the buffer at which
`parse_record` writes. -/
theorem C38_write_one_behind_buffer_end :
    (IntelHexFile.IntelHexFile 8 2).nvm_data.length = 8 ∧
    parse_record (IntelHexFile.IntelHexFile 8 2) ":02000700AABB92\r".toList
      = .fault (.buffer_overrun 8) ∧
    (∀ (self : IntelHexFile) (record : List Char) (k : Nat),
      self.nvm_data.length = self.nvm_flash_size →
      parse_record self record = .fault (.buffer_overrun k) → k = self.nvm_flash_size) :=
  ⟨by decide, by decide, parse_record_overrun_index⟩

/-- Witness for C38: the index written outside the 8-byte buffer is 8. -/
theorem C38_write_one_behind_buffer_end_witness :
    8 = (IntelHexFile.IntelHexFile 8 2).nvm_flash_size :=
  C38_write_one_behind_buffer_end.2.2 (IntelHexFile.IntelHexFile 8 2)
    ":02000700AABB92\r".toList 8 (by decide) (by decide)

theorem fill_rejected_error (record : List Char) (a : Nat) :
    ∀ (n i : Nat) (self : IntelHexFile) (ck : Nat) (error : String) (s : IntelHexFile),
      fill record a n i self ck = .rejected error s → error = "Exceed maximum flash size" := by
  intro n
  induction n with
  | zero =>
    intro i self ck error s h
    cases h
  | succ n ih =>
    intro i self ck error s h
    rw [fill_succ] at h
    split at h
    · cases h
    · split at h
      · cases h
        rfl
      · split at h
        · exact ih _ _ _ _ _ h
        · cases h

theorem fill_rejected_at_first_byte (record : List Char) (a n : Nat) (self : IntelHexFile)
    (ck : Nat) (error : String) (s : IntelHexFile) (ha : self.nvm_flash_size < a)
    (h : fill record a n 0 self ck = .rejected error s) : s = self := by
  cases n with
  | zero => cases h
  | succ n =>
    rw [fill_succ] at h
    split at h
    · cases h
    · rw [if_pos (by omega)] at h
      cases h
      rfl

theorem parse_record_rejected (self : IntelHexFile) (record : List Char) (error : String)
    (s : IntelHexFile) (h : parse_record self record = .rejected error s) :
    (error = "Wrong start of record" ∨ error = "Unsupported record type" ∨
      error = "Wrong data size" ∨ error = "Exceed maximum flash size" ∨
      error = "Failed to verify checksum") ∧
    (error = "Wrong start of record" ∨ error = "Unsupported record type" ∨
      error = "Wrong data size" → s = self) ∧
    (error = "Exceed maximum flash size" → self.nvm_flash_size < rec_addr record →
      s = self) := by
  unfold parse_record at h
  split at h
  · cases h
    exact ⟨Or.inl rfl, fun _ => rfl, fun _ _ => rfl⟩
  · split at h
    · cases h
    · cases h
    · cases h
    · cases h
    · rename_i cc hi lo tt hcc hhi hlo htt
      have haddr : rec_addr record = hi % 256 * 256 + lo % 256 := by
        simp only [rec_addr, rec_high, rec_low, fieldVal, hhi, hlo]
      dsimp only at h
      split at h
      · cases h
        exact ⟨Or.inr (Or.inl rfl), fun _ => rfl, fun _ _ => rfl⟩
      · split at h
        · cases h
          exact ⟨Or.inr (Or.inr (Or.inl rfl)), fun _ => rfl, fun _ _ => rfl⟩
        · split at h
          · cases h
          · rename_i error1 self1 hfill
            cases h
            have he := fill_rejected_error _ _ _ _ _ _ _ _ hfill
            refine ⟨Or.inr (Or.inr (Or.inr (Or.inl he))), ?_, ?_⟩
            · rw [he]
              intro hkind
              exact absurd hkind (by decide)
            · intro _ hfar
              rw [haddr] at hfar
              exact fill_rejected_at_first_byte _ _ _ _ _ _ _ hfar hfill
          · split at h
            · cases h
            · split at h
              · cases h
                refine ⟨Or.inr (Or.inr (Or.inr (Or.inr rfl))), ?_, ?_⟩
                · intro hkind
                  exact absurd hkind (by decide)
                · intro hkind
                  exact absurd hkind (by decide)
              · cases h

/-- C39 (amended): `parse_record` rejects a record with one of five errors.
When the error is "Wrong start of record", "Unsupported record type" or
"Wrong data size", and when it is "Exceed maximum flash size" for a record
whose offset field is above the flash size, so that its first data byte is
refused, the object, its buffer and `firmware_size` included, is what it was
before the call. -/
theorem C39_rejection_before_any_store_leaves_image (self : IntelHexFile)
    (record : List Char) (error : String) (s : IntelHexFile)
    (h : parse_record self record = .rejected error s) :
    (error = "Wrong start of record" ∨ error = "Unsupported record type" ∨
      error = "Wrong data size" ∨ error = "Exceed maximum flash size" ∨
      error = "Failed to verify checksum") ∧
    (error = "Wrong start of record" ∨ error = "Unsupported record type" ∨
      error = "Wrong data size" →
      s = self ∧ s.nvm_data = self.nvm_data ∧ s.firmware_size = self.firmware_size) ∧
    (error = "Exceed maximum flash size" → self.nvm_flash_size < rec_addr record →
      s = self ∧ s.nvm_data = self.nvm_data ∧ s.firmware_size = self.firmware_size) := by
  obtain ⟨hkind, hearly, hfar⟩ := parse_record_rejected self record error s h
  refine ⟨hkind, fun he => ?_, fun he ha => ?_⟩
  · rw [hearly he]
    exact ⟨rfl, rfl, rfl⟩
  · rw [hfar he ha]
    exact ⟨rfl, rfl, rfl⟩

/-- Witness for C39: on a new image with flash size 8, one data byte at
offset 9 is rejected with "Exceed maximum flash size", and the record
`:0100000055AA` with nothing behind its checksum is rejected with "Wrong
data size"; the image is unchanged in both cases. -/
theorem C39_rejection_before_any_store_leaves_image_witness :
    parse_record (IntelHexFile.IntelHexFile 8 2) ":01000900AA4C\r".toList
      = .rejected "Exceed maximum flash size" (IntelHexFile.IntelHexFile 8 2) ∧
    (IntelHexFile.IntelHexFile 8 2).nvm_flash_size < rec_addr ":01000900AA4C\r".toList ∧
    (IntelHexFile.IntelHexFile 8 2 = IntelHexFile.IntelHexFile 8 2 ∧
      (IntelHexFile.IntelHexFile 8 2).nvm_data = (IntelHexFile.IntelHexFile 8 2).nvm_data ∧
      (IntelHexFile.IntelHexFile 8 2).firmware_size
        = (IntelHexFile.IntelHexFile 8 2).firmware_size) ∧
    parse_record (IntelHexFile.IntelHexFile 8 2) ":0100000055AA".toList
      = .rejected "Wrong data size" (IntelHexFile.IntelHexFile 8 2) ∧
    (IntelHexFile.IntelHexFile 8 2 = IntelHexFile.IntelHexFile 8 2 ∧
      (IntelHexFile.IntelHexFile 8 2).nvm_data = (IntelHexFile.IntelHexFile 8 2).nvm_data ∧
      (IntelHexFile.IntelHexFile 8 2).firmware_size
        = (IntelHexFile.IntelHexFile 8 2).firmware_size) :=
  ⟨by decide, by decide,
   (C39_rejection_before_any_store_leaves_image (IntelHexFile.IntelHexFile 8 2)
      ":01000900AA4C\r".toList "Exceed maximum flash size" (IntelHexFile.IntelHexFile 8 2)
      (by decide)).2.2 rfl (by decide),
   by decide,
   (C39_rejection_before_any_store_leaves_image (IntelHexFile.IntelHexFile 8 2)
      ":0100000055AA".toList "Wrong data size" (IntelHexFile.IntelHexFile 8 2)
      (by decide)).2.1 (Or.inr (Or.inr rfl))⟩

/-- C39 (counterexample): on a new image with flash size 8, the record with
the data bytes AA and BB at offset 0 and the checksum 00 where 99 is due is
rejected with "Failed to verify checksum", and the object it leaves holds
the two bytes at offsets 0 and 1 and counts them in `firmware_size`. -/
theorem C39_bad_checksum_leaves_bytes_stored :
    parse_record (IntelHexFile.IntelHexFile 8 2) ":02000000AABB00\r".toList
      = .rejected "Failed to verify checksum"
          { IntelHexFile.IntelHexFile 8 2 with
            nvm_data := [0xAA, 0xBB, 0, 0, 0, 0, 0, 0]
            firmware_size := 2 } ∧
    ¬ (∀ (self : IntelHexFile) (record : List Char) (error : String) (s : IntelHexFile),
      parse_record self record = .rejected error s →
      s.nvm_data = self.nvm_data ∧ s.firmware_size = self.firmware_size) := by
  have hrun : parse_record (IntelHexFile.IntelHexFile 8 2) ":02000000AABB00\r".toList
      = .rejected "Failed to verify checksum"
          { IntelHexFile.IntelHexFile 8 2 with
            nvm_data := [0xAA, 0xBB, 0, 0, 0, 0, 0, 0]
            firmware_size := 2 } := by decide
  refine ⟨hrun, fun hall => ?_⟩
  have hbad := (hall _ _ _ _ hrun).2
  revert hbad
  decide

/-! ### Flashing a file -/

theorem pages_of_take_sum (page_size : Nat) (data : List Nat) (i : Nat)
    (hi : i ≤ data.length / page_size) :
    (((pages_of page_size data).take i).map fun page => page.pageSize).sum = i * page_size := by
  have hmap : (pages_of page_size data).map (fun page => page.pageSize)
      = List.replicate (data.length / page_size) page_size := by
    simp only [pages_of, List.map_map]
    apply List.ext_getElem
    · simp
    · intro k h1 h2
      simp [page_at]
  rw [List.map_take, hmap, List.take_replicate, List.sum_replicate, Nat.min_eq_left hi]
  rfl

theorem pages_of_programmed_at (flash_base address page_size : Nat)
    (data : List Nat) :
    ((List.range (pages_of page_size data).length).map fun i =>
        claimed_page_address flash_base address (pages_of page_size data) i % 2 ^ 32).zip
      (pages_of page_size data)
    = (pages_of page_size data).map fun p =>
        ((claimed_start flash_base address + p.address) % 2 ^ 32, p) := by
  rw [pages_of_length]
  have hpages : pages_of page_size data
      = (List.range (data.length / page_size)).map
          (fun k => page_at page_size data (k * page_size)) := rfl
  conv_lhs => rw [hpages]
  conv_rhs => rw [hpages]
  rw [List.zip_map', List.map_map]
  apply List.map_congr_left
  intro k hk
  rw [List.mem_range] at hk
  show (claimed_page_address flash_base address (pages_of page_size data) k % 2 ^ 32, _)
    = ((claimed_start flash_base address + (page_at page_size data (k * page_size)).address)
        % 2 ^ 32, _)
  unfold claimed_page_address
  rw [pages_of_take_sum page_size data k (Nat.le_of_lt hk)]
  rfl

theorem flash_file_eq (clock : Nat → Nat) (nvm : NvmProgrammer) (hexfile : String)
    (file : Option (List (List Char))) (flash_base flash_size page_size start : Nat)
    (ihex : IntelHexFile)
    (hbase : nvm._avr_device.flash_start_addr = some flash_base)
    (hsize : nvm._avr_device.flash_size = some flash_size)
    (hpage : nvm._avr_device.flash_page_size = some page_size)
    (hload : load_file (IntelHexFile.IntelHexFile flash_size page_size) hexfile file
      = .returned start ihex) :
    flash_file clock hexfile file nvm =
      (NvmProgrammer.chip_erase clock >>= fun _ =>
        NvmProgrammer.write_flash clock start (get_page_data ihex) >>= fun _ =>
        NvmProgrammer.read_flash flash_base
          (((get_page_data ihex).length * page_size) % 2 ^ 32) >>= fun flash_data =>
        match std_equal 0 (get_flash_data ihex) flash_data with
        | .error f => (fun _ => Outcome.fault f : Op NvmProgrammer Int)
        | .ok true => pure 0
        | .ok false => pure (-1)) nvm := by
  unfold flash_file
  simp only [hsize, hpage, hload, hbase]

theorem loaded_pages (flash_size page_size : Nat) (hexfile : String)
    (lines : List (List Char)) (start : Nat) (ihex : IntelHexFile)
    (hload : load_file (IntelHexFile.IntelHexFile flash_size page_size) hexfile (some lines)
      = .returned start ihex) :
    get_page_data ihex = pages_of page_size ihex.nvm_data ∧ start < 2 ^ 32 := by
  rw [load_file_new_iff] at hload
  obtain ⟨-, -, -, hstart, hs⟩ := hload
  constructor
  · rw [hs]
    exact loaded_image_pages flash_size page_size lines
  · rw [hstart]
    have := (foldl_min_start_le (records lines) 0x7fffffff).1
    omega

/-- C40 (the code departs from the claim): for a file that `load_file`
accepts with the smallest offset `start`, `flash_file` erases the chip, calls
`write_flash(start, pages)`, reads the flash back from the flash base and
compares it with the buffer from index 0. The page with address `a` (page `k`
has `a = k * page_size` and holds the buffer from index `a` on) is programmed
at `start + flash_base + a` when `start` is below the flash base (at
`start + a` otherwise), modulo 2^32: at the flash base plus its address only
when `start` is 0. -/
theorem C40_pages_programmed_behind_start_offset (clock : Nat → Nat) (nvm : NvmProgrammer)
    (hexfile : String) (lines : List (List Char))
    (flash_base flash_size page_size start : Nat) (ihex : IntelHexFile)
    (hbase : nvm._avr_device.flash_start_addr = some flash_base)
    (hsize : nvm._avr_device.flash_size = some flash_size)
    (hpage : nvm._avr_device.flash_page_size = some page_size)
    (hload : load_file (IntelHexFile.IntelHexFile flash_size page_size) hexfile (some lines)
      = .returned start ihex) :
    flash_file clock hexfile (some lines) nvm =
      (NvmProgrammer.chip_erase clock >>= fun _ =>
        NvmProgrammer.write_flash clock start (get_page_data ihex) >>= fun _ =>
        NvmProgrammer.read_flash flash_base
          (((get_page_data ihex).length * page_size) % 2 ^ 32) >>= fun flash_data =>
        match std_equal 0 (get_flash_data ihex) flash_data with
        | .error f => (fun _ => Outcome.fault f : Op NvmProgrammer Int)
        | .ok true => pure 0
        | .ok false => pure (-1)) nvm ∧
    (∀ s : NvmProgrammer, s._programming = true →
      s._avr_device.flash_start_addr = some flash_base →
      NvmProgrammer.write_flash clock start (get_page_data ihex) s =
        program_at clock ((get_page_data ihex).map fun p =>
          (((if start < flash_base then start + flash_base else start) + p.address) % 2 ^ 32,
            p)) s) ∧
    (∀ (k : Nat) (p : ProgramPage), (get_page_data ihex)[k]? = some p →
      p.address = k * page_size ∧
      p.data = ((get_flash_data ihex).drop (k * page_size)).take page_size) := by
  obtain ⟨hpages, hstart⟩ := loaded_pages flash_size page_size hexfile lines start ihex hload
  refine ⟨flash_file_eq clock nvm hexfile (some lines) flash_base flash_size page_size start ihex
    hbase hsize hpage hload, ?_, ?_⟩
  · intro s hprog hsbase
    rw [write_flash_eq clock s flash_base start (get_page_data ihex) hprog hsbase hstart, hpages,
      pages_of_programmed_at flash_base start page_size ihex.nvm_data]
    rfl
  · intro k p hk
    rw [hpages] at hk
    have hlt : k < ihex.nvm_data.length / page_size := by
      have := (List.getElem?_eq_some_iff.mp hk).1
      rw [pages_of_length] at this
      exact this
    rw [pages_of_getElem? page_size ihex.nvm_data k hlt] at hk
    cases hk
    exact ⟨rfl, rfl⟩

theorem offset_two_hex_loaded :
    load_file (IntelHexFile.IntelHexFile 4096 64) "firmware.hex" (some offset_two_hex)
      = .returned 2 (loaded_image 4096 64 offset_two_hex) := by
  have h := load_file_new_returns 4096 64 "firmware.hex" offset_two_hex (by decide) (by decide)
    (by decide)
  have hstart : (records offset_two_hex).foldl min_start 0x7fffffff = 2 := by decide
  rw [hstart] at h
  exact h

theorem offset_two_hex_pages :
    get_page_data (loaded_image 4096 64 offset_two_hex)
      = [page_at 64 (loaded_image 4096 64 offset_two_hex).nvm_data 0] := by
  have hfs : (loaded_image 4096 64 offset_two_hex).firmware_size = 2 := by decide
  have hlen : (loaded_image 4096 64 offset_two_hex).nvm_data.length = 64 := by
    rw [loaded_image_data, ← loaded_image_firmware_size, hfs]
    simp only [aligned]
    rw [if_pos (by decide), resize_length]
    decide
  unfold get_page_data
  rw [loaded_image_pages]
  unfold pages_of
  rw [hlen]
  have hone : List.range (64 / 64) = [0] := by decide
  rw [hone, List.map_cons, List.map_nil, Nat.zero_mul]

/-- Witness for C40: the file with the bytes AA and BB at offsets 2 and 3 and
no end-of-file record, on a tiny416 (flash base 0x8000, 4096 bytes in pages
of 64). `load_file` returns the start 2 and one page, with address 0, and
`write_flash` programs it at 0x8002, not at 0x8000. -/
theorem C40_pages_programmed_behind_start_offset_witness :
    load_file (IntelHexFile.IntelHexFile 4096 64) "firmware.hex" (some offset_two_hex)
      = .returned 2 (loaded_image 4096 64 offset_two_hex) ∧
    NvmProgrammer.write_flash still_clock 2 (get_page_data (loaded_image 4096 64 offset_two_hex))
        (programming_tiny416 [])
      = program_at still_clock ((get_page_data (loaded_image 4096 64 offset_two_hex)).map fun p =>
          (((if 2 < 0x8000 then 2 + 0x8000 else 2) + p.address) % 2 ^ 32, p))
        (programming_tiny416 []) ∧
    ((get_page_data (loaded_image 4096 64 offset_two_hex)).map fun p =>
        (((if 2 < 0x8000 then 2 + 0x8000 else 2) + p.address) % 2 ^ 32, p.address))
      = [(0x8002, 0)] :=
  ⟨offset_two_hex_loaded,
   (C40_pages_programmed_behind_start_offset still_clock (programming_tiny416 [])
      "firmware.hex" offset_two_hex 0x8000 4096 64 2 (loaded_image 4096 64 offset_two_hex)
      (by decide) (by decide) (by decide) offset_two_hex_loaded).2.1
      (programming_tiny416 []) rfl (by decide),
   by rw [offset_two_hex_pages]; rfl⟩

end updi
